import Mathlib

/-!
# DuckStation: the memory-preloaded disc image and the System orchestrator

A shallow embedding of `src/common/cd_image_memory.cpp` (the class `CDImageMemory`
and `CDImage::CreateMemoryImage`) and of `src/core/system.cpp`: the scheduler
(`System::Synchronize`, `System::SetDowncount`, `System::StallCPU`), the state
serialization (`System::DoState`, `LoadState`, `SaveState`, `Reset`) and the boot
sequence (`System::Boot`, `LoadEXE`, `InitializeComponents`, `UpdateMemoryCards`).

Conventions of the embedding:

* `u32` / `u64` / `size_t` values are natural numbers; every addition or
  multiplication the source performs in a fixed width carries an explicit `%`.
* An object is a record of its data members; a member function takes the record
  and returns the new record together with its C++ return value.
* Calls on collaborators (the progress callback, the source image, `malloc`,
  the hardware components) are recorded, in program order, in a trace.
* A run that writes or reads outside the allocated buffer ends in
  `Result.undefinedBehaviour`; a failed `Assert` ends in `Result.assertionFailed`.
-/

namespace DuckStation

/-! ## Disc image data model

A logical block address (`using LBA = u32`) is a `Nat`; a tick count (`TickCount`, an
`s32`) is an `Int`. -/

/-- Modelled from the spec: the constant `CDImage::RAW_SECTOR_SIZE` is declared in
`cd_image.h`, which is not part of this translation unit. It is the fixed size in
bytes of one raw sector of the memory image (a raw audio sector: 2352 bytes). -/
def RAW_SECTOR_SIZE : Nat := 2352

/-- Modelled from the spec: `CDImage::Index` is declared in `cd_image.h`. The fields
are the ones the spec lists (owning-file identifier, offset into that file,
per-sector byte size, length in sectors) and `cd_image_memory.cpp` uses.
`file_offset` is a `u64`, the other three are `u32`. -/
structure Index where
  file_index : Nat
  file_offset : Nat
  file_sector_size : Nat
  length : Nat
  deriving DecidableEq

/-- Modelled from the spec: `CDImage::Track` is declared in `cd_image.h`; a logical
track (number, mode, start address, length in sectors). `CopyImage` only copies
track values. -/
structure Track where
  track_number : Nat
  mode : Nat
  start_lba : Nat
  length : Nat
  deriving DecidableEq

/-- Modelled from the spec: `CDImage::Position`, a minutes/seconds/frames timecode. -/
structure Position where
  minute : Nat
  second : Nat
  frame : Nat
  deriving DecidableEq

/-- The bytes of one raw sector: exactly `RAW_SECTOR_SIZE` of them. -/
abbrev Sector := { bytes : List Nat // bytes.length = RAW_SECTOR_SIZE }

/-- Modelled from the spec: `CDSubChannelReplacement` (cd_subchannel_replacement.h) is
the sparse map from an absolute sector address to the corrected `SubChannelQ`. `Q` is
the type `CDImage::SubChannelQ`. -/
structure CDSubChannelReplacement (Q : Type) where
  m_replacement_subq : List (Nat × Q)

/-- Modelled from the spec: `CDSubChannelReplacement::AddReplacementSubChannelQ`
records the entry for `lba`; the newest entry for an address is the one found. -/
def CDSubChannelReplacement.AddReplacementSubChannelQ {Q : Type}
    (sbi : CDSubChannelReplacement Q) (lba : Nat) (subq : Q) : CDSubChannelReplacement Q :=
  { m_replacement_subq := (lba, subq) :: sbi.m_replacement_subq }

/-- Modelled from the spec: `CDSubChannelReplacement::GetReplacementSubChannelQ` looks
the address up; `none` is the C++ `false`, `some subq` is `true` with `*subq` written. -/
def CDSubChannelReplacement.GetReplacementSubChannelQ {Q : Type}
    (sbi : CDSubChannelReplacement Q) (lba : Nat) : Option Q :=
  sbi.m_replacement_subq.lookup lba

/-- The data members of the base class `CDImage` that `cd_image_memory.cpp` touches. -/
structure CDImage where
  m_filename : String
  m_lba_count : Nat
  m_tracks : List Track
  m_indices : List Index
  m_position_on_disc : Nat

/-- The class `CDImageMemory`: the base members, the flat sector buffer `m_memory`
(`none` is `nullptr`), its size in sectors, and the replacement table `m_sbi`. -/
structure CDImageMemory (Q : Type) extends CDImage where
  m_memory : Option (List Nat)
  m_memory_sectors : Nat
  m_sbi : CDSubChannelReplacement Q

/-- A default-constructed `CDImageMemory` (`std::make_unique<CDImageMemory>()`). -/
def CDImageMemory.new (Q : Type) : CDImageMemory Q :=
  { m_filename := "", m_lba_count := 0, m_tracks := [], m_indices := [],
    m_position_on_disc := 0, m_memory := none, m_memory_sectors := 0,
    m_sbi := { m_replacement_subq := [] } }

/-- The source image `CDImage* image` handed to `CopyImage`, as the values of the
accessors `CopyImage` calls on it. `ReadSectorFromIndex` is the source's virtual
sector read (`none` is `false`, `some sector` the bytes written to the buffer); it is
a function, so reads are deterministic. `Seek0` is the result of `image->Seek(0)`. -/
structure SourceImage where
  indices : List Index
  tracks : List Track
  filename : String
  lba_count : Nat
  ReadSectorFromIndex : Index → Nat → Option Sector
  Seek0 : Bool

/-- What the environment of `CDImageMemory` supplies: the platform (`SIZE_MAX` is
`std::numeric_limits<size_t>::max()`, `malloc_succeeds n` whether `std::malloc(n)`
returns non-null) and the members of `CDImage` and `SubChannelQ` defined in
`cd_image.cpp`.
Modelled from the spec: `CDImage_ReadSubChannelQ` is the underlying image's
subchannel read, a function of the base object's state that leaves the position
where it is; `CDImage_Seek` is `CDImage::Seek(track, position)`, which repositions
the image: `none` is `false` (nothing moved), `some lba` is `true` with the new
`m_position_on_disc`. -/
structure Externals (Q : Type) where
  SIZE_MAX : Nat
  malloc_succeeds : Nat → Bool
  IsCRCValid : Q → Bool
  CDImage_ReadSubChannelQ : CDImage → Option Q
  CDImage_Seek : CDImage → Nat → Position → Option Nat

/-- How a run of a member function ends. -/
inductive Result (α : Type) where
  | returned (value : α)
  | undefinedBehaviour
  | assertionFailed
  deriving DecidableEq

/-- The calls `CopyImage` makes on its collaborators, in program order. -/
inductive Event where
  | DisplayFormattedModalError (format : String) (args : List Nat)
  | ModalError (message : String)
  | SetFormattedStatusText (format : String) (args : List Nat)
  | SetStatusText (message : String)
  | SetProgressRange (range : Nat)
  | SetProgressValue (value : Nat)
  | Log_ErrorPrintf (format : String) (lba : Nat) (index : Index)
  | malloc (bytes : Nat)
  | ReadSectorFromIndex (index : Index) (lba : Nat)
  | Seek (lba : Nat)
  deriving DecidableEq

/-! ## The flat buffer -/

/-- Overwrite `data.length` bytes of `memory` starting at byte `offset`; `none` when
the range is not inside the buffer. -/
def memWrite (memory : List Nat) (offset : Nat) (data : List Nat) : Option (List Nat) :=
  if offset + data.length ≤ memory.length then
    some (memory.take offset ++ data ++ memory.drop (offset + data.length))
  else none

/-- The `n` bytes of `memory` starting at byte `offset`; `none` when the range is not
inside the buffer. -/
def memRead (memory : List Nat) (offset n : Nat) : Option (List Nat) :=
  if offset + n ≤ memory.length then some ((memory.drop offset).take n) else none

/-! ## `CDImageMemory::CopyImage` -/

/-- Lines 42-48: the total number of sectors, not including blank pregaps, summed in
the `u32` member `m_memory_sectors`. -/
def countMemorySectors (indices : List Index) : Nat :=
  indices.foldl
    (fun m_memory_sectors index =>
      if index.file_sector_size > 0 then (m_memory_sectors + index.length) % 4294967296
      else m_memory_sectors)
    0

/-- The local variables of the copy loop (lines 71-72) with the buffer and the trace:
`memory_ptr` is the byte offset of the pointer from `m_memory`. -/
structure CopyCursor where
  memory : List Nat
  memory_ptr : Nat
  sectors_read : Nat
  trace : List Event

/-- How the copy loop ends: it ran to completion, a source read failed (`return
false`), or the source was handed a pointer outside the buffer. -/
inductive CopyStep where
  | done (cursor : CopyCursor)
  | readFailed (cursor : CopyCursor)
  | outOfBounds (cursor : CopyCursor)

/-- Lines 79-90, the inner loop `for (u32 lba = ...; lba < index.length; lba++)`: the
first argument is the number of iterations left, `index.length - lba`. The source
writes the sector it read at `memory_ptr`; a read that fails writes nothing. -/
def copyIndexSectors (image : SourceImage) (index : Index) : Nat → Nat → CopyCursor → CopyStep
  | 0, _, cursor => .done cursor
  | n + 1, lba, cursor =>
    let trace := cursor.trace ++ [Event.ReadSectorFromIndex index lba]
    match image.ReadSectorFromIndex index lba with
    | none =>
      .readFailed { cursor with
        trace := trace ++ [Event.Log_ErrorPrintf "Failed to read LBA %u in index %u" lba index] }
    | some sector =>
      match memWrite cursor.memory cursor.memory_ptr sector.val with
      | none => .outOfBounds { cursor with trace := trace }
      | some memory =>
        copyIndexSectors image index n (lba + 1)
          { memory := memory
            memory_ptr := cursor.memory_ptr + RAW_SECTOR_SIZE
            sectors_read := (cursor.sectors_read + 1) % 4294967296
            trace := trace ++ [Event.SetProgressValue cursor.sectors_read] }

/-- Lines 73-91, the outer loop over the source's indices. -/
def copyIndices (image : SourceImage) : List Index → CopyCursor → CopyStep
  | [], cursor => .done cursor
  | index :: rest, cursor =>
    if index.file_sector_size = 0 then copyIndices image rest cursor
    else
      match copyIndexSectors image index index.length 0 cursor with
      | .done cursor => copyIndices image rest cursor
      | .readFailed cursor => .readFailed cursor
      | .outOfBounds cursor => .outOfBounds cursor

/-- Lines 96-107: the rebuilt indices and the final `current_offset` (a `u32`). -/
def rebuildIndices : List Index → Nat → List Index × Nat
  | [], current_offset => ([], current_offset)
  | index :: rest, current_offset =>
    let new_index := { index with file_index := 0 }
    if new_index.file_sector_size > 0 then
      let new_index := { new_index with file_offset := current_offset }
      let tail := rebuildIndices rest ((current_offset + new_index.length) % 4294967296)
      (new_index :: tail.1, tail.2)
    else
      let tail := rebuildIndices rest current_offset
      (new_index :: tail.1, tail.2)

/-- Lines 131-137, `CDImageMemory::ReadSubChannelQ`: the replacement table is asked
first, for `m_position_on_disc`; the base class only when it has no entry. -/
def ReadSubChannelQ {Q : Type} (ext : Externals Q) (self : CDImageMemory Q) : Option Q :=
  match self.m_sbi.GetReplacementSubChannelQ self.m_position_on_disc with
  | some subq => some subq
  | none => ext.CDImage_ReadSubChannelQ self.toCDImage

/-- Lines 122-126, the loop `for (LBA lba = ...; lba < m_lba_count; lba++)`: the first
argument is the number of iterations left. -/
def scanSubChannel {Q : Type} (ext : Externals Q) : Nat → Nat → CDImageMemory Q → CDImageMemory Q
  | 0, _, self => self
  | n + 1, lba, self =>
    match ReadSubChannelQ ext self with
    | some subq =>
      if !ext.IsCRCValid subq then
        scanSubChannel ext n (lba + 1)
          { self with m_sbi := self.m_sbi.AddReplacementSubChannelQ lba subq }
      else scanSubChannel ext n (lba + 1) self
    | none => scanSubChannel ext n (lba + 1) self

/-- The outcome of a run of `CopyImage`: how it ended, the object as it was left, and
the calls made on the collaborators. -/
structure CopyImageRun (Q : Type) where
  result : Result Bool
  self : CDImageMemory Q
  trace : List Event

/-- Where `CopyImage` stands after line 91: it has already ended, or the copy loop ran
to completion with the object and the loop's variables as given. -/
inductive Preload (Q : Type) where
  | ended (run : CopyImageRun Q)
  | copied (self : CDImageMemory Q) (cursor : CopyCursor)

/-- Lines 41-91 of `CopyImage`: the sector count, the address-space guard, the
allocation, and the copy loop. The bytes of the fresh buffer, which `malloc` leaves
unspecified, are zeros here. -/
def CopyImage_preload {Q : Type} (ext : Externals Q) (self : CDImageMemory Q)
    (image : SourceImage) : Preload Q :=
  let m_memory_sectors := countMemorySectors image.indices
  let self := { self with m_memory_sectors := m_memory_sectors }
  if (RAW_SECTOR_SIZE % 18446744073709551616) * (m_memory_sectors % 18446744073709551616)
        % 18446744073709551616 ≥ ext.SIZE_MAX % 18446744073709551616 then
    .ended { result := .returned false, self := self,
             trace := [Event.DisplayFormattedModalError "Insufficient address space" []] }
  else
    let trace := [Event.SetFormattedStatusText "Allocating memory for %u sectors..." [m_memory_sectors]]
    let bytes := (RAW_SECTOR_SIZE % (ext.SIZE_MAX + 1)) * (m_memory_sectors % (ext.SIZE_MAX + 1))
                   % (ext.SIZE_MAX + 1)
    let trace := trace ++ [Event.malloc bytes]
    if !ext.malloc_succeeds bytes then
      .ended { result := .returned false, self := { self with m_memory := none },
               trace := trace ++ [Event.DisplayFormattedModalError
                 "Failed to allocate memory for %llu sectors" [m_memory_sectors]] }
    else
      let trace := trace ++ [Event.SetStatusText "Preloading CD image to RAM...",
                             Event.SetProgressRange m_memory_sectors, Event.SetProgressValue 0]
      match copyIndices image image.indices
              { memory := List.replicate bytes 0, memory_ptr := 0, sectors_read := 0,
                trace := trace } with
      | .done cursor => .copied { self with m_memory := some cursor.memory } cursor
      | .readFailed cursor =>
        .ended { result := .returned false, self := { self with m_memory := some cursor.memory },
                 trace := cursor.trace }
      | .outOfBounds cursor =>
        .ended { result := .undefinedBehaviour,
                 self := { self with m_memory := some cursor.memory }, trace := cursor.trace }

/-- Lines 93-128 of `CopyImage`: the track list, the rebuilt index list with its
assertion, the subchannel scan and the final seek. -/
def CopyImage_finish {Q : Type} (ext : Externals Q) (self : CDImageMemory Q)
    (image : SourceImage) (trace : List Event) : CopyImageRun Q :=
  let self := { self with m_tracks := self.m_tracks ++ image.tracks }
  let rebuilt := rebuildIndices image.indices 0
  let self := { self with m_indices := self.m_indices ++ rebuilt.1 }
  if rebuilt.2 ≠ self.m_memory_sectors then
    { result := .assertionFailed, self := self, trace := trace }
  else
    let self := { self with m_filename := image.filename, m_lba_count := image.lba_count }
    let trace := trace ++ [Event.Seek 0]
    if !image.Seek0 then
      { result := .returned false, self := self,
        trace := trace ++ [Event.ModalError "Failed to seek to start of image for subq read"] }
    else
      let trace := trace ++ [Event.SetStatusText "Looking for invalid subchannel data..."]
      let self := scanSubChannel ext self.m_lba_count 0 self
      match ext.CDImage_Seek self.toCDImage 1 { minute := 0, second := 0, frame := 0 } with
      | some lba =>
        { result := .returned true, self := { self with m_position_on_disc := lba },
          trace := trace }
      | none => { result := .returned false, self := self, trace := trace }

/-- Lines 39-129, `CDImageMemory::CopyImage(image, progress)`. -/
def CopyImage {Q : Type} (ext : Externals Q) (self : CDImageMemory Q)
    (image : SourceImage) : CopyImageRun Q :=
  match CopyImage_preload ext self image with
  | .ended run => run
  | .copied self cursor => CopyImage_finish ext self image cursor.trace

/-- Lines 139-150, `CDImageMemory::ReadSectorFromIndex(buffer, index, lba_in_index)`:
the result is the C++ return value and the destination buffer afterwards.
`DebugAssert(index.file_index == 0)` is a debug-build check that expands to nothing in
a release build, which is the build embedded here. -/
def ReadSectorFromIndex {Q : Type} (ext : Externals Q) (self : CDImageMemory Q)
    (buffer : List Nat) (index : Index) (lba_in_index : Nat) : Result (Bool × List Nat) :=
  let sector_number := (index.file_offset + lba_in_index) % 18446744073709551616
  if sector_number ≥ self.m_memory_sectors then .returned (false, buffer)
  else
    let file_offset := (sector_number % (ext.SIZE_MAX + 1)) * (RAW_SECTOR_SIZE % (ext.SIZE_MAX + 1))
                         % (ext.SIZE_MAX + 1)
    match self.m_memory with
    | none => .undefinedBehaviour
    | some memory =>
      match memRead memory file_offset RAW_SECTOR_SIZE with
      | none => .undefinedBehaviour
      | some bytes => .returned (true, bytes ++ buffer.drop RAW_SECTOR_SIZE)

/-- Lines 152-160, `CDImage::CreateMemoryImage(image, progress)`: `some` is the new
image, `none` the empty `unique_ptr`. -/
def CreateMemoryImage {Q : Type} (ext : Externals Q) (image : SourceImage) :
    Result (Option (CDImageMemory Q)) :=
  let run := CopyImage ext (CDImageMemory.new Q) image
  match run.result with
  | .returned true => .returned (some run.self)
  | .returned false => .returned none
  | .undefinedBehaviour => .undefinedBehaviour
  | .assertionFailed => .assertionFailed

/-! ## The System orchestrator: the shared-tick scheduler -/

/-- Modelled from the spec: `ConsoleRegion` is declared in `types.h`; `Auto` is the
unresolved sentinel, `NTSC_U` the fixed baseline. -/
inductive ConsoleRegion where
  | Auto
  | NTSC_J
  | NTSC_U
  | PAL
  deriving DecidableEq

/-- The hardware components `System` owns, one `std::unique_ptr` member each. -/
inductive Component where
  | CPU
  | Bus
  | DMA
  | InterruptController
  | GPU
  | CDROM
  | Pad
  | Timers
  | SPU
  | MDEC
  deriving DecidableEq

/-- Modelled from the spec: the scheduling state of `CPU::Core` (cpu_core.h), the
pending-tick counter and the downcount. -/
structure CPUCore where
  m_pending_ticks : Int
  m_downcount : Int
  deriving DecidableEq

/-- What a component may call on the `System*` it was given at `Initialize` while it
executes: `System::SetDowncount` and `System::StallCPU` (lines 428-436), and the two
members by which it advances the frame counters.
Modelled from the spec: `System::IncrementFrameNumber` and
`System::IncrementInternalFrameNumber` are defined in `system.h`; `RunFrame` (lines
297-305) runs the CPU and `Synchronize` until a component has advanced the frame
number. -/
inductive SystemCall where
  | SetDowncount (downcount : Int)
  | StallCPU (ticks : Int)
  | IncrementFrameNumber
  | IncrementInternalFrameNumber
  deriving DecidableEq

/-- The class `System`: the CPU's scheduling state, the state `σ` of the hardware
components (everything else they hold), the region and the counters. The three
counters are `u32` members: line 299 copies the frame number into a `u32` and line 417
adds a `u32` to the global tick counter. -/
structure System (σ : Type) where
  m_cpu : CPUCore
  components : σ
  m_region : ConsoleRegion
  m_frame_number : Nat
  m_internal_frame_number : Nat
  m_global_tick_counter : Nat

/-- What the environment of the scheduler supplies: each component's `Execute(ticks)`,
as its new state and the calls it makes back on `System`, and the two members of
`CPU::Core` whose values the spec leaves open.
Modelled from the spec: `MAX_SLICE_SIZE` is the value `ResetDowncount` clears the
downcount to; `SetDowncount_value current requested` is the downcount after
`CPU::Core::SetDowncount(requested)`. -/
structure SystemExternals (σ : Type) where
  Execute : Component → Int → System σ → σ × List SystemCall
  MAX_SLICE_SIZE : Int
  SetDowncount_value : Int → Int → Int

/-- Modelled from the spec: `CPU::Core::GetPendingTicks`. -/
def CPUCore.GetPendingTicks (cpu : CPUCore) : Int := cpu.m_pending_ticks

/-- Modelled from the spec: `CPU::Core::ResetPendingTicks` clears the pending-tick
counter. -/
def CPUCore.ResetPendingTicks (cpu : CPUCore) : CPUCore := { cpu with m_pending_ticks := 0 }

/-- Modelled from the spec: `CPU::Core::ResetDowncount` clears the downcount to its
reset value. -/
def CPUCore.ResetDowncount {σ : Type} (ext : SystemExternals σ) (cpu : CPUCore) : CPUCore :=
  { cpu with m_downcount := ext.MAX_SLICE_SIZE }

/-- Modelled from the spec: `CPU::Core::AddPendingTicks` adds to the pending-tick
counter. -/
def CPUCore.AddPendingTicks (cpu : CPUCore) (ticks : Int) : CPUCore :=
  { cpu with m_pending_ticks := cpu.m_pending_ticks + ticks }

/-- Modelled from the spec: `CPU::Core::SetDowncount`. -/
def CPUCore.SetDowncount {σ : Type} (ext : SystemExternals σ) (cpu : CPUCore)
    (downcount : Int) : CPUCore :=
  { cpu with m_downcount := ext.SetDowncount_value cpu.m_downcount downcount }

/-- Lines 428-431, `System::SetDowncount`. -/
def System.SetDowncount {σ : Type} (ext : SystemExternals σ) (self : System σ)
    (downcount : Int) : System σ :=
  { self with m_cpu := self.m_cpu.SetDowncount ext downcount }

/-- Lines 433-436, `System::StallCPU`. -/
def System.StallCPU {σ : Type} (self : System σ) (ticks : Int) : System σ :=
  { self with m_cpu := self.m_cpu.AddPendingTicks ticks }

/-- Modelled from the spec: `System::IncrementFrameNumber` (system.h), `m_frame_number++`
on the `u32` member. -/
def System.IncrementFrameNumber {σ : Type} (self : System σ) : System σ :=
  { self with m_frame_number := (self.m_frame_number + 1) % 4294967296 }

/-- Modelled from the spec: `System::IncrementInternalFrameNumber` (system.h),
`m_internal_frame_number++` on the `u32` member. -/
def System.IncrementInternalFrameNumber {σ : Type} (self : System σ) : System σ :=
  { self with m_internal_frame_number := (self.m_internal_frame_number + 1) % 4294967296 }

/-- One call a component makes back on `System`. -/
def System.call {σ : Type} (ext : SystemExternals σ) (self : System σ) : SystemCall → System σ
  | .SetDowncount downcount => self.SetDowncount ext downcount
  | .StallCPU ticks => self.StallCPU ticks
  | .IncrementFrameNumber => self.IncrementFrameNumber
  | .IncrementInternalFrameNumber => self.IncrementInternalFrameNumber

/-- The calls `Synchronize` makes, in program order. -/
inductive SyncEvent where
  | ResetPendingTicks
  | ResetDowncount
  | Execute (component : Component) (ticks : Int)
  deriving DecidableEq

/-- One line `m_x->Execute(pending_ticks)` of `Synchronize`: the component's state
changes, its calls back on `System` take effect, and the call is recorded. -/
def executeComponent {σ : Type} (ext : SystemExternals σ) (component : Component)
    (ticks : Int) (run : System σ × List SyncEvent) : System σ × List SyncEvent :=
  let out := ext.Execute component ticks run.1
  ((out.2).foldl (System.call ext) { run.1 with components := out.1 },
   run.2 ++ [SyncEvent.Execute component ticks])

/-- Lines 408-426, `System::Synchronize`: the system afterwards and the calls made. -/
def Synchronize {σ : Type} (ext : SystemExternals σ) (self : System σ) :
    System σ × List SyncEvent :=
  let pending_ticks := self.m_cpu.GetPendingTicks
  if pending_ticks = 0 then (self, [])
  else
    let self := { self with m_cpu := self.m_cpu.ResetPendingTicks }
    let self := { self with m_cpu := self.m_cpu.ResetDowncount ext }
    let self := { self with
      m_global_tick_counter :=
        (self.m_global_tick_counter + (pending_ticks % 4294967296).toNat) % 4294967296 }
    let run := (self, [SyncEvent.ResetPendingTicks, SyncEvent.ResetDowncount])
    let run := executeComponent ext .GPU pending_ticks run
    let run := executeComponent ext .Timers pending_ticks run
    let run := executeComponent ext .CDROM pending_ticks run
    let run := executeComponent ext .Pad pending_ticks run
    let run := executeComponent ext .SPU pending_ticks run
    let run := executeComponent ext .MDEC pending_ticks run
    executeComponent ext .DMA pending_ticks run

/-- The `Execute` calls of a trace, in order. -/
def executions : List SyncEvent → List (Component × Int)
  | [] => []
  | .Execute component ticks :: rest => (component, ticks) :: executions rest
  | _ :: rest => executions rest

/-! ## The System orchestrator: state serialization and `Reset` -/

/-- The part of a `System` its hardware components own: the CPU's scheduling state and
the components' own state. -/
def System.hardware {σ : Type} (self : System σ) : CPUCore × σ :=
  (self.m_cpu, self.components)

/-- The `System` with its hardware part replaced; the region and the counters stay. -/
def System.withHardware {σ : Type} (self : System σ) (hardware : CPUCore × σ) : System σ :=
  { self with m_cpu := hardware.1, components := hardware.2 }

/-- Modelled from the spec: one element of the persisted state stream
(`common/byte_stream.h`), a named section marker or a serialized value. -/
inductive StreamItem where
  | marker (name : String)
  | value (value : Nat)
  deriving DecidableEq

/-- The enumeration `StateWrapper::Mode`. -/
inductive Mode where
  | Read
  | Write
  deriving DecidableEq

/-- Modelled from the spec: the class `StateWrapper` (`common/state_wrapper.h`): the
mode, the stream (when reading, what is still to be read; when writing, what has been
written) and the sticky error flag. -/
structure StateWrapper where
  m_mode : Mode
  m_stream : List StreamItem
  m_error : Bool
  deriving DecidableEq

/-- Modelled from the spec: `StateWrapper::HasError`. -/
def StateWrapper.HasError (sw : StateWrapper) : Bool := sw.m_error

/-- Modelled from the spec: `StateWrapper::DoMarker(marker)`. Writing appends the
marker; reading takes the next element of the stream and succeeds only when it is this
marker, so a mismatch is a detected failure. With the error flag set it fails. -/
def StateWrapper.DoMarker (sw : StateWrapper) (marker : String) : Bool × StateWrapper :=
  if sw.m_error then (false, sw)
  else
    match sw.m_mode with
    | .Write => (true, { sw with m_stream := sw.m_stream ++ [StreamItem.marker marker] })
    | .Read =>
      match sw.m_stream with
      | StreamItem.marker name :: rest =>
        if name = marker then (true, { sw with m_stream := rest })
        else (false, { sw with m_stream := rest })
      | _ => (false, { sw with m_error := true })

/-- Modelled from the spec: `StateWrapper::Do(&value)` on a `u32`. Writing appends the
value and leaves the variable alone; reading stores the next element of the stream in
the variable. A read that fails sets the error flag and leaves `failed value` in the
variable; with the flag already set nothing is read or written. -/
def StateWrapper.Do (failed : Nat → Nat) (sw : StateWrapper) (value : Nat) :
    StateWrapper × Nat :=
  match sw.m_mode with
  | .Write =>
    if sw.m_error then (sw, value)
    else ({ sw with m_stream := sw.m_stream ++ [StreamItem.value value] }, value)
  | .Read =>
    if sw.m_error then (sw, failed value)
    else
      match sw.m_stream with
      | StreamItem.value v :: rest => ({ sw with m_stream := rest }, v)
      | _ => ({ sw with m_error := true }, failed value)

/-- What the environment of `DoState` and `Reset` supplies: each component's
`DoState(sw)` (its `bool`, the wrapper afterwards, the hardware afterwards) and
`Reset()`, and the value a failed read leaves in a variable. -/
structure StateExternals (σ : Type) where
  DoState : Component → StateWrapper → CPUCore × σ → (Bool × StateWrapper) × (CPUCore × σ)
  Reset : Component → CPUCore × σ → CPUCore × σ
  failed_read_value : Nat → Nat

/-- The calls `DoState` makes, in program order, with the `bool` each returned. -/
inductive StateEvent where
  | DoMarker (marker : String) (ok : Bool)
  | Do (member : String)
  | DoState (component : Component) (ok : Bool)
  deriving DecidableEq

/-- The outcome of a run of `System::DoState`: its `bool`, the wrapper and the system
afterwards, and the calls made. -/
structure StateRun (σ : Type) where
  result : Bool
  sw : StateWrapper
  self : System σ
  trace : List StateEvent

/-- The component sections of lines 235-263, in program order: the marker and the
component whose `DoState` follows it. -/
def componentSections : List (String × Component) :=
  [("CPU", .CPU), ("Bus", .Bus), ("DMA", .DMA),
   ("InterruptController", .InterruptController), ("GPU", .GPU), ("CDROM", .CDROM),
   ("Pad", .Pad), ("Timers", .Timers), ("SPU", .SPU), ("MDEC", .MDEC)]

/-- Lines 235-265: one `if (!sw.DoMarker(name) || !m_x->DoState(sw)) return false;` per
section, then `return !sw.HasError();`. -/
def DoState_sections {σ : Type} (ext : StateExternals σ) :
    List (String × Component) → StateWrapper → System σ → List StateEvent → StateRun σ
  | [], sw, self, trace =>
    { result := !sw.HasError, sw := sw, self := self, trace := trace }
  | (marker, component) :: rest, sw, self, trace =>
    let m := sw.DoMarker marker
    let trace := trace ++ [StateEvent.DoMarker marker m.1]
    if !m.1 then { result := false, sw := m.2, self := self, trace := trace }
    else
      let d := ext.DoState component m.2 self.hardware
      let self := self.withHardware d.2
      let trace := trace ++ [StateEvent.DoState component d.1.1]
      if !d.1.1 then { result := false, sw := d.1.2, self := self, trace := trace }
      else DoState_sections ext rest d.1.2 self trace

/-- Lines 226-266, `System::DoState(sw)`. -/
def DoState {σ : Type} (ext : StateExternals σ) (sw : StateWrapper) (self : System σ) :
    StateRun σ :=
  let m := sw.DoMarker "System"
  if !m.1 then
    { result := false, sw := m.2, self := self, trace := [StateEvent.DoMarker "System" false] }
  else
    let f := m.2.Do ext.failed_read_value self.m_frame_number
    let i := f.1.Do ext.failed_read_value self.m_internal_frame_number
    let g := i.1.Do ext.failed_read_value self.m_global_tick_counter
    DoState_sections ext componentSections g.1
      { self with
        m_frame_number := f.2, m_internal_frame_number := i.2, m_global_tick_counter := g.2 }
      [StateEvent.DoMarker "System" true, StateEvent.Do "m_frame_number",
       StateEvent.Do "m_internal_frame_number", StateEvent.Do "m_global_tick_counter"]

/-- Lines 285-289, `System::LoadState(state)`: `state` is what the stream still holds. -/
def LoadState {σ : Type} (ext : StateExternals σ) (state : List StreamItem)
    (self : System σ) : StateRun σ :=
  DoState ext { m_mode := .Read, m_stream := state, m_error := false } self

/-- Lines 291-295, `System::SaveState(state)`: `state` is what the stream already
holds. -/
def SaveState {σ : Type} (ext : StateExternals σ) (state : List StreamItem)
    (self : System σ) : StateRun σ :=
  DoState ext { m_mode := .Write, m_stream := state, m_error := false } self

/-- The components in the order lines 270-279 reset them. -/
def resetOrder : List Component :=
  [.CPU, .Bus, .DMA, .InterruptController, .GPU, .CDROM, .Pad, .Timers, .SPU, .MDEC]

/-- Lines 268-283, `System::Reset`: the ten components are reset in place, then the
counters are set. -/
def Reset {σ : Type} (ext : StateExternals σ) (self : System σ) : System σ :=
  let self := self.withHardware
    (resetOrder.foldl (fun hardware component => ext.Reset component hardware) self.hardware)
  { self with m_frame_number := 1, m_internal_frame_number := 0, m_global_tick_counter := 0 }

/-- The members of `Settings` (settings.h) that `system.cpp` reads in `Boot`. -/
structure Settings where
  region : ConsoleRegion
  bios_patch_tty_enable : Bool
  bios_patch_fast_boot : Bool
  memory_card_a_path : String
  memory_card_b_path : String

/-- What the environment of `Boot` supplies: the host interface (its settings, its BIOS
images, keyed by region), the libraries (`StaticString::EndsWith(suffix,
case_sensitive)`, `CDImage::Open`, the `BIOS` patch functions on the image bytes, the
bytes of a file opened with `fopen`, `MemoryCard::Open`, a card being named by its
path) and the members of the hardware components `Boot` calls. -/
structure BootExternals (σ : Type) where
  settings : Settings
  EndsWith : String → String → Bool → Bool
  CDImage_Open : String → Option CDImage
  GetConsoleRegionName : ConsoleRegion → String
  GetBIOSImage : ConsoleRegion → Option (List Nat)
  GetHash : List Nat → Nat
  PatchBIOSEnableTTY : List Nat → Nat → List Nat
  PatchBIOSFastBoot : List Nat → Nat → List Nat
  PatchBIOSForEXE : List Nat → Nat → Nat → Nat → Nat → Bool × List Nat
  file : String → Option (List Nat)
  MemoryCard_Open : String → Bool
  Initialize : Component → CPUCore × σ → CPUCore × σ
  SetMemoryCard : Nat → Option String → σ → σ
  SafeWriteMemoryWord : Nat → Nat → σ → σ
  InsertMedia : Option CDImage → σ → σ
  HasMedia : σ → Bool
  SetBIOS : List Nat → σ → σ

/-- The calls `Boot` makes on the host, the libraries and the components, in program
order. -/
inductive BootEvent where
  | CDImage_Open (filename : String)
  | ReportError (format : String) (argument : String)
  | GetBIOSImage (region : ConsoleRegion)
  | Initialize (component : Component)
  | SetMemoryCard (slot : Nat) (card : Option String)
  | MemoryCard_Open (path : String)
  | PatchBIOSEnableTTY
  | fopen (filename : String)
  | SafeWriteMemoryWord (address : Nat) (value : Nat)
  | PatchBIOSForEXE (r_pc : Nat) (r_gp : Nat) (r_sp : Nat) (r_fp : Nat)
  | InsertMedia (present : Bool)
  | PatchBIOSFastBoot
  | SetBIOS
  | Reset (component : Component)
  deriving DecidableEq

/-- Lines 39-43, `System::GetRegionForCDImage`: not implemented, it returns NTSC-U for
every image. -/
def GetRegionForCDImage (_image : CDImage) : Option ConsoleRegion :=
  some ConsoleRegion.NTSC_U

/-- Lines 45-49, `System::IsPSExe`. -/
def IsPSExe {σ : Type} (ext : BootExternals σ) (filename : String) : Bool :=
  ext.EndsWith filename ".psexe" false || ext.EndsWith filename ".exe" false

/-- The components in the order lines 171-184 initialize them (the GPU is initialized
when it is created). -/
def initializeOrder : List Component :=
  [.CPU, .Bus, .DMA, .InterruptController, .CDROM, .Pad, .Timers, .SPU, .MDEC]

/-- Lines 169-185, `System::InitializeComponents`. -/
def InitializeComponents {σ : Type} (ext : BootExternals σ) (self : System σ) : System σ :=
  self.withHardware
    (initializeOrder.foldl (fun hardware component => ext.Initialize component hardware)
      self.hardware)

/-- One `if (!path.empty()) { card = MemoryCard::Open(this, path); if (card)
m_pad->SetMemoryCard(slot, card); }` of `UpdateMemoryCards`. -/
def attachMemoryCard {σ : Type} (ext : BootExternals σ) (slot : Nat) (path : String)
    (run : σ × List BootEvent) : σ × List BootEvent :=
  if path ≠ "" then
    if ext.MemoryCard_Open path then
      (ext.SetMemoryCard slot (some path) run.1,
       run.2 ++ [BootEvent.MemoryCard_Open path, BootEvent.SetMemoryCard slot (some path)])
    else (run.1, run.2 ++ [BootEvent.MemoryCard_Open path])
  else run

/-- Lines 443-462, `System::UpdateMemoryCards`. -/
def UpdateMemoryCards {σ : Type} (ext : BootExternals σ) (run : σ × List BootEvent) :
    σ × List BootEvent :=
  let run := (ext.SetMemoryCard 1 none (ext.SetMemoryCard 0 none run.1),
    run.2 ++ [BootEvent.SetMemoryCard 0 none, BootEvent.SetMemoryCard 1 none])
  let run := attachMemoryCard ext 0 ext.settings.memory_card_a_path run
  attachMemoryCard ext 1 ext.settings.memory_card_b_path run

/-- A little-endian `u32` at a byte offset. -/
def readU32 (bytes : List Nat) (offset : Nat) : Nat :=
  bytes.getD offset 0 % 256 + 256 * (bytes.getD (offset + 1) 0 % 256)
    + 65536 * (bytes.getD (offset + 2) 0 % 256) + 16777216 * (bytes.getD (offset + 3) 0 % 256)

/-- Lines 310-326, the members of `EXEHeader` that `LoadEXE` uses. -/
structure EXEHeader where
  initial_pc : Nat
  initial_gp : Nat
  load_address : Nat
  file_size : Nat
  memfill_start : Nat
  memfill_size : Nat
  initial_sp_base : Nat
  initial_sp_offset : Nat
  deriving DecidableEq

/-- The packed layout of lines 310-326: the `0x800` bytes read into the header. -/
def EXEHeader.read (bytes : List Nat) : EXEHeader :=
  { initial_pc := readU32 bytes 0x10
    initial_gp := readU32 bytes 0x14
    load_address := readU32 bytes 0x18
    file_size := readU32 bytes 0x1C
    memfill_start := readU32 bytes 0x28
    memfill_size := readU32 bytes 0x2C
    initial_sp_base := readU32 bytes 0x30
    initial_sp_offset := readU32 bytes 0x34 }

/-- The loops of lines 345-349 and 363-367: one `SafeWriteMemoryWord(address, word)`
per word, the `u32` address advancing by `sizeof(u32)`. -/
def writeMemoryWords {σ : Type} (ext : BootExternals σ) :
    List Nat → Nat → σ × List BootEvent → σ × List BootEvent
  | [], _, run => run
  | word :: rest, address, run =>
    writeMemoryWords ext rest ((address + 4) % 4294967296)
      (ext.SafeWriteMemoryWord address word run.1,
       run.2 ++ [BootEvent.SafeWriteMemoryWord address word])

/-- The outcome of a run of `LoadEXE`: how it ended, the BIOS image and the components
afterwards, and the calls made. -/
structure LoadEXERun (σ : Type) where
  result : Result Bool
  bios_image : List Nat
  components : σ
  trace : List BootEvent

/-- Lines 307-378, `System::LoadEXE(filename, bios_image)`. The `fread` of line 355
puts up to `file_size` bytes into a vector of `file_size / 4` words: a run in which it
stores more bytes than the vector holds ends in undefined behaviour. -/
def LoadEXE {σ : Type} (ext : BootExternals σ) (filename : String) (bios_image : List Nat)
    (components : σ) : LoadEXERun σ :=
  match ext.file filename with
  | none =>
    { result := .returned false, bios_image := bios_image, components := components,
      trace := [BootEvent.fopen filename] }
  | some bytes =>
    if bytes.length < 0x800 then
      { result := .returned false, bios_image := bios_image, components := components,
        trace := [BootEvent.fopen filename] }
    else
      let header := EXEHeader.read bytes
      let body := bytes.drop 0x800
      let run : σ × List BootEvent :=
        if header.memfill_size > 0 then
          writeMemoryWords ext (List.replicate (header.memfill_size / 4) 0)
            (header.memfill_start - header.memfill_start % 4)
            (components, [BootEvent.fopen filename])
        else (components, [BootEvent.fopen filename])
      if header.file_size ≥ 4 ∧ 4 * (header.file_size / 4) < min body.length header.file_size then
        { result := .undefinedBehaviour, bios_image := bios_image, components := run.1,
          trace := run.2 }
      else if header.file_size ≥ 4 ∧ body.length < header.file_size then
        { result := .returned false, bios_image := bios_image, components := run.1,
          trace := run.2 }
      else
        let run :=
          if header.file_size ≥ 4 then
            writeMemoryWords ext
              ((List.range (header.file_size / 4)).map (fun i => readU32 body (4 * i)))
              header.load_address run
          else run
        let r_pc := header.load_address
        let r_gp := header.initial_gp
        let r_sp := header.initial_sp_base
        let r_fp := (header.initial_sp_base + header.initial_sp_offset) % 4294967296
        let patched := ext.PatchBIOSForEXE bios_image r_pc r_gp r_sp r_fp
        { result := .returned patched.1, bios_image := patched.2, components := run.1,
          trace := run.2 ++ [BootEvent.PatchBIOSForEXE r_pc r_gp r_sp r_fp] }

/-- The outcome of a run of `Boot`: how it ended, the system afterwards, and the calls
made. -/
structure BootRun (σ : Type) where
  result : Result Bool
  self : System σ
  trace : List BootEvent

/-- Lines 156-167 of `Boot`: the medium is inserted, the fast-boot patch applied if the
drive then has a medium and the setting is on, the BIOS installed on the bus, and the
system reset. -/
def Boot_finish {σ : Type} (st : StateExternals σ) (ext : BootExternals σ) (self : System σ)
    (media : Option CDImage) (bios_image : List Nat) (bios_hash : Nat)
    (trace : List BootEvent) : BootRun σ :=
  let components := ext.InsertMedia media self.components
  let trace := trace ++ [BootEvent.InsertMedia media.isSome]
  let patch := ext.HasMedia components && ext.settings.bios_patch_fast_boot
  let bios_image := if patch then ext.PatchBIOSFastBoot bios_image bios_hash else bios_image
  let trace := if patch then trace ++ [BootEvent.PatchBIOSFastBoot] else trace
  let components := ext.SetBIOS bios_image components
  let trace := trace ++ [BootEvent.SetBIOS]
  { result := .returned true
    self := Reset st { self with components := components }
    trace := trace ++ resetOrder.map BootEvent.Reset }

/-- Lines 131-167 of `Boot`: the BIOS image, the component set-up, the TTY patch, the
executable (`exe` is the file name when `exe_boot` is set), then the rest. -/
def Boot_load {σ : Type} (st : StateExternals σ) (ext : BootExternals σ) (self : System σ)
    (media : Option CDImage) (exe : Option String) (trace : List BootEvent) : BootRun σ :=
  let trace := trace ++ [BootEvent.GetBIOSImage self.m_region]
  match ext.GetBIOSImage self.m_region with
  | none =>
    { result := .returned false, self := self,
      trace := trace ++ [BootEvent.ReportError "Failed to load %s BIOS"
        (ext.GetConsoleRegionName self.m_region)] }
  | some bios_image =>
    let self := InitializeComponents ext self
    let trace := trace ++ initializeOrder.map BootEvent.Initialize
    let cards := UpdateMemoryCards ext (self.components, trace)
    let self := { self with components := cards.1 }
    let trace := cards.2
    let bios_hash := ext.GetHash bios_image
    let bios_image :=
      if ext.settings.bios_patch_tty_enable then ext.PatchBIOSEnableTTY bios_image bios_hash
      else bios_image
    let trace :=
      if ext.settings.bios_patch_tty_enable then trace ++ [BootEvent.PatchBIOSEnableTTY]
      else trace
    match exe with
    | none => Boot_finish st ext self media bios_image bios_hash trace
    | some filename =>
      let loaded := LoadEXE ext filename bios_image self.components
      let self := { self with components := loaded.components }
      let trace := trace ++ loaded.trace
      match loaded.result with
      | .returned true => Boot_finish st ext self media loaded.bios_image bios_hash trace
      | .returned false =>
        { result := .returned false, self := self,
          trace := trace ++ [BootEvent.ReportError "Failed to load EXE file '%s'" filename] }
      | .undefinedBehaviour => { result := .undefinedBehaviour, self := self, trace := trace }
      | .assertionFailed => { result := .assertionFailed, self := self, trace := trace }

/-- Lines 87-167, `System::Boot(filename)`; `none` is the null pointer. The `Log_*`
calls, which touch no member of the system, are left out. -/
def Boot {σ : Type} (st : StateExternals σ) (ext : BootExternals σ) (self : System σ)
    (filename : Option String) : BootRun σ :=
  match filename with
  | some filename =>
    if IsPSExe ext filename then
      let self :=
        if self.m_region = ConsoleRegion.Auto then { self with m_region := ConsoleRegion.NTSC_U }
        else self
      Boot_load st ext self none (some filename) []
    else
      match ext.CDImage_Open filename with
      | none =>
        { result := .returned false, self := self,
          trace := [BootEvent.CDImage_Open filename,
                    BootEvent.ReportError "Failed to load CD image '%s'" filename] }
      | some media =>
        let self :=
          if self.m_region = ConsoleRegion.Auto then
            { self with m_region := (GetRegionForCDImage media).getD ConsoleRegion.NTSC_U }
          else self
        Boot_load st ext self (some media) none [BootEvent.CDImage_Open filename]
  | none =>
    let self :=
      if self.m_region = ConsoleRegion.Auto then { self with m_region := ConsoleRegion.NTSC_U }
      else self
    Boot_load st ext self none none []

/-! ## Example inputs -/

/-- A 64-bit platform on which every allocation and the final seek succeed; a
`SubChannelQ` is a number, valid when it is zero, and the underlying image reports the
current position as its subchannel data. -/
def exampleExternals : Externals Nat :=
  { SIZE_MAX := 18446744073709551615
    malloc_succeeds := fun _ => true
    IsCRCValid := fun subq => subq == 0
    CDImage_ReadSubChannelQ := fun base => some base.m_position_on_disc
    CDImage_Seek := fun _ _ _ => some 0 }

/-- The sector the example source returns: `RAW_SECTOR_SIZE` copies of one byte. -/
def exampleSector (byte : Nat) : Sector :=
  ⟨List.replicate RAW_SECTOR_SIZE byte, List.length_replicate _ _⟩

/-- A source image with a two-sector data index, a blank pregap and a one-sector audio
index; every read succeeds. -/
def exampleImage : SourceImage :=
  { indices := [{ file_index := 3, file_offset := 16, file_sector_size := 2352, length := 2 },
                { file_index := 3, file_offset := 0, file_sector_size := 0, length := 150 },
                { file_index := 4, file_offset := 0, file_sector_size := 2352, length := 1 }]
    tracks := [{ track_number := 1, mode := 1, start_lba := 0, length := 152 },
               { track_number := 2, mode := 0, start_lba := 152, length := 1 }]
    filename := "example.cue"
    lba_count := 153
    ReadSectorFromIndex := fun index lba => some (exampleSector (index.file_index + lba))
    Seek0 := true }

/-- A 32-bit platform (`SIZE_MAX = 2^32 - 1`) on which every allocation succeeds. -/
def platform32 : Externals Nat :=
  { SIZE_MAX := 4294967295
    malloc_succeeds := fun _ => true
    IsCRCValid := fun subq => subq == 0
    CDImage_ReadSubChannelQ := fun base => some base.m_position_on_disc
    CDImage_Seek := fun _ _ _ => some 0 }

/-- A source image whose two real indices have `2^32 - 1` and `2` sectors: `2^32 + 1`
real sectors in all, a sum that does not fit the `u32` counter. Every read succeeds. -/
def wrappingImage : SourceImage :=
  { indices := [{ file_index := 0, file_offset := 0, file_sector_size := 2352,
                  length := 4294967295 },
                { file_index := 0, file_offset := 0, file_sector_size := 2352, length := 2 }]
    tracks := [{ track_number := 1, mode := 0, start_lba := 0, length := 4294967295 }]
    filename := "wrapping.cue"
    lba_count := 4294967295
    ReadSectorFromIndex := fun _ _ => some (exampleSector 0)
    Seek0 := true }

/-- The indices of the spec's scenario: a data index (length 100, sector size 2048), a
pregap (length 150, sector size 0) and an audio index (length 200, sector size 2352). -/
def scenarioIndices : List Index :=
  [{ file_index := 1, file_offset := 0, file_sector_size := 2048, length := 100 },
   { file_index := 1, file_offset := 0, file_sector_size := 0, length := 150 },
   { file_index := 2, file_offset := 0, file_sector_size := 2352, length := 200 }]

/-- A source image with the scenario's indices; every read succeeds. -/
def scenarioImage : SourceImage :=
  { indices := scenarioIndices
    tracks := [{ track_number := 1, mode := 1, start_lba := 0, length := 250 },
               { track_number := 2, mode := 0, start_lba := 250, length := 200 }]
    filename := "scenario.cue"
    lba_count := 450
    ReadSectorFromIndex := fun index lba => some (exampleSector (index.file_index + lba))
    Seek0 := true }

/-- The example image on a drive that cannot read it: every source read fails. -/
def failingImage : SourceImage :=
  { exampleImage with ReadSectorFromIndex := fun _ _ => none }

/-- Every source read recorded in the trace succeeded. -/
def ReadsOk (image : SourceImage) (trace : List Event) : Prop :=
  ∀ index lba, Event.ReadSectorFromIndex index lba ∈ trace →
    image.ReadSectorFromIndex index lba ≠ none

/-- The sum of `length` over the indices with nonzero `file_sector_size`, as a natural
number (no wrap-around): the number of real sectors of the source image. -/
def realSectorTotal (indices : List Index) : Nat :=
  ((indices.filter (fun index => index.file_sector_size ≠ 0)).map Index.length).sum

/-- What a completed part of the copy loop has done, from `before` to `after`, when it
copied `n` sectors: the buffer kept its size, the pointer and the counter advanced by
`n` sectors, and nothing below the old pointer changed. -/
def Copied (before after : CopyCursor) (n : Nat) : Prop :=
  after.memory.length = before.memory.length ∧
  after.memory_ptr = before.memory_ptr + RAW_SECTOR_SIZE * n ∧
  (0 < n → after.memory_ptr ≤ before.memory.length) ∧
  (before.sectors_read < 4294967296 →
    after.sectors_read = (before.sectors_read + n) % 4294967296) ∧
  ∀ o k, o + k ≤ before.memory_ptr → memRead after.memory o k = memRead before.memory o k

/-- A set of components for the examples: each counts its `Execute` calls in the shared
state; the GPU stalls the CPU by 3 ticks and the DMA controller asks for a downcount
of 7. The downcount keeps the smaller of the current and the requested value. -/
def exampleComponents : SystemExternals Nat :=
  { Execute := fun component _ system =>
      match component with
      | .GPU => (system.components + 1, [SystemCall.StallCPU 3])
      | .DMA => (system.components + 1, [SystemCall.SetDowncount 7])
      | _ => (system.components + 1, [])
    MAX_SLICE_SIZE := 100
    SetDowncount_value := fun current requested => min current requested }

/-- A system whose CPU has 5 pending ticks. -/
def exampleSystem : System Nat :=
  { m_cpu := { m_pending_ticks := 5, m_downcount := 20 }
    components := 0
    m_region := .NTSC_U
    m_frame_number := 1
    m_internal_frame_number := 0
    m_global_tick_counter := 1000 }

/-- The three counters of a `System`: the frame number, the internal frame number and
the global tick counter. -/
def System.counters {σ : Type} (self : System σ) : Nat × Nat × Nat :=
  (self.m_frame_number, self.m_internal_frame_number, self.m_global_tick_counter)

/-- The calls of a section list when each of them succeeds. -/
def sectionEvents : List (String × Component) → List StateEvent
  | [] => []
  | (marker, component) :: rest =>
    StateEvent.DoMarker marker true :: StateEvent.DoState component true :: sectionEvents rest

/-- The calls of a run of `DoState` in which every marker and every component succeeds:
the `System` marker, the three counters, then the ten component sections. -/
def sectionSequence : List StateEvent :=
  [StateEvent.DoMarker "System" true, StateEvent.Do "m_frame_number",
   StateEvent.Do "m_internal_frame_number", StateEvent.Do "m_global_tick_counter"]
    ++ sectionEvents componentSections

/-- The call reported failure: a marker check or a component's `DoState` that returned
`false`. -/
def StateEvent.failed : StateEvent → Bool
  | .DoMarker _ ok => !ok
  | .Do _ => false
  | .DoState _ ok => !ok

/-- The call without its outcome. -/
def StateEvent.call : StateEvent → StateEvent
  | .DoMarker marker _ => .DoMarker marker true
  | .Do member => .Do member
  | .DoState component _ => .DoState component true

/-- The example system with no pending ticks. -/
def idleSystem : System Nat :=
  { exampleSystem with m_cpu := { m_pending_ticks := 0, m_downcount := 20 } }

/-- Components for the examples whose shared state is one number: the CPU saves it as
one value and loads it back, the other components save and load nothing; `Reset` sets
it to zero. A failed read leaves zero in the variable. -/
def exampleState : StateExternals Nat :=
  { DoState := fun component sw hardware =>
      match component with
      | .CPU =>
        match sw.m_mode with
        | .Write =>
          ((true, { sw with m_stream := sw.m_stream ++ [StreamItem.value hardware.2] }),
            hardware)
        | .Read =>
          match sw.m_stream with
          | StreamItem.value v :: rest =>
            ((true, { sw with m_stream := rest }), (hardware.1, v))
          | _ => ((false, { sw with m_error := true }), hardware)
      | _ => ((true, sw), hardware)
    Reset := fun _ _ => ({ m_pending_ticks := 0, m_downcount := 0 }, 0)
    failed_read_value := fun _ => 0 }

/-- A stream that starts like a saved state, with the counters 5, 6 and 7, and then holds
the marker `GPU` where the `CPU` section should begin. -/
def brokenStream : List StreamItem :=
  [StreamItem.marker "System", StreamItem.value 5, StreamItem.value 6, StreamItem.value 7,
   StreamItem.marker "GPU"]

/-- The calls `Boot` makes before it inserts the medium: every call but `InsertMedia`,
the fast-boot patch, `SetBIOS` and the components' `Reset`. -/
def BootEvent.beforeInsertion : BootEvent → Bool
  | .InsertMedia _ => false
  | .PatchBIOSFastBoot => false
  | .SetBIOS => false
  | .Reset _ => false
  | _ => true

/-- The region `Boot` resolves a region to: NTSC-U for `Auto`, the region otherwise. -/
def resolvedRegion (region : ConsoleRegion) : ConsoleRegion :=
  if region = ConsoleRegion.Auto then ConsoleRegion.NTSC_U else region

/-- A disc image for the boot examples. -/
def exampleDisc : CDImage :=
  { m_filename := "game.cue", m_lba_count := 0, m_tracks := [], m_indices := [],
    m_position_on_disc := 0 }

/-- A host for the boot examples, the shared component state being one number: the
region is left on `Auto`, both BIOS patches are enabled, there are no memory cards, only
`game.cue` opens as a disc image, no file opens with `fopen`, a BIOS image exists for
every region, the fast-boot patch appends a byte to it, and the drive holds a medium
(state 1) exactly when one was inserted. -/
def exampleHost : BootExternals Nat :=
  { settings := { region := .Auto, bios_patch_tty_enable := true, bios_patch_fast_boot := true,
                  memory_card_a_path := "", memory_card_b_path := "" }
    EndsWith := fun value suffix _ => suffix.data.isSuffixOf value.data
    CDImage_Open := fun filename => if filename = "game.cue" then some exampleDisc else none
    GetConsoleRegionName := fun region =>
      match region with
      | .Auto => "Auto"
      | .NTSC_J => "NTSC-J"
      | .NTSC_U => "NTSC-U"
      | .PAL => "PAL"
    GetBIOSImage := fun _ => some [0]
    GetHash := fun _ => 0
    PatchBIOSEnableTTY := fun bios_image _ => bios_image
    PatchBIOSFastBoot := fun bios_image _ => bios_image ++ [1]
    PatchBIOSForEXE := fun bios_image _ _ _ _ => (true, bios_image)
    file := fun _ => none
    MemoryCard_Open := fun _ => false
    Initialize := fun _ hardware => hardware
    SetMemoryCard := fun _ _ components => components
    SafeWriteMemoryWord := fun _ _ components => components
    InsertMedia := fun media _ => if media.isSome then 1 else 0
    HasMedia := fun components => components == 1
    SetBIOS := fun _ components => components }

/-- A system as the constructor leaves it for `exampleHost`, the region being the
configured one (`Auto`), with counters 7, 3 and 1000. -/
def unbootedSystem : System Nat :=
  { m_cpu := { m_pending_ticks := 0, m_downcount := 0 }
    components := 0
    m_region := exampleHost.settings.region
    m_frame_number := 7
    m_internal_frame_number := 3
    m_global_tick_counter := 1000 }

/-- The example platform with a disc whose subchannel data is corrupt: the underlying
read returns 9 at every position, which fails the CRC check. -/
def corruptSubchannel : Externals Nat :=
  { exampleExternals with CDImage_ReadSubChannelQ := fun _ => some 9 }

/-- A system whose global tick counter holds the largest `u32` value and whose CPU has
one pending tick. -/
def wrappingSystem : System Nat :=
  { m_cpu := { m_pending_ticks := 1, m_downcount := 20 }
    components := 0
    m_region := .NTSC_U
    m_frame_number := 1
    m_internal_frame_number := 0
    m_global_tick_counter := 4294967295 }

/-- The ticks of the `StallCPU` calls among the given calls, in order. -/
def stalledTicks : List SystemCall → List Int
  | [] => []
  | .StallCPU ticks :: rest => ticks :: stalledTicks rest
  | .SetDowncount _ :: rest => stalledTicks rest
  | .IncrementFrameNumber :: rest => stalledTicks rest
  | .IncrementInternalFrameNumber :: rest => stalledTicks rest

/-- The downcounts of the `SetDowncount` calls among the given calls, in order. -/
def requestedDowncounts : List SystemCall → List Int
  | [] => []
  | .SetDowncount downcount :: rest => downcount :: requestedDowncounts rest
  | .StallCPU _ :: rest => requestedDowncounts rest
  | .IncrementFrameNumber :: rest => requestedDowncounts rest
  | .IncrementInternalFrameNumber :: rest => requestedDowncounts rest

/-- The calls the given components make back on `System` when they execute one after
the other, each with `ticks`, from the given state: what each `Execute` makes in the
state the components before it left. -/
def callsDuring {σ : Type} (ext : SystemExternals σ) (ticks : Int) :
    List Component → System σ → List SystemCall
  | [], _ => []
  | component :: rest, self =>
    (ext.Execute component ticks self).2 ++
      callsDuring ext ticks rest (executeComponent ext component ticks (self, [])).1

/-- The calls the components make back on `System` during a pass with nonzero pending
ticks: those of lines 419-425, run from the state lines 414-417 leave. -/
def passCalls {σ : Type} (ext : SystemExternals σ) (self : System σ) : List SystemCall :=
  callsDuring ext self.m_cpu.m_pending_ticks [.GPU, .Timers, .CDROM, .Pad, .SPU, .MDEC, .DMA]
    { self with
      m_cpu := { m_pending_ticks := 0, m_downcount := ext.MAX_SLICE_SIZE }
      m_global_tick_counter :=
        (self.m_global_tick_counter
          + (self.m_cpu.m_pending_ticks % 4294967296).toNat) % 4294967296 }

/-- The zero-fill writes of lines 341-350 for a header: one zero word per whole word of
`memfill_size`, at consecutive word addresses (modulo `2^32`) from `memfill_start`
rounded down to a multiple of 4. -/
def zeroFillWrites (header : EXEHeader) : List BootEvent :=
  (List.range (header.memfill_size / 4)).map fun i =>
    BootEvent.SafeWriteMemoryWord
      ((header.memfill_start - header.memfill_start % 4 + 4 * i) % 4294967296) 0

/-- The body writes of lines 352-368 for a header and the bytes after it: one word per
whole word of `file_size`, word `i` of the body at the load address plus `4 * i`
(modulo `2^32`). -/
def bodyWrites (header : EXEHeader) (body : List Nat) : List BootEvent :=
  (List.range (header.file_size / 4)).map fun i =>
    BootEvent.SafeWriteMemoryWord ((header.load_address + 4 * i) % 4294967296)
      (readU32 body (4 * i))

/-- The `0x800` bytes of an example header: the tag `PS-X EXE`, the fields at their
offsets, each given as its four little-endian bytes, and zeros elsewhere. -/
def exampleHeaderBytes (initial_pc initial_gp load_address file_size memfill_start
    memfill_size initial_sp_base initial_sp_offset : List Nat) : List Nat :=
  [80, 83, 45, 88, 32, 69, 88, 69, 0, 0, 0, 0, 0, 0, 0, 0] ++ initial_pc ++ initial_gp
    ++ load_address ++ file_size ++ [0, 0, 0, 0, 0, 0, 0, 0] ++ memfill_start ++ memfill_size
    ++ initial_sp_base ++ initial_sp_offset ++ List.replicate 1992 0

/-- An executable with no body whose entry point `0x80010008` is not its load address
`0x80010000`; the stack base is `0x801FFFF0`. -/
def entryExe : List Nat :=
  exampleHeaderBytes [8, 0, 1, 128] [0, 0, 0, 0] [0, 0, 1, 128] [0, 0, 0, 0] [0, 0, 0, 0]
    [0, 0, 0, 0] [240, 255, 31, 128] [0, 0, 0, 0]

/-- An executable whose header declares a body of 6 bytes, which follow the header. -/
def oddExe : List Nat :=
  exampleHeaderBytes [0, 0, 1, 128] [0, 0, 0, 0] [0, 0, 1, 128] [6, 0, 0, 0] [0, 0, 0, 0]
    [0, 0, 0, 0] [240, 255, 31, 128] [0, 0, 0, 0] ++ [1, 2, 3, 4, 5, 6]

/-- An executable whose header declares a body of 2 bytes, which follow the header. -/
def tinyExe : List Nat :=
  exampleHeaderBytes [0, 0, 1, 128] [0, 0, 0, 0] [0, 0, 1, 128] [2, 0, 0, 0] [0, 0, 0, 0]
    [0, 0, 0, 0] [240, 255, 31, 128] [0, 0, 0, 0] ++ [1, 2]

/-- An executable with a body of 8 bytes loaded at `0x80010004` and a zero-fill region
of 16 bytes declared from `0x80010002`: the region, rounded down to `0x80010000`,
covers both body words. -/
def fillExe : List Nat :=
  exampleHeaderBytes [4, 0, 1, 128] [0, 0, 0, 0] [4, 0, 1, 128] [8, 0, 0, 0] [2, 0, 1, 128]
    [16, 0, 0, 0] [240, 255, 31, 128] [0, 0, 0, 0] ++ [1, 2, 3, 4, 5, 6, 7, 8]

/-- A host for the executable examples. The component state is the emulated memory, the
list of the words written with their addresses, newest first; the four example
executables are the only files; `PatchBIOSForEXE` succeeds and leaves the image as it
is. -/
def exeHost : BootExternals (List (Nat × Nat)) :=
  { settings := { region := .Auto, bios_patch_tty_enable := false,
                  bios_patch_fast_boot := false, memory_card_a_path := "",
                  memory_card_b_path := "" }
    EndsWith := fun value suffix _ => suffix.data.isSuffixOf value.data
    CDImage_Open := fun _ => none
    GetConsoleRegionName := fun _ => ""
    GetBIOSImage := fun _ => some [0]
    GetHash := fun _ => 0
    PatchBIOSEnableTTY := fun bios_image _ => bios_image
    PatchBIOSFastBoot := fun bios_image _ => bios_image
    PatchBIOSForEXE := fun bios_image _ _ _ _ => (true, bios_image)
    file := fun filename =>
      if filename = "entry.exe" then some entryExe
      else if filename = "odd.exe" then some oddExe
      else if filename = "tiny.exe" then some tinyExe
      else if filename = "fill.exe" then some fillExe
      else none
    MemoryCard_Open := fun _ => false
    Initialize := fun _ hardware => hardware
    SetMemoryCard := fun _ _ components => components
    SafeWriteMemoryWord := fun address value components => (address, value) :: components
    InsertMedia := fun _ components => components
    HasMedia := fun _ => false
    SetBIOS := fun _ components => components }

/-- The word the example memory holds at an address: the newest word written there,
zero when none was. -/
def exampleMemoryWord (address : Nat) (components : List (Nat × Nat)) : Nat :=
  (components.lookup address).getD 0

/-- The component `DoState` calls a run of lines 235-265 makes, in order, each with the
wrapper it is handed: a component is called when its marker has been accepted, and the
run goes on to the next section when the call succeeds. -/
def componentCalls {σ : Type} (ext : StateExternals σ) :
    List (String × Component) → StateWrapper → CPUCore × σ → List (Component × StateWrapper)
  | [], _, _ => []
  | (marker, component) :: rest, sw, hardware =>
    let m := sw.DoMarker marker
    if !m.1 then []
    else
      let d := ext.DoState component m.2 hardware
      if !d.1.1 then [(component, m.2)]
      else (component, m.2) :: componentCalls ext rest d.1.2 d.2

/-- The components whose `DoState` a trace records, in order. -/
def calledComponents : List StateEvent → List Component
  | [] => []
  | .DoState component _ :: rest => component :: calledComponents rest
  | .DoMarker _ _ :: rest => calledComponents rest
  | .Do _ :: rest => calledComponents rest

/-- A stream that starts like a saved state, with the counters 5, 6 and 7 and a `CPU`
section holding 9, and then holds the marker `GPU` where the `Bus` section should
begin. -/
def halfStream : List StreamItem :=
  [StreamItem.marker "System", StreamItem.value 5, StreamItem.value 6, StreamItem.value 7,
   StreamItem.marker "CPU", StreamItem.value 9, StreamItem.marker "GPU"]

/-- Lines 131-137 as a member function: the value returned and the object afterwards.
Neither branch assigns a member: the table is only looked up, and the base-class read,
which leaves the position where it is, has no access to `m_sbi`, a private member of
`CDImageMemory`. -/
def ReadSubChannelQ_member {Q : Type} (ext : Externals Q) (self : CDImageMemory Q) :
    Option Q × CDImageMemory Q :=
  match self.m_sbi.GetReplacementSubChannelQ self.m_position_on_disc with
  | some subq => (some subq, self)
  | none => (ext.CDImage_ReadSubChannelQ self.toCDImage, self)

/-- Lines 139-150 as a member function: what is returned together with the object
afterwards. The body reads `m_memory_sectors` and `m_memory` and assigns no member, so
a call that returns leaves the object as it was; nothing is said of the object after a
call with undefined behaviour. -/
def ReadSectorFromIndex_member {Q : Type} (ext : Externals Q) (self : CDImageMemory Q)
    (buffer : List Nat) (index : Index) (lba_in_index : Nat) :
    Result ((Bool × List Nat) × CDImageMemory Q) :=
  match ReadSectorFromIndex ext self buffer index lba_in_index with
  | .returned value => .returned (value, self)
  | .undefinedBehaviour => .undefinedBehaviour
  | .assertionFailed => .assertionFailed

/-- A read made on a memory image after it was built. -/
inductive ImageRead where
  | ReadSubChannelQ
  | ReadSectorFromIndex (buffer : List Nat) (index : Index) (lba_in_index : Nat)

/-- The object after a sequence of reads made one after the other, when every one of
them returns. -/
def readAll {Q : Type} (ext : Externals Q) :
    List ImageRead → CDImageMemory Q → Result (CDImageMemory Q)
  | [], self => .returned self
  | .ReadSubChannelQ :: rest, self => readAll ext rest (ReadSubChannelQ_member ext self).2
  | .ReadSectorFromIndex buffer index lba_in_index :: rest, self =>
    match ReadSectorFromIndex_member ext self buffer index lba_in_index with
    | .returned run => readAll ext rest run.2
    | .undefinedBehaviour => .undefinedBehaviour
    | .assertionFailed => .assertionFailed

/-- Components whose GPU stalls the CPU by zero ticks; the others call nothing back. -/
def zeroStallComponents : SystemExternals Nat :=
  { exampleComponents with
    Execute := fun component _ system =>
      match component with
      | .GPU => (system.components + 1, [SystemCall.StallCPU 0])
      | _ => (system.components + 1, []) }

/-! ## The flat buffer: reads after writes -/

theorem memWrite_eq_some {memory : List Nat} {offset : Nat} {data memory' : List Nat}
    (h : memWrite memory offset data = some memory') :
    offset + data.length ≤ memory.length ∧
      memory' = memory.take offset ++ data ++ memory.drop (offset + data.length) := by
  unfold memWrite at h
  split at h
  · exact ⟨by assumption, by simpa using h.symm⟩
  · simp at h

theorem memWrite_eq_none {memory : List Nat} {offset : Nat} {data : List Nat} :
    memWrite memory offset data = none ↔ memory.length < offset + data.length := by
  unfold memWrite
  split <;> simp <;> omega

theorem memWrite_length {memory : List Nat} {offset : Nat} {data memory' : List Nat}
    (h : memWrite memory offset data = some memory') : memory'.length = memory.length := by
  obtain ⟨hle, rfl⟩ := memWrite_eq_some h
  simp
  omega

theorem memRead_memWrite_same {memory : List Nat} {offset : Nat} {data memory' : List Nat}
    (h : memWrite memory offset data = some memory') :
    memRead memory' offset data.length = some data := by
  have hlen := memWrite_length h
  obtain ⟨hle, rfl⟩ := memWrite_eq_some h
  unfold memRead
  rw [if_pos (by omega)]
  congr 1
  have h1 : (memory.take offset).length = offset := by simp; omega
  rw [List.append_assoc, List.drop_left' h1, List.take_left' rfl]

theorem memRead_memWrite_below {memory : List Nat} {offset : Nat} {data memory' : List Nat}
    (h : memWrite memory offset data = some memory') (o n : Nat) (hon : o + n ≤ offset) :
    memRead memory' o n = memRead memory o n := by
  have hlen := memWrite_length h
  obtain ⟨hle, rfl⟩ := memWrite_eq_some h
  unfold memRead
  rw [hlen]
  split
  · congr 1
    apply List.ext_getElem?
    intro i
    simp only [List.getElem?_take, List.getElem?_drop]
    split
    · rw [List.append_assoc, List.getElem?_append_left (by simp; omega)]
      simp [List.getElem?_take]
      omega
    · rfl
  · rfl

/-! ## The copy loop -/

theorem copyIndexSectors_spec (image : SourceImage) (index : Index) :
    ∀ (n : Nat) (lba : Nat) (c : CopyCursor),
      match copyIndexSectors image index n lba c with
      | .done c' =>
        Copied c c' n ∧
          ∀ j, j < n → ∃ sector, image.ReadSectorFromIndex index (lba + j) = some sector ∧
            memRead c'.memory (c.memory_ptr + RAW_SECTOR_SIZE * j) RAW_SECTOR_SIZE
              = some sector.val
      | .readFailed _ => ∃ j, j < n ∧ image.ReadSectorFromIndex index (lba + j) = none
      | .outOfBounds _ => c.memory.length < c.memory_ptr + RAW_SECTOR_SIZE * n := by
  intro n
  induction n with
  | zero =>
    intro lba c
    simp only [copyIndexSectors, Copied]
    exact ⟨⟨trivial, by simp, by simp, fun h => by omega, fun _ _ _ => trivial⟩,
      fun j hj => absurd hj (Nat.not_lt_zero j)⟩
  | succ n ih =>
    intro lba c
    unfold copyIndexSectors
    cases hr : image.ReadSectorFromIndex index lba with
    | none =>
      simp only
      exact ⟨0, by omega, by simpa using hr⟩
    | some sector =>
      simp only
      cases hw : memWrite c.memory c.memory_ptr sector.val with
      | none =>
        simp only
        have := memWrite_eq_none.mp hw
        rw [sector.property] at this
        rw [Nat.mul_succ]
        omega
      | some memory =>
        simp only
        have hlen := memWrite_length hw
        have hle := (memWrite_eq_some hw).1
        rw [sector.property] at hle
        have hih := ih (lba + 1)
          { memory := memory, memory_ptr := c.memory_ptr + RAW_SECTOR_SIZE,
            sectors_read := (c.sectors_read + 1) % 4294967296,
            trace := c.trace ++ [Event.ReadSectorFromIndex index lba]
              ++ [Event.SetProgressValue c.sectors_read] }
        revert hih
        cases copyIndexSectors image index n (lba + 1)
          { memory := memory, memory_ptr := c.memory_ptr + RAW_SECTOR_SIZE,
            sectors_read := (c.sectors_read + 1) % 4294967296,
            trace := c.trace ++ [Event.ReadSectorFromIndex index lba]
              ++ [Event.SetProgressValue c.sectors_read] } with
        | done c' =>
          simp only [Copied]
          rintro ⟨⟨h1, h2, h3, h4, h5⟩, h6⟩
          refine ⟨⟨by omega, by rw [h2, Nat.mul_succ]; omega, ?_,
            fun h => by rw [h4 (Nat.mod_lt _ (by norm_num))]; omega, ?_⟩, ?_⟩
          · intro _
            rcases Nat.eq_zero_or_pos n with hn | hn
            · subst hn; omega
            · have := h3 hn; omega
          · intro o k hok
            rw [h5 o k (by omega)]
            exact memRead_memWrite_below hw o k hok
          · intro j hj
            cases j with
            | zero =>
              refine ⟨sector, by simpa using hr, ?_⟩
              rw [Nat.mul_zero, Nat.add_zero, h5 _ _ (Nat.le_refl _)]
              have := memRead_memWrite_same hw
              rwa [sector.property] at this
            | succ j =>
              obtain ⟨s, hs1, hs2⟩ := h6 j (by omega)
              have e1 : lba + 1 + j = lba + (j + 1) := by omega
              have e2 : c.memory_ptr + RAW_SECTOR_SIZE + RAW_SECTOR_SIZE * j
                  = c.memory_ptr + RAW_SECTOR_SIZE * (j + 1) := by rw [Nat.mul_succ]; omega
              rw [e1] at hs1
              rw [e2] at hs2
              exact ⟨s, hs1, hs2⟩
        | readFailed c' =>
          simp only
          rintro ⟨j, hj, hjr⟩
          have e1 : lba + 1 + j = lba + (j + 1) := by omega
          rw [e1] at hjr
          exact ⟨j + 1, by omega, hjr⟩
        | outOfBounds c' =>
          simp only
          intro h
          rw [Nat.mul_succ]
          omega

theorem realSectorTotal_nil : realSectorTotal [] = 0 := rfl

theorem realSectorTotal_cons (index : Index) (rest : List Index) :
    realSectorTotal (index :: rest) =
      if index.file_sector_size = 0 then realSectorTotal rest
      else index.length + realSectorTotal rest := by
  unfold realSectorTotal
  by_cases h : index.file_sector_size = 0 <;> simp [List.filter_cons, h]

theorem Copied.refl (c : CopyCursor) : Copied c c 0 :=
  ⟨rfl, by simp, by simp, fun h => by omega, fun _ _ _ => rfl⟩

theorem Copied.trans {a b c : CopyCursor} {n m : Nat} (hab : Copied a b n)
    (hbc : Copied b c m) : Copied a c (n + m) := by
  obtain ⟨a1, a2, a3, a4, a5⟩ := hab
  obtain ⟨b1, b2, b3, b4, b5⟩ := hbc
  refine ⟨by omega, by rw [b2, a2, Nat.mul_add]; omega, ?_, ?_, ?_⟩
  · intro hpos
    rcases Nat.eq_zero_or_pos m with hm | hm
    · subst hm
      have := a3 (by omega)
      simp at b2
      omega
    · have := b3 hm
      omega
  · intro h
    have ha := a4 h
    have hb := b4 (by rw [ha]; exact Nat.mod_lt _ (by norm_num))
    omega
  · intro o k hok
    have hle : a.memory_ptr ≤ b.memory_ptr := by rw [a2]; exact Nat.le_add_right _ _
    rw [b5 o k (by omega), a5 o k hok]

theorem copyIndices_spec (image : SourceImage) :
    ∀ (indices : List Index) (c : CopyCursor),
      match copyIndices image indices c with
      | .done c' =>
        Copied c c' (realSectorTotal indices) ∧
          ∀ (i : Nat) (hi : i < indices.length), indices[i].file_sector_size ≠ 0 →
            ∀ lba, lba < indices[i].length →
              ∃ sector, image.ReadSectorFromIndex indices[i] lba = some sector ∧
                memRead c'.memory
                    (c.memory_ptr + RAW_SECTOR_SIZE * (realSectorTotal (indices.take i) + lba))
                    RAW_SECTOR_SIZE
                  = some sector.val
      | .readFailed _ =>
        ∃ index, index ∈ indices ∧ index.file_sector_size ≠ 0 ∧
          ∃ lba, lba < index.length ∧ image.ReadSectorFromIndex index lba = none
      | .outOfBounds _ =>
        c.memory.length < c.memory_ptr + RAW_SECTOR_SIZE * realSectorTotal indices := by
  intro indices
  induction indices with
  | nil =>
    intro c
    simp only [copyIndices]
    exact ⟨Copied.refl c, fun i hi => absurd hi (Nat.not_lt_zero i)⟩
  | cons index rest ih =>
    intro c
    unfold copyIndices
    by_cases hz : index.file_sector_size = 0
    · rw [if_pos hz]
      have hrest := ih c
      revert hrest
      cases copyIndices image rest c with
      | done c' =>
        simp only
        rintro ⟨h1, h2⟩
        refine ⟨by rw [realSectorTotal_cons, if_pos hz]; exact h1, ?_⟩
        intro i hi hreal lba hlba
        cases i with
        | zero => exact absurd hz hreal
        | succ i =>
          have := h2 i (by simpa using hi) hreal lba hlba
          simpa [realSectorTotal_cons, hz] using this
      | readFailed c' =>
        simp only
        rintro ⟨x, hx, hrest⟩
        exact ⟨x, List.mem_cons_of_mem _ hx, hrest⟩
      | outOfBounds c' =>
        simp only
        intro h
        rw [realSectorTotal_cons, if_pos hz]
        exact h
    · rw [if_neg hz]
      have hinner := copyIndexSectors_spec image index index.length 0 c
      revert hinner
      cases copyIndexSectors image index index.length 0 c with
      | done c1 =>
        simp only
        rintro ⟨g1, g2⟩
        have hrest := ih c1
        revert hrest
        cases copyIndices image rest c1 with
        | done c' =>
          simp only
          rintro ⟨h1, h2⟩
          refine ⟨by rw [realSectorTotal_cons, if_neg hz]; exact g1.trans h1, ?_⟩
          intro i hi hreal lba hlba
          cases i with
          | zero =>
            simp only [List.getElem_cons_zero] at hlba ⊢
            obtain ⟨sector, hs1, hs2⟩ := g2 lba hlba
            refine ⟨sector, by simpa using hs1, ?_⟩
            simp only [List.take_zero, realSectorTotal_nil, Nat.zero_add]
            rw [← hs2]
            apply h1.2.2.2.2
            rw [g1.2.1]
            have : RAW_SECTOR_SIZE * (lba + 1) ≤ RAW_SECTOR_SIZE * index.length :=
              Nat.mul_le_mul_left _ hlba
            rw [Nat.mul_succ] at this
            omega
          | succ i =>
            simp only [List.getElem_cons_succ] at hreal hlba ⊢
            obtain ⟨sector, hs1, hs2⟩ := h2 i (by simpa using hi) hreal lba hlba
            refine ⟨sector, hs1, ?_⟩
            rw [← hs2, g1.2.1, List.take_succ_cons, realSectorTotal_cons, if_neg hz,
              Nat.add_assoc, Nat.mul_add, Nat.add_assoc]
        | readFailed c' =>
          simp only
          rintro ⟨x, hx, hrest⟩
          exact ⟨x, List.mem_cons_of_mem _ hx, hrest⟩
        | outOfBounds c' =>
          simp only
          intro h
          rw [realSectorTotal_cons, if_neg hz, Nat.mul_add]
          have e1 := g1.1
          have e2 := g1.2.1
          omega
      | readFailed c1 =>
        simp only
        rintro ⟨j, hj, hjr⟩
        exact ⟨index, List.mem_cons_self _ _, hz, j, hj, by simpa using hjr⟩
      | outOfBounds c1 =>
        simp only
        intro h
        rw [realSectorTotal_cons, if_neg hz, Nat.mul_add]
        omega

/-! ## The sector count and the rebuilt indices -/

theorem countMemorySectors_foldl (indices : List Index) :
    ∀ acc, acc < 4294967296 →
      indices.foldl
        (fun m_memory_sectors index =>
          if index.file_sector_size > 0 then (m_memory_sectors + index.length) % 4294967296
          else m_memory_sectors)
        acc = (acc + realSectorTotal indices) % 4294967296 := by
  induction indices with
  | nil => intro acc h; simp [realSectorTotal_nil]; omega
  | cons index rest ih =>
    intro acc h
    rw [List.foldl_cons, realSectorTotal_cons]
    by_cases hz : index.file_sector_size = 0
    · rw [if_neg (by omega), if_pos hz]
      exact ih acc h
    · rw [if_pos (by omega), if_neg hz, ih _ (Nat.mod_lt _ (by norm_num))]
      omega

theorem countMemorySectors_eq (indices : List Index) :
    countMemorySectors indices = realSectorTotal indices % 4294967296 := by
  unfold countMemorySectors
  rw [countMemorySectors_foldl indices 0 (by norm_num), Nat.zero_add]

theorem rebuildIndices_final (indices : List Index) :
    ∀ offset, offset < 4294967296 →
      (rebuildIndices indices offset).2 = (offset + realSectorTotal indices) % 4294967296 := by
  induction indices with
  | nil => intro offset h; simp [rebuildIndices, realSectorTotal_nil]; omega
  | cons index rest ih =>
    intro offset h
    unfold rebuildIndices
    rw [realSectorTotal_cons]
    by_cases hz : index.file_sector_size = 0
    · simp only [hz, Nat.lt_irrefl, if_false, if_true]
      exact ih offset h
    · have hpos : index.file_sector_size > 0 := by omega
      simp only [hpos, hz, if_true, if_false]
      rw [ih _ (Nat.mod_lt _ (by norm_num))]
      omega

theorem rebuildIndices_length (indices : List Index) :
    ∀ offset, (rebuildIndices indices offset).1.length = indices.length := by
  induction indices with
  | nil => intro offset; simp [rebuildIndices]
  | cons index rest ih =>
    intro offset
    unfold rebuildIndices
    by_cases hz : index.file_sector_size = 0
    · simp only [hz, Nat.lt_irrefl, if_false, List.length_cons, ih]
    · have hpos : index.file_sector_size > 0 := by omega
      simp only [hpos, if_true, List.length_cons, ih]

theorem rebuildIndices_getElem (indices : List Index) :
    ∀ offset, offset < 4294967296 → ∀ (i : Nat) (hi : i < indices.length),
      (rebuildIndices indices offset).1[i]? =
        some (if indices[i].file_sector_size > 0 then
            { indices[i] with
              file_index := 0
              file_offset := (offset + realSectorTotal (indices.take i)) % 4294967296 }
          else { indices[i] with file_index := 0 }) := by
  induction indices with
  | nil => intro offset h i hi; exact absurd hi (Nat.not_lt_zero i)
  | cons index rest ih =>
    intro offset h i hi
    unfold rebuildIndices
    by_cases hz : index.file_sector_size = 0
    · simp only [hz, Nat.lt_irrefl, if_false]
      cases i with
      | zero => simp [hz]
      | succ i =>
        simp only [List.getElem?_cons_succ, List.getElem_cons_succ, List.take_succ_cons,
          realSectorTotal_cons, hz, if_true]
        exact ih offset h i (by simpa using hi)
    · have hpos : index.file_sector_size > 0 := by omega
      simp only [hpos, if_true]
      cases i with
      | zero =>
        simp only [List.getElem?_cons_zero, List.getElem_cons_zero, List.take_zero,
          realSectorTotal_nil, hpos, if_true, Nat.add_zero]
        rw [Nat.mod_eq_of_lt h]
      | succ i =>
        simp only [List.getElem?_cons_succ, List.getElem_cons_succ, List.take_succ_cons,
          realSectorTotal_cons, hz, if_false]
        rw [ih _ (Nat.mod_lt _ (by norm_num)) i (by simpa using hi)]
        have e : ((offset + index.length) % 4294967296 + realSectorTotal (List.take i rest))
              % 4294967296
            = (offset + (index.length + realSectorTotal (List.take i rest))) % 4294967296 := by
          omega
        rw [e]

theorem countMemorySectors_lt (indices : List Index) :
    countMemorySectors indices < 4294967296 := by
  rw [countMemorySectors_eq]
  exact Nat.mod_lt _ (by norm_num)

theorem realSectorTotal_take_add_le (indices : List Index) :
    ∀ (i : Nat) (hi : i < indices.length), indices[i].file_sector_size ≠ 0 →
      realSectorTotal (indices.take i) + indices[i].length ≤ realSectorTotal indices := by
  induction indices with
  | nil => intro i hi; exact absurd hi (Nat.not_lt_zero i)
  | cons index rest ih =>
    intro i hi hreal
    cases i with
    | zero =>
      simp only [List.getElem_cons_zero] at hreal
      simp [realSectorTotal_cons, realSectorTotal_nil, hreal]
    | succ i =>
      simp only [List.getElem_cons_succ] at hreal ⊢
      have := ih i (by simpa using hi) hreal
      rw [List.take_succ_cons, realSectorTotal_cons, realSectorTotal_cons]
      split <;> omega

/-- The two size computations of `CopyImage` are exact once the guard has let the
sector count through. -/
theorem guard_passed {m S : Nat} (hm : m < 4294967296)
    (hg : ¬ (RAW_SECTOR_SIZE % 18446744073709551616) * (m % 18446744073709551616)
              % 18446744073709551616 ≥ S % 18446744073709551616) :
    RAW_SECTOR_SIZE * m < S % 18446744073709551616 ∧
      (RAW_SECTOR_SIZE % (S + 1)) * (m % (S + 1)) % (S + 1) = RAW_SECTOR_SIZE * m := by
  have hS : S % 18446744073709551616 ≤ S := Nat.mod_le _ _
  have h1 : RAW_SECTOR_SIZE % 18446744073709551616 = RAW_SECTOR_SIZE := by
    simp [RAW_SECTOR_SIZE]
  have h2 : m % 18446744073709551616 = m := Nat.mod_eq_of_lt (by omega)
  have h3 : RAW_SECTOR_SIZE * m % 18446744073709551616 = RAW_SECTOR_SIZE * m := by
    apply Nat.mod_eq_of_lt
    simp only [RAW_SECTOR_SIZE]
    omega
  rw [h1, h2, h3] at hg
  have hlt : RAW_SECTOR_SIZE * m < S % 18446744073709551616 := by omega
  refine ⟨hlt, ?_⟩
  rcases Nat.eq_zero_or_pos m with hm0 | hm0
  · subst hm0; simp
  · have hR : RAW_SECTOR_SIZE ≤ RAW_SECTOR_SIZE * m := Nat.le_mul_of_pos_right _ hm0
    have hM : m ≤ RAW_SECTOR_SIZE * m := Nat.le_mul_of_pos_left _ (by simp [RAW_SECTOR_SIZE])
    rw [Nat.mod_eq_of_lt (by omega : RAW_SECTOR_SIZE < S + 1),
      Nat.mod_eq_of_lt (by omega : m < S + 1), Nat.mod_eq_of_lt (by omega)]

/-! ## `CopyImage`: what a completed copy loop establishes -/

theorem CopyImage_preload_copied {Q : Type} {ext : Externals Q} {self self' : CDImageMemory Q}
    {image : SourceImage} {c : CopyCursor}
    (h : CopyImage_preload ext self image = .copied self' c) :
    (self'.toCDImage = self.toCDImage ∧ self'.m_sbi = self.m_sbi ∧
      self'.m_memory = some c.memory ∧
      self'.m_memory_sectors = countMemorySectors image.indices) ∧
    (realSectorTotal image.indices < 4294967296 ∧
      countMemorySectors image.indices = realSectorTotal image.indices ∧
      RAW_SECTOR_SIZE * realSectorTotal image.indices < ext.SIZE_MAX) ∧
    (c.memory.length = RAW_SECTOR_SIZE * realSectorTotal image.indices ∧
      c.memory_ptr = RAW_SECTOR_SIZE * realSectorTotal image.indices ∧
      c.sectors_read = realSectorTotal image.indices) ∧
    ∀ (i : Nat) (hi : i < image.indices.length), image.indices[i].file_sector_size ≠ 0 →
      ∀ lba, lba < image.indices[i].length →
        ∃ sector, image.ReadSectorFromIndex image.indices[i] lba = some sector ∧
          memRead c.memory
              (RAW_SECTOR_SIZE * (realSectorTotal (image.indices.take i) + lba))
              RAW_SECTOR_SIZE
            = some sector.val := by
  unfold CopyImage_preload at h
  simp only at h
  split at h
  · cases h
  · rename_i hg
    obtain ⟨hlt, hbytes⟩ := guard_passed (countMemorySectors_lt image.indices) hg
    rw [hbytes] at h
    split at h
    · cases h
    · have hspec := copyIndices_spec image image.indices
        { memory := List.replicate (RAW_SECTOR_SIZE * countMemorySectors image.indices) 0,
          memory_ptr := 0, sectors_read := 0,
          trace := [Event.SetFormattedStatusText "Allocating memory for %u sectors..."
                      [countMemorySectors image.indices]]
            ++ [Event.malloc (RAW_SECTOR_SIZE * countMemorySectors image.indices)]
            ++ [Event.SetStatusText "Preloading CD image to RAM...",
                Event.SetProgressRange (countMemorySectors image.indices),
                Event.SetProgressValue 0] }
      revert h hspec
      cases copyIndices image image.indices _ with
      | done c' =>
        simp only [Copied, List.length_replicate, Nat.zero_add]
        rintro h ⟨⟨h1, h2, h3, h4, -⟩, h6⟩
        simp only [Preload.copied.injEq] at h
        obtain ⟨rfl, rfl⟩ := h
        have hmod := countMemorySectors_eq image.indices
        have hle : realSectorTotal image.indices ≤ countMemorySectors image.indices := by
          rcases Nat.eq_zero_or_pos (realSectorTotal image.indices) with h0 | h0
          · omega
          · have := h3 h0
            rw [h2] at this
            exact Nat.le_of_mul_le_mul_left this (by simp [RAW_SECTOR_SIZE])
        have hle2 : countMemorySectors image.indices ≤ realSectorTotal image.indices := by
          rw [hmod]; exact Nat.mod_le _ _
        have heq : countMemorySectors image.indices = realSectorTotal image.indices := by omega
        have hS : ext.SIZE_MAX % 18446744073709551616 ≤ ext.SIZE_MAX := Nat.mod_le _ _
        have h32 : realSectorTotal image.indices < 4294967296 := by
          rw [← heq]; exact countMemorySectors_lt _
        refine ⟨⟨rfl, rfl, rfl, rfl⟩, ⟨h32, heq, by rw [← heq]; omega⟩,
          ⟨by rw [h1, heq], h2, ?_⟩, h6⟩
        rw [h4 (by norm_num)]
        omega
      | readFailed c' => intro h; cases h
      | outOfBounds c' => intro h; cases h

/-- The copy loop runs to completion whenever the guard lets the count through, the
allocation succeeds, the real sectors number fewer than `2^32` and every source read
of a real sector succeeds. -/
theorem CopyImage_preload_completes {Q : Type} (ext : Externals Q) (self : CDImageMemory Q)
    (image : SourceImage)
    (h32 : realSectorTotal image.indices < 4294967296)
    (hsize : RAW_SECTOR_SIZE * realSectorTotal image.indices
      < ext.SIZE_MAX % 18446744073709551616)
    (halloc : ext.malloc_succeeds (RAW_SECTOR_SIZE * realSectorTotal image.indices) = true)
    (hreads : ∀ index, index ∈ image.indices → index.file_sector_size ≠ 0 →
      ∀ lba, lba < index.length → image.ReadSectorFromIndex index lba ≠ none) :
    ∃ self' c, CopyImage_preload ext self image = .copied self' c := by
  have heq : countMemorySectors image.indices = realSectorTotal image.indices := by
    rw [countMemorySectors_eq]; exact Nat.mod_eq_of_lt h32
  have hg : ¬ (RAW_SECTOR_SIZE % 18446744073709551616)
      * (countMemorySectors image.indices % 18446744073709551616) % 18446744073709551616
      ≥ ext.SIZE_MAX % 18446744073709551616 := by
    rw [heq]
    have h1 : RAW_SECTOR_SIZE % 18446744073709551616 = RAW_SECTOR_SIZE := by
      simp [RAW_SECTOR_SIZE]
    have h2 : realSectorTotal image.indices % 18446744073709551616
        = realSectorTotal image.indices := Nat.mod_eq_of_lt (by omega)
    have h3 : RAW_SECTOR_SIZE * realSectorTotal image.indices % 18446744073709551616
        = RAW_SECTOR_SIZE * realSectorTotal image.indices := by
      apply Nat.mod_eq_of_lt
      simp only [RAW_SECTOR_SIZE]
      omega
    rw [h1, h2, h3]
    omega
  obtain ⟨-, hbytes⟩ := guard_passed (countMemorySectors_lt image.indices) hg
  unfold CopyImage_preload
  simp only
  rw [if_neg hg, hbytes, heq, halloc]
  simp only [Bool.not_true, Bool.false_eq_true, if_false]
  have hspec := copyIndices_spec image image.indices
    { memory := List.replicate (RAW_SECTOR_SIZE * realSectorTotal image.indices) 0,
      memory_ptr := 0, sectors_read := 0,
      trace := [Event.SetFormattedStatusText "Allocating memory for %u sectors..."
                  [realSectorTotal image.indices]]
        ++ [Event.malloc (RAW_SECTOR_SIZE * realSectorTotal image.indices)]
        ++ [Event.SetStatusText "Preloading CD image to RAM...",
            Event.SetProgressRange (realSectorTotal image.indices),
            Event.SetProgressValue 0] }
  revert hspec
  cases copyIndices image image.indices _ with
  | done c' => intro _; exact ⟨_, _, rfl⟩
  | readFailed c' =>
    simp only
    rintro ⟨index, hmem, hreal, lba, hlba, hnone⟩
    exact absurd hnone (hreads index hmem hreal lba hlba)
  | outOfBounds c' =>
    simp only [List.length_replicate, Nat.zero_add]
    intro h
    exact absurd h (Nat.lt_irrefl _)

/-! ## `CopyImage`: the steps after the copy loop -/

theorem scanSubChannel_frame {Q : Type} (ext : Externals Q) :
    ∀ (n lba : Nat) (self : CDImageMemory Q),
      (scanSubChannel ext n lba self).toCDImage = self.toCDImage ∧
        (scanSubChannel ext n lba self).m_memory = self.m_memory ∧
        (scanSubChannel ext n lba self).m_memory_sectors = self.m_memory_sectors := by
  intro n
  induction n with
  | zero => intro lba self; exact ⟨rfl, rfl, rfl⟩
  | succ n ih =>
    intro lba self
    unfold scanSubChannel
    split
    · split
      · exact ih _ _
      · exact ih _ _
    · exact ih _ _

theorem CopyImage_finish_fields {Q : Type} (ext : Externals Q) (self : CDImageMemory Q)
    (image : SourceImage) (trace : List Event) :
    (CopyImage_finish ext self image trace).self.m_memory = self.m_memory ∧
      (CopyImage_finish ext self image trace).self.m_memory_sectors = self.m_memory_sectors ∧
      (CopyImage_finish ext self image trace).self.m_tracks = self.m_tracks ++ image.tracks ∧
      (CopyImage_finish ext self image trace).self.m_indices
        = self.m_indices ++ (rebuildIndices image.indices 0).1 := by
  unfold CopyImage_finish
  simp only
  split
  · exact ⟨rfl, rfl, rfl, rfl⟩
  · split
    · exact ⟨rfl, rfl, rfl, rfl⟩
    · have hf := scanSubChannel_frame ext image.lba_count 0
        { self with
          m_tracks := self.m_tracks ++ image.tracks
          m_indices := self.m_indices ++ (rebuildIndices image.indices 0).1
          m_filename := image.filename
          m_lba_count := image.lba_count }
      split
      · exact ⟨hf.2.1, hf.2.2, congrArg CDImage.m_tracks hf.1, congrArg CDImage.m_indices hf.1⟩
      · exact ⟨hf.2.1, hf.2.2, congrArg CDImage.m_tracks hf.1, congrArg CDImage.m_indices hf.1⟩

theorem CopyImage_returned_true {Q : Type} {ext : Externals Q} {self : CDImageMemory Q}
    {image : SourceImage} (h : (CopyImage ext self image).result = .returned true) :
    ∃ self' c, CopyImage_preload ext self image = .copied self' c ∧
      CopyImage ext self image = CopyImage_finish ext self' image c.trace := by
  unfold CopyImage at h ⊢
  cases hp : CopyImage_preload ext self image with
  | copied self' c => exact ⟨self', c, rfl, rfl⟩
  | ended run =>
    rw [hp] at h
    simp only at h
    unfold CopyImage_preload at hp
    simp only at hp
    split at hp
    · cases hp; cases h
    · split at hp
      · cases hp; cases h
      · split at hp
        · cases hp
        · cases hp; cases h
        · cases hp; cases h

theorem rebuildIndices_final_eq_count (indices : List Index) :
    (rebuildIndices indices 0).2 = countMemorySectors indices := by
  rw [rebuildIndices_final indices 0 (by norm_num), countMemorySectors_eq, Nat.zero_add]

/-- A run of `CopyImage` returns `true` whenever the copy loop completes, the source
seeks to its start and the final seek to track 1 succeeds. -/
theorem CopyImage_succeeds {Q : Type} (ext : Externals Q) (self : CDImageMemory Q)
    (image : SourceImage)
    (h32 : realSectorTotal image.indices < 4294967296)
    (hsize : RAW_SECTOR_SIZE * realSectorTotal image.indices
      < ext.SIZE_MAX % 18446744073709551616)
    (halloc : ext.malloc_succeeds (RAW_SECTOR_SIZE * realSectorTotal image.indices) = true)
    (hreads : ∀ index, index ∈ image.indices → index.file_sector_size ≠ 0 →
      ∀ lba, lba < index.length → image.ReadSectorFromIndex index lba ≠ none)
    (hseek0 : image.Seek0 = true)
    (hseek : ∀ base, ext.CDImage_Seek base 1 { minute := 0, second := 0, frame := 0 } ≠ none) :
    (CopyImage ext self image).result = .returned true := by
  obtain ⟨self', c, hp⟩ := CopyImage_preload_completes ext self image h32 hsize halloc hreads
  have hm := (CopyImage_preload_copied hp).1.2.2.2
  unfold CopyImage
  rw [hp]
  simp only
  unfold CopyImage_finish
  simp only [rebuildIndices_final_eq_count, hm, ne_eq, not_true_eq_false, if_false, hseek0,
    Bool.not_true, Bool.false_eq_true]
  split
  · rfl
  · rename_i hnone
    exact absurd hnone (hseek _)

/-! ## `CDImageMemory::ReadSectorFromIndex` -/

theorem ReadSectorFromIndex_out_of_range {Q : Type} (ext : Externals Q)
    (self : CDImageMemory Q) (buffer : List Nat) (index : Index) (lba_in_index : Nat)
    (h : self.m_memory_sectors ≤ (index.file_offset + lba_in_index) % 18446744073709551616) :
    ReadSectorFromIndex ext self buffer index lba_in_index = .returned (false, buffer) := by
  unfold ReadSectorFromIndex
  simp only
  rw [if_pos h]

theorem ReadSectorFromIndex_in_range {Q : Type} (ext : Externals Q) (self : CDImageMemory Q)
    (memory : List Nat) (hmem : self.m_memory = some memory)
    (hlen : memory.length = RAW_SECTOR_SIZE * self.m_memory_sectors)
    (hsize : RAW_SECTOR_SIZE * self.m_memory_sectors < ext.SIZE_MAX)
    (buffer : List Nat) (index : Index) (lba_in_index : Nat)
    (h : (index.file_offset + lba_in_index) % 18446744073709551616 < self.m_memory_sectors) :
    ∃ bytes,
      memRead memory
          (RAW_SECTOR_SIZE * ((index.file_offset + lba_in_index) % 18446744073709551616))
          RAW_SECTOR_SIZE = some bytes ∧
      bytes.length = RAW_SECTOR_SIZE ∧
      ReadSectorFromIndex ext self buffer index lba_in_index
        = .returned (true, bytes ++ buffer.drop RAW_SECTOR_SIZE) := by
  generalize hsn : (index.file_offset + lba_in_index) % 18446744073709551616 = sn at h
  have hR : 0 < RAW_SECTOR_SIZE := by simp [RAW_SECTOR_SIZE]
  have h1 : RAW_SECTOR_SIZE * (sn + 1) ≤ RAW_SECTOR_SIZE * self.m_memory_sectors :=
    Nat.mul_le_mul_left _ h
  rw [Nat.mul_succ] at h1
  have h2 : sn ≤ RAW_SECTOR_SIZE * sn := Nat.le_mul_of_pos_left _ hR
  have hoff : (sn % (ext.SIZE_MAX + 1)) * (RAW_SECTOR_SIZE % (ext.SIZE_MAX + 1))
      % (ext.SIZE_MAX + 1) = RAW_SECTOR_SIZE * sn := by
    rw [Nat.mod_eq_of_lt (by omega : sn < ext.SIZE_MAX + 1),
      Nat.mod_eq_of_lt (by omega : RAW_SECTOR_SIZE < ext.SIZE_MAX + 1), Nat.mul_comm,
      Nat.mod_eq_of_lt (by omega)]
  have hread : memRead memory (RAW_SECTOR_SIZE * sn) RAW_SECTOR_SIZE
      = some ((memory.drop (RAW_SECTOR_SIZE * sn)).take RAW_SECTOR_SIZE) := by
    unfold memRead
    rw [if_pos (by omega)]
  refine ⟨_, hread, ?_, ?_⟩
  · rw [List.length_take, List.length_drop]
    omega
  · unfold ReadSectorFromIndex
    simp only
    rw [hsn, if_neg (by omega), hoff, hmem]
    simp only
    rw [hread]

/-- What `CopyImage` has established when it returns `true` on a fresh object: the
buffer holds exactly `m_memory_sectors` raw sectors, which is the number of real
sectors of the source, and every real sector sits at its place in index order. -/
theorem CopyImage_built {Q : Type} {ext : Externals Q} {image : SourceImage}
    (hok : (CopyImage ext (CDImageMemory.new Q) image).result = .returned true) :
    ∃ memory,
      (CopyImage ext (CDImageMemory.new Q) image).self.m_memory = some memory ∧
      (CopyImage ext (CDImageMemory.new Q) image).self.m_memory_sectors
        = realSectorTotal image.indices ∧
      (CopyImage ext (CDImageMemory.new Q) image).self.m_indices
        = (rebuildIndices image.indices 0).1 ∧
      realSectorTotal image.indices < 4294967296 ∧
      memory.length = RAW_SECTOR_SIZE * realSectorTotal image.indices ∧
      RAW_SECTOR_SIZE * realSectorTotal image.indices < ext.SIZE_MAX ∧
      ∀ (i : Nat) (hi : i < image.indices.length), image.indices[i].file_sector_size ≠ 0 →
        ∀ lba, lba < image.indices[i].length →
          ∃ sector, image.ReadSectorFromIndex image.indices[i] lba = some sector ∧
            memRead memory
                (RAW_SECTOR_SIZE * (realSectorTotal (image.indices.take i) + lba))
                RAW_SECTOR_SIZE
              = some sector.val := by
  obtain ⟨self', c, hp, hrun⟩ := CopyImage_returned_true hok
  obtain ⟨⟨hbase, -, hmem, hm⟩, ⟨h32, hcount, hsize⟩, ⟨hlen, -, -⟩, hdata⟩ :=
    CopyImage_preload_copied hp
  obtain ⟨f1, f2, -, f4⟩ := CopyImage_finish_fields ext self' image c.trace
  rw [hrun]
  refine ⟨c.memory, by rw [f1, hmem], by rw [f2, hm, hcount], ?_, h32, hlen, hsize, hdata⟩
  rw [f4]
  have : self'.m_indices = [] := congrArg CDImage.m_indices hbase
  rw [this, List.nil_append]

/-! ## The example image -/

theorem exampleImage_total : realSectorTotal exampleImage.indices = 3 := by decide

theorem exampleImage_copies :
    (CopyImage exampleExternals (CDImageMemory.new Nat) exampleImage).result
      = .returned true := by
  apply CopyImage_succeeds
  · rw [exampleImage_total]; norm_num
  · rw [exampleImage_total]; decide
  · rfl
  · intro index _ _ lba _
    simp [exampleImage]
  · rfl
  · intro base
    simp [exampleExternals]

/-! ## Claims about the memory image -/

/-- C1. Round trip of the memory image: when the real sectors of the source number
fewer than `2^32` and `CopyImage` returns `true` on a fresh object, then for every
index `i` of the source with nonzero `file_sector_size` and every `lba` below its
length, the source read of `(index i, lba)` yielded a sector, the rebuilt list has an
index `i`, and `CDImageMemory::ReadSectorFromIndex` on that rebuilt index and `lba`
returns `true` and writes exactly those `RAW_SECTOR_SIZE` bytes to the front of the
destination buffer. -/
theorem C1_round_trip {Q : Type} (ext : Externals Q) (image : SourceImage)
    (h32 : realSectorTotal image.indices < 4294967296)
    (hok : (CopyImage ext (CDImageMemory.new Q) image).result = .returned true)
    (i : Nat) (index : Index) (hidx : image.indices[i]? = some index)
    (hreal : index.file_sector_size ≠ 0) (lba : Nat) (hlba : lba < index.length)
    (buffer : List Nat) :
    ∃ sector rebuilt,
      image.ReadSectorFromIndex index lba = some sector ∧
      (CopyImage ext (CDImageMemory.new Q) image).self.m_indices[i]? = some rebuilt ∧
      ReadSectorFromIndex ext (CopyImage ext (CDImageMemory.new Q) image).self buffer rebuilt lba
        = .returned (true, sector.val ++ buffer.drop RAW_SECTOR_SIZE) := by
  obtain ⟨memory, hmem, hm, hidxs, -, hlen, hsize, hdata⟩ := CopyImage_built hok
  obtain ⟨hi, rfl⟩ := List.getElem?_eq_some.mp hidx
  obtain ⟨sector, hsrc, hsec⟩ := hdata i hi hreal lba hlba
  have hpos : image.indices[i].file_sector_size > 0 := Nat.pos_of_ne_zero hreal
  have hle := realSectorTotal_take_add_le image.indices i hi hreal
  have hrebuilt := rebuildIndices_getElem image.indices 0 (by norm_num) i hi
  rw [if_pos hpos, Nat.zero_add,
    Nat.mod_eq_of_lt (by omega : realSectorTotal (image.indices.take i) < 4294967296)]
    at hrebuilt
  have hsn : (realSectorTotal (image.indices.take i) + lba) % 18446744073709551616
      = realSectorTotal (image.indices.take i) + lba := Nat.mod_eq_of_lt (by omega)
  obtain ⟨bytes, hbytes, -, hread⟩ :=
    ReadSectorFromIndex_in_range ext (CopyImage ext (CDImageMemory.new Q) image).self memory
      hmem (by rw [hm]; exact hlen) (by rw [hm]; exact hsize) buffer
      { image.indices[i] with
        file_index := 0
        file_offset := realSectorTotal (image.indices.take i) }
      lba (by simp only [hsn]; omega)
  simp only [hsn] at hbytes
  rw [hsec] at hbytes
  cases hbytes
  exact ⟨sector, _, hsrc, by rw [hidxs]; exact hrebuilt, hread⟩

/-- The hypotheses of C1 hold for the audio index of the example image. -/
theorem C1_round_trip_witness :
    realSectorTotal exampleImage.indices < 4294967296 ∧
    (CopyImage exampleExternals (CDImageMemory.new Nat) exampleImage).result
      = .returned true ∧
    ∃ sector rebuilt,
      exampleImage.ReadSectorFromIndex
          { file_index := 4, file_offset := 0, file_sector_size := 2352, length := 1 } 0
        = some sector ∧
      (CopyImage exampleExternals (CDImageMemory.new Nat) exampleImage).self.m_indices[2]?
        = some rebuilt ∧
      ReadSectorFromIndex exampleExternals
          (CopyImage exampleExternals (CDImageMemory.new Nat) exampleImage).self [] rebuilt 0
        = .returned (true, sector.val ++ ([] : List Nat).drop RAW_SECTOR_SIZE) :=
  ⟨by rw [exampleImage_total]; norm_num, exampleImage_copies,
    C1_round_trip exampleExternals exampleImage (by rw [exampleImage_total]; norm_num)
      exampleImage_copies 2 _ rfl (by decide) 0 (by decide) []⟩

/-- The bookkeeping of a run that got past the copy loop: the counters, the buffer and
the rebuilt indices. -/
theorem CopyImage_copied_count {Q : Type} (ext : Externals Q) (self self' : CDImageMemory Q)
    (image : SourceImage) (c : CopyCursor)
    (h : CopyImage_preload ext self image = .copied self' c) :
    c.sectors_read = realSectorTotal image.indices ∧
    c.memory_ptr = RAW_SECTOR_SIZE * realSectorTotal image.indices ∧
    c.memory.length = RAW_SECTOR_SIZE * realSectorTotal image.indices ∧
    (CopyImage ext self image).self.m_memory_sectors = realSectorTotal image.indices ∧
    (CopyImage ext self image).self.m_memory = some c.memory ∧
    (rebuildIndices image.indices 0).2 = realSectorTotal image.indices ∧
    (CopyImage ext self image).self.m_indices
      = self.m_indices ++ (rebuildIndices image.indices 0).1 ∧
    (CopyImage ext self image).result ≠ .assertionFailed := by
  obtain ⟨⟨hbase, -, hmem, hm⟩, ⟨-, hcount, -⟩, ⟨hlen, hptr, hread⟩, -⟩ :=
    CopyImage_preload_copied h
  obtain ⟨f1, f2, -, f4⟩ := CopyImage_finish_fields ext self' image c.trace
  have hrun : CopyImage ext self image = CopyImage_finish ext self' image c.trace := by
    unfold CopyImage; rw [h]
  have hfinal := rebuildIndices_final_eq_count image.indices
  refine ⟨hread, hptr, hlen, by rw [hrun, f2, hm, hcount], by rw [hrun, f1, hmem],
    by rw [hfinal, hcount], ?_, ?_⟩
  · rw [hrun, f4]
    exact congrArg (· ++ (rebuildIndices image.indices 0).1) (congrArg CDImage.m_indices hbase)
  · rw [hrun]
    unfold CopyImage_finish
    simp only [hfinal, hm, ne_eq, not_true_eq_false, if_false]
    split
    · simp
    · split <;> simp

/-- C2. When `CopyImage` gets past the copy loop (lines 41-91), the number of sectors
copied (the counter `sectors_read`, and the distance the write pointer moved), the sum
of `length` over the source indices with nonzero `file_sector_size`, the allocated
sector count `m_memory_sectors` (the buffer holds exactly that many raw sectors) and
the final cumulative offset of the index rebuild are all the same number, and the
assertion on them holds. -/
theorem C2_sector_count {Q : Type} (ext : Externals Q) (self self' : CDImageMemory Q)
    (image : SourceImage) (c : CopyCursor)
    (h : CopyImage_preload ext self image = .copied self' c) :
    c.sectors_read = realSectorTotal image.indices ∧
    c.memory_ptr = RAW_SECTOR_SIZE * realSectorTotal image.indices ∧
    c.memory.length = RAW_SECTOR_SIZE * realSectorTotal image.indices ∧
    (CopyImage ext self image).self.m_memory_sectors = realSectorTotal image.indices ∧
    (CopyImage ext self image).self.m_memory = some c.memory ∧
    (rebuildIndices image.indices 0).2 = realSectorTotal image.indices ∧
    (CopyImage ext self image).self.m_indices
      = self.m_indices ++ (rebuildIndices image.indices 0).1 ∧
    (CopyImage ext self image).result ≠ .assertionFailed :=
  CopyImage_copied_count ext self self' image c h

/-- The copy loop of the example image completes, and the four numbers of C2 are 3. -/
theorem C2_sector_count_witness :
    ∃ self' c,
      CopyImage_preload exampleExternals (CDImageMemory.new Nat) exampleImage
        = .copied self' c ∧
      c.sectors_read = 3 ∧
      (CopyImage exampleExternals (CDImageMemory.new Nat) exampleImage).self.m_memory_sectors
        = 3 ∧
      (rebuildIndices exampleImage.indices 0).2 = 3 := by
  obtain ⟨self', c, hp, -⟩ := CopyImage_returned_true exampleImage_copies
  have h := C2_sector_count exampleExternals (CDImageMemory.new Nat) self' exampleImage c hp
  rw [exampleImage_total] at h
  exact ⟨self', c, hp, h.1, h.2.2.2.1, h.2.2.2.2.2.1⟩

/-- C3. For a memory image built by `CopyImage`, every index and every `lba_in_index`:
when the computed sector number `index.file_offset + lba_in_index` (a `u64`) is not
below `m_memory_sectors`, `CDImageMemory::ReadSectorFromIndex` returns `false` and
leaves the destination buffer as it was; and it returns `true` exactly when the
computed sector number is below `m_memory_sectors`. -/
theorem C3_out_of_range {Q : Type} (ext : Externals Q) (image : SourceImage)
    (hok : (CopyImage ext (CDImageMemory.new Q) image).result = .returned true)
    (buffer : List Nat) (index : Index) (lba_in_index : Nat) :
    ((CopyImage ext (CDImageMemory.new Q) image).self.m_memory_sectors
        ≤ (index.file_offset + lba_in_index) % 18446744073709551616 →
      ReadSectorFromIndex ext (CopyImage ext (CDImageMemory.new Q) image).self buffer index
          lba_in_index = .returned (false, buffer)) ∧
    ((∃ buffer',
        ReadSectorFromIndex ext (CopyImage ext (CDImageMemory.new Q) image).self buffer index
          lba_in_index = .returned (true, buffer')) ↔
      (index.file_offset + lba_in_index) % 18446744073709551616
        < (CopyImage ext (CDImageMemory.new Q) image).self.m_memory_sectors) := by
  obtain ⟨memory, hmem, hm, -, -, hlen, hsize, -⟩ := CopyImage_built hok
  refine ⟨ReadSectorFromIndex_out_of_range ext _ buffer index lba_in_index, ?_, ?_⟩
  · rintro ⟨buffer', hread⟩
    by_contra hge
    rw [ReadSectorFromIndex_out_of_range ext _ buffer index lba_in_index (Nat.le_of_not_lt hge)]
      at hread
    cases hread
  · intro hlt
    obtain ⟨bytes, -, -, hread⟩ :=
      ReadSectorFromIndex_in_range ext (CopyImage ext (CDImageMemory.new Q) image).self memory
        hmem (by rw [hm]; exact hlen) (by rw [hm]; exact hsize) buffer index lba_in_index hlt
    exact ⟨_, hread⟩

/-- The example image is a built memory image; a read past its 3 sectors fails and
leaves the buffer alone. -/
theorem C3_out_of_range_witness :
    (CopyImage exampleExternals (CDImageMemory.new Nat) exampleImage).result
      = .returned true ∧
    ReadSectorFromIndex exampleExternals
        (CopyImage exampleExternals (CDImageMemory.new Nat) exampleImage).self [1, 2, 3]
        { file_index := 0, file_offset := 2, file_sector_size := 2352, length := 5 } 1
      = .returned (false, [1, 2, 3]) := by
  have h := C3_out_of_range exampleExternals exampleImage exampleImage_copies [1, 2, 3]
    { file_index := 0, file_offset := 2, file_sector_size := 2352, length := 5 } 1
  refine ⟨exampleImage_copies, h.1 ?_⟩
  rw [(CopyImage_built exampleImage_copies).choose_spec.2.1, exampleImage_total]
  decide

/-! ## The subchannel scan -/

/-- While the object's own read yields nothing, or a value that passes the CRC check,
the scan leaves the object as it is. -/
theorem scanSubChannel_valid {Q : Type} (ext : Externals Q) (self : CDImageMemory Q)
    (h : ∀ subq, ReadSubChannelQ ext self = some subq → ext.IsCRCValid subq = true) :
    ∀ (n lba : Nat), scanSubChannel ext n lba self = self := by
  intro n
  induction n with
  | zero => intro lba; rfl
  | succ n ih =>
    intro lba
    unfold scanSubChannel
    cases hr : ReadSubChannelQ ext self with
    | none => exact ih _
    | some subq =>
      simp only [h subq hr, Bool.not_true, Bool.false_eq_true, if_false]
      exact ih _

/-- Lines 131-137 read at `m_position_on_disc`, which the scan never moves: a lookup
in the table for the position, then the base class. -/
theorem ReadSubChannelQ_of_entry {Q : Type} (ext : Externals Q) (self : CDImageMemory Q)
    (subq : Q)
    (h : self.m_sbi.GetReplacementSubChannelQ self.m_position_on_disc = some subq) :
    ReadSubChannelQ ext self = some subq := by
  unfold ReadSubChannelQ
  rw [h]

theorem ReadSubChannelQ_of_no_entry {Q : Type} (ext : Externals Q) (self : CDImageMemory Q)
    (h : self.m_sbi.GetReplacementSubChannelQ self.m_position_on_disc = none) :
    ReadSubChannelQ ext self = ext.CDImage_ReadSubChannelQ self.toCDImage := by
  unfold ReadSubChannelQ
  rw [h]

/-- When the object's own read yields a value that fails the CRC check, the scan stores
that one value under every address it counts through, whatever the subchannel data of
those addresses is. -/
theorem scanSubChannel_invalid {Q : Type} (ext : Externals Q) (subq : Q)
    (hbad : ext.IsCRCValid subq = false) :
    ∀ (n lba : Nat) (self : CDImageMemory Q), ReadSubChannelQ ext self = some subq →
      ∀ address,
        (scanSubChannel ext n lba self).m_sbi.GetReplacementSubChannelQ address =
          if lba ≤ address ∧ address < lba + n then some subq
          else self.m_sbi.GetReplacementSubChannelQ address := by
  intro n
  induction n with
  | zero =>
    intro lba self _ address
    simp only [scanSubChannel]
    rw [if_neg (by omega)]
  | succ n ih =>
    intro lba self hread address
    unfold scanSubChannel
    simp only [hread, hbad, Bool.not_false, if_true]
    have hread' : ReadSubChannelQ ext
        { self with m_sbi := self.m_sbi.AddReplacementSubChannelQ lba subq } = some subq := by
      unfold ReadSubChannelQ at hread ⊢
      simp only [CDSubChannelReplacement.GetReplacementSubChannelQ,
        CDSubChannelReplacement.AddReplacementSubChannelQ, List.lookup_cons] at hread ⊢
      by_cases hp : self.m_position_on_disc = lba
      · simp [hp]
      · have : (self.m_position_on_disc == lba) = false := by simpa using hp
        simp only [this]
        exact hread
    rw [ih (lba + 1) _ hread' address]
    by_cases h1 : lba + 1 ≤ address ∧ address < lba + 1 + n
    · rw [if_pos h1, if_pos (by omega)]
    · rw [if_neg h1]
      simp only [CDSubChannelReplacement.GetReplacementSubChannelQ,
        CDSubChannelReplacement.AddReplacementSubChannelQ, List.lookup_cons]
      by_cases h2 : address = lba
      · subst h2
        simp
      · have : (address == lba) = false := by simpa using h2
        simp only [this]
        rw [if_neg (by omega)]

/-- The object `CopyImage` returns `true` on has the table the scan built from the
object as it stood after the index rebuild. -/
theorem CopyImage_final {Q : Type} {ext : Externals Q} {image : SourceImage}
    (hok : (CopyImage ext (CDImageMemory.new Q) image).result = .returned true) :
    ∃ memory lba,
      (CopyImage ext (CDImageMemory.new Q) image).self
        = { scanSubChannel ext image.lba_count 0
              { m_filename := image.filename, m_lba_count := image.lba_count,
                m_tracks := image.tracks, m_indices := (rebuildIndices image.indices 0).1,
                m_position_on_disc := 0, m_memory := some memory,
                m_memory_sectors := countMemorySectors image.indices,
                m_sbi := { m_replacement_subq := [] } } with
            m_position_on_disc := lba } := by
  obtain ⟨self', c, hp, hrun⟩ := CopyImage_returned_true hok
  obtain ⟨⟨hbase, hsbi, hmem, hm⟩, -⟩ := CopyImage_preload_copied hp
  have hself : self' =
      { m_filename := "", m_lba_count := 0, m_tracks := [], m_indices := [],
        m_position_on_disc := 0, m_memory := some c.memory,
        m_memory_sectors := countMemorySectors image.indices,
        m_sbi := { m_replacement_subq := [] } } := by
    cases self'
    simp only [CDImageMemory.new] at hbase hsbi hmem hm
    simp only [CDImageMemory.mk.injEq]
    exact ⟨hbase, hmem, hm, hsbi⟩
  rw [hrun] at hok ⊢
  subst hself
  unfold CopyImage_finish at hok ⊢
  simp only [List.nil_append] at hok ⊢
  split at hok
  · cases hok
  · rename_i hassert
    rw [if_neg hassert]
    split at hok
    · cases hok
    · rename_i hseek
      rw [if_neg hseek]
      split
      · rename_i lba hlba
        exact ⟨c.memory, lba, rfl⟩
      · rename_i hnone
        simp only [hnone] at hok
        cases hok

/-- C4. For every state of the memory image and every behaviour of the underlying
image: when the replacement table holds an entry for the current absolute position,
`CDImageMemory::ReadSubChannelQ` returns `true` with that entry, whatever the
underlying `CDImage::ReadSubChannelQ` would return; only when the table holds no entry
for the position is the result the underlying read's. -/
theorem C4_replacement_first {Q : Type} (ext : Externals Q) (self : CDImageMemory Q) :
    (∀ subq, self.m_sbi.GetReplacementSubChannelQ self.m_position_on_disc = some subq →
      ReadSubChannelQ ext self = some subq) ∧
    (self.m_sbi.GetReplacementSubChannelQ self.m_position_on_disc = none →
      ReadSubChannelQ ext self = ext.CDImage_ReadSubChannelQ self.toCDImage) :=
  ⟨ReadSubChannelQ_of_entry ext self, ReadSubChannelQ_of_no_entry ext self⟩

/-- An instance of C4: the table holds the entry 9 for position 0 and the underlying image
would return 0, which passes the CRC check; the read returns 9. -/
theorem C4_replacement_first_witness :
    exampleExternals.CDImage_ReadSubChannelQ (CDImageMemory.new Nat).toCDImage = some 0 ∧
    exampleExternals.IsCRCValid 0 = true ∧
    ReadSubChannelQ exampleExternals
        { CDImageMemory.new Nat with m_sbi := { m_replacement_subq := [(0, 9)] } }
      = some 9 :=
  ⟨rfl, rfl,
    (C4_replacement_first exampleExternals
      { CDImageMemory.new Nat with m_sbi := { m_replacement_subq := [(0, 9)] } }).1 9 rfl⟩

/-- C5, the code at a failing input. `CopyImage` returns `true` on the example image,
whose disc has 153 addresses; the subchannel data of address 1 (what the underlying
read yields with the object positioned there) fails the CRC check; yet the replacement
table has no entry keyed by 1. The scan (lines 122-126) never moves
`m_position_on_disc`, so each of its reads is the read of position 0. -/
theorem C5_scan_reads_one_position :
    (CopyImage exampleExternals (CDImageMemory.new Nat) exampleImage).result
      = .returned true ∧
    (CopyImage exampleExternals (CDImageMemory.new Nat) exampleImage).self.m_lba_count = 153 ∧
    exampleExternals.CDImage_ReadSubChannelQ
        { (CopyImage exampleExternals (CDImageMemory.new Nat) exampleImage).self.toCDImage with
          m_position_on_disc := 1 } = some 1 ∧
    exampleExternals.IsCRCValid 1 = false ∧
    CDSubChannelReplacement.GetReplacementSubChannelQ
        (CopyImage exampleExternals (CDImageMemory.new Nat) exampleImage).self.m_sbi 1
      = none := by
  obtain ⟨memory, lba, hfinal⟩ := CopyImage_final exampleImage_copies
  rw [hfinal, scanSubChannel_valid]
  · exact ⟨exampleImage_copies, rfl, rfl, rfl, rfl⟩
  · intro subq hread
    have : subq = 0 := by
      simpa [ReadSubChannelQ, CDSubChannelReplacement.GetReplacementSubChannelQ,
        exampleExternals] using hread.symm
    subst this
    rfl

/-! ## The trace of `CopyImage` -/

theorem ReadsOk_append (image : SourceImage) (a b : List Event) :
    ReadsOk image (a ++ b) ↔ ReadsOk image a ∧ ReadsOk image b := by
  unfold ReadsOk
  constructor
  · intro h
    exact ⟨fun i l hm => h i l (List.mem_append_left _ hm),
      fun i l hm => h i l (List.mem_append_right _ hm)⟩
  · rintro ⟨ha, hb⟩ i l hm
    rcases List.mem_append.mp hm with h | h
    · exact ha i l h
    · exact hb i l h

theorem ReadsOk_read (image : SourceImage) (index : Index) (lba : Nat)
    (h : image.ReadSectorFromIndex index lba ≠ none) :
    ReadsOk image [Event.ReadSectorFromIndex index lba] := by
  intro i l hm
  simp only [List.mem_singleton, Event.ReadSectorFromIndex.injEq] at hm
  obtain ⟨rfl, rfl⟩ := hm
  exact h

theorem copyIndexSectors_trace (image : SourceImage) (index : Index) :
    ∀ (n lba : Nat) (c : CopyCursor), ReadsOk image c.trace →
      match copyIndexSectors image index n lba c with
      | .done c' => ReadsOk image c'.trace ∧ ∃ more, c'.trace = c.trace ++ more
      | .outOfBounds c' => ReadsOk image c'.trace ∧ ∃ more, c'.trace = c.trace ++ more
      | .readFailed c' =>
        ∃ more lba',
          c'.trace = c.trace ++ more ++
            [Event.ReadSectorFromIndex index lba',
             Event.Log_ErrorPrintf "Failed to read LBA %u in index %u" lba' index] ∧
          ReadsOk image (c.trace ++ more) ∧ image.ReadSectorFromIndex index lba' = none := by
  intro n
  induction n with
  | zero =>
    intro lba c hc
    simp only [copyIndexSectors]
    exact ⟨hc, [], by simp⟩
  | succ n ih =>
    intro lba c hc
    unfold copyIndexSectors
    cases hr : image.ReadSectorFromIndex index lba with
    | none =>
      simp only
      exact ⟨[], lba, by simp, by simpa using hc, hr⟩
    | some sector =>
      simp only
      have hread : ReadsOk image (c.trace ++ [Event.ReadSectorFromIndex index lba]) :=
        (ReadsOk_append image _ _).mpr ⟨hc, ReadsOk_read image index lba (by simp [hr])⟩
      cases hw : memWrite c.memory c.memory_ptr sector.val with
      | none =>
        simp only
        exact ⟨hread, _, rfl⟩
      | some memory =>
        simp only
        have hc1 : ReadsOk image (c.trace ++ [Event.ReadSectorFromIndex index lba]
            ++ [Event.SetProgressValue c.sectors_read]) :=
          (ReadsOk_append image _ _).mpr ⟨hread, by intro i l hm; simp at hm⟩
        have hih := ih (lba + 1)
          { memory := memory, memory_ptr := c.memory_ptr + RAW_SECTOR_SIZE,
            sectors_read := (c.sectors_read + 1) % 4294967296,
            trace := c.trace ++ [Event.ReadSectorFromIndex index lba]
              ++ [Event.SetProgressValue c.sectors_read] } hc1
        revert hih
        cases copyIndexSectors image index n (lba + 1)
          { memory := memory, memory_ptr := c.memory_ptr + RAW_SECTOR_SIZE,
            sectors_read := (c.sectors_read + 1) % 4294967296,
            trace := c.trace ++ [Event.ReadSectorFromIndex index lba]
              ++ [Event.SetProgressValue c.sectors_read] } with
        | done c' =>
          simp only
          rintro ⟨h1, more, h2⟩
          exact ⟨h1, _, by rw [h2, List.append_assoc, List.append_assoc]⟩
        | outOfBounds c' =>
          simp only
          rintro ⟨h1, more, h2⟩
          exact ⟨h1, _, by rw [h2, List.append_assoc, List.append_assoc]⟩
        | readFailed c' =>
          simp only
          rintro ⟨more, lba', h1, h2, h3⟩
          refine ⟨[Event.ReadSectorFromIndex index lba]
            ++ [Event.SetProgressValue c.sectors_read] ++ more, lba', ?_, ?_, h3⟩
          · rw [h1]; simp only [List.append_assoc]
          · simpa only [List.append_assoc] using h2

theorem copyIndices_trace (image : SourceImage) :
    ∀ (indices : List Index) (c : CopyCursor), ReadsOk image c.trace →
      match copyIndices image indices c with
      | .done c' => ReadsOk image c'.trace ∧ ∃ more, c'.trace = c.trace ++ more
      | .outOfBounds c' => ReadsOk image c'.trace ∧ ∃ more, c'.trace = c.trace ++ more
      | .readFailed c' =>
        ∃ more index lba,
          c'.trace = c.trace ++ more ++
            [Event.ReadSectorFromIndex index lba,
             Event.Log_ErrorPrintf "Failed to read LBA %u in index %u" lba index] ∧
          ReadsOk image (c.trace ++ more) ∧ image.ReadSectorFromIndex index lba = none := by
  intro indices
  induction indices with
  | nil =>
    intro c hc
    simp only [copyIndices]
    exact ⟨hc, [], by simp⟩
  | cons index rest ih =>
    intro c hc
    unfold copyIndices
    by_cases hz : index.file_sector_size = 0
    · rw [if_pos hz]
      exact ih c hc
    · rw [if_neg hz]
      have hinner := copyIndexSectors_trace image index index.length 0 c hc
      revert hinner
      cases copyIndexSectors image index index.length 0 c with
      | done c1 =>
        simp only
        rintro ⟨g1, more1, g2⟩
        have hrest := ih c1 g1
        revert hrest
        cases copyIndices image rest c1 with
        | done c' =>
          simp only
          rintro ⟨h1, more, h2⟩
          exact ⟨h1, more1 ++ more, by rw [h2, g2, List.append_assoc]⟩
        | outOfBounds c' =>
          simp only
          rintro ⟨h1, more, h2⟩
          exact ⟨h1, more1 ++ more, by rw [h2, g2, List.append_assoc]⟩
        | readFailed c' =>
          simp only
          rintro ⟨more, index', lba', h1, h2, h3⟩
          refine ⟨more1 ++ more, index', lba', ?_, ?_, h3⟩
          · rw [h1, g2]; simp only [List.append_assoc]
          · rw [g2] at h2; simpa only [List.append_assoc] using h2
      | outOfBounds c1 =>
        simp only
        exact id
      | readFailed c1 =>
        simp only
        rintro ⟨more, lba', h1, h2, h3⟩
        exact ⟨more, index, lba', h1, h2, h3⟩

theorem CopyImage_finish_trace {Q : Type} (ext : Externals Q) (self : CDImageMemory Q)
    (image : SourceImage) (trace : List Event) :
    ∃ more, (CopyImage_finish ext self image trace).trace = trace ++ more ∧
      ∀ source, ReadsOk source more := by
  unfold CopyImage_finish
  simp only
  split
  · exact ⟨[], by simp, fun _ i l hm => by simp at hm⟩
  · split
    · exact ⟨_, by rw [List.append_assoc], fun _ i l hm => by simp at hm⟩
    · split
      · exact ⟨_, by rw [List.append_assoc], fun _ i l hm => by simp at hm⟩
      · exact ⟨_, by rw [List.append_assoc], fun _ i l hm => by simp at hm⟩

theorem guard_not_taken {m S : Nat} (hm : m < 4294967296)
    (h : RAW_SECTOR_SIZE * m < S % 18446744073709551616) :
    ¬ (RAW_SECTOR_SIZE % 18446744073709551616) * (m % 18446744073709551616)
        % 18446744073709551616 ≥ S % 18446744073709551616 := by
  have h1 : RAW_SECTOR_SIZE % 18446744073709551616 = RAW_SECTOR_SIZE := by
    simp [RAW_SECTOR_SIZE]
  have h2 : m % 18446744073709551616 = m := Nat.mod_eq_of_lt (by omega)
  have h3 : RAW_SECTOR_SIZE * m % 18446744073709551616 = RAW_SECTOR_SIZE * m := by
    apply Nat.mod_eq_of_lt
    simp only [RAW_SECTOR_SIZE]
    omega
  rw [h1, h2, h3]
  omega

theorem guard_taken {m S : Nat} (hm : m < 4294967296)
    (h : S % 18446744073709551616 ≤ RAW_SECTOR_SIZE * m) :
    (RAW_SECTOR_SIZE % 18446744073709551616) * (m % 18446744073709551616)
        % 18446744073709551616 ≥ S % 18446744073709551616 := by
  have h1 : RAW_SECTOR_SIZE % 18446744073709551616 = RAW_SECTOR_SIZE := by
    simp [RAW_SECTOR_SIZE]
  have h2 : m % 18446744073709551616 = m := Nat.mod_eq_of_lt (by omega)
  have h3 : RAW_SECTOR_SIZE * m % 18446744073709551616 = RAW_SECTOR_SIZE * m := by
    apply Nat.mod_eq_of_lt
    simp only [RAW_SECTOR_SIZE]
    omega
  rw [h1, h2, h3]
  exact h

/-- The guard of lines 50-55 on the wrapped count: when it fires, `CopyImage` reports
the error and returns `false` with nothing allocated. -/
theorem CopyImage_address_space {Q : Type} (ext : Externals Q) (self : CDImageMemory Q)
    (image : SourceImage)
    (h : ext.SIZE_MAX % 18446744073709551616
      ≤ RAW_SECTOR_SIZE * countMemorySectors image.indices) :
    CopyImage ext self image =
      { result := .returned false
        self := { self with m_memory_sectors := countMemorySectors image.indices }
        trace := [Event.DisplayFormattedModalError "Insufficient address space" []] } := by
  unfold CopyImage CopyImage_preload
  simp only
  rw [if_pos (guard_taken (countMemorySectors_lt _) h)]

/-- Every run of `CopyImage` leaves the wrapped count of lines 42-48 in
`m_memory_sectors`. -/
theorem CopyImage_m_memory_sectors {Q : Type} (ext : Externals Q) (self : CDImageMemory Q)
    (image : SourceImage) :
    (CopyImage ext self image).self.m_memory_sectors = countMemorySectors image.indices := by
  unfold CopyImage
  cases hp : CopyImage_preload ext self image with
  | copied self' c =>
    simp only
    rw [(CopyImage_finish_fields ext self' image c.trace).2.1,
      (CopyImage_preload_copied hp).1.2.2.2]
  | ended run =>
    simp only
    unfold CopyImage_preload at hp
    simp only at hp
    split at hp
    · cases hp; rfl
    · split at hp
      · cases hp; rfl
      · split at hp
        · cases hp
        · cases hp; rfl
        · cases hp; rfl

/-- The trace of a run of `CopyImage`: either every source read it made succeeded, or
its last read failed, every earlier one succeeded, and the run returned `false` with
the base members untouched. When the guard let the count through, the trace starts
with the allocation. -/
theorem CopyImage_reads {Q : Type} (ext : Externals Q) (self : CDImageMemory Q)
    (image : SourceImage) :
    (ReadsOk image (CopyImage ext self image).trace ∨
      ∃ pre index lba,
        (CopyImage ext self image).trace = pre ++
          [Event.ReadSectorFromIndex index lba,
           Event.Log_ErrorPrintf "Failed to read LBA %u in index %u" lba index] ∧
        ReadsOk image pre ∧ image.ReadSectorFromIndex index lba = none ∧
        (CopyImage ext self image).result = .returned false ∧
        (CopyImage ext self image).self.toCDImage = self.toCDImage) ∧
    (RAW_SECTOR_SIZE * countMemorySectors image.indices < ext.SIZE_MAX % 18446744073709551616 →
      ∃ more, (CopyImage ext self image).trace =
        [Event.SetFormattedStatusText "Allocating memory for %u sectors..."
            [countMemorySectors image.indices],
         Event.malloc (RAW_SECTOR_SIZE * countMemorySectors image.indices)] ++ more) := by
  unfold CopyImage CopyImage_preload
  simp only
  by_cases hg : (RAW_SECTOR_SIZE % 18446744073709551616)
      * (countMemorySectors image.indices % 18446744073709551616) % 18446744073709551616
      ≥ ext.SIZE_MAX % 18446744073709551616
  · rw [if_pos hg]
    refine ⟨Or.inl (fun i l hm => by simp at hm), fun h => ?_⟩
    exact absurd hg (guard_not_taken (countMemorySectors_lt _) h)
  · rw [if_neg hg]
    obtain ⟨-, hbytes⟩ := guard_passed (countMemorySectors_lt image.indices) hg
    rw [hbytes]
    by_cases ha :
        (!ext.malloc_succeeds (RAW_SECTOR_SIZE * countMemorySectors image.indices)) = true
    · rw [if_pos ha]
      exact ⟨Or.inl (fun i l hm => by simp at hm), fun _ => ⟨_, rfl⟩⟩
    · rw [if_neg ha]
      have h0 : ReadsOk image
          ([Event.SetFormattedStatusText "Allocating memory for %u sectors..."
              [countMemorySectors image.indices]]
            ++ [Event.malloc (RAW_SECTOR_SIZE * countMemorySectors image.indices)]
            ++ [Event.SetStatusText "Preloading CD image to RAM...",
                Event.SetProgressRange (countMemorySectors image.indices),
                Event.SetProgressValue 0]) := fun i l hm => by simp at hm
      have htrace := copyIndices_trace image image.indices
        { memory := List.replicate (RAW_SECTOR_SIZE * countMemorySectors image.indices) 0,
          memory_ptr := 0, sectors_read := 0,
          trace := [Event.SetFormattedStatusText "Allocating memory for %u sectors..."
                      [countMemorySectors image.indices]]
            ++ [Event.malloc (RAW_SECTOR_SIZE * countMemorySectors image.indices)]
            ++ [Event.SetStatusText "Preloading CD image to RAM...",
                Event.SetProgressRange (countMemorySectors image.indices),
                Event.SetProgressValue 0] } h0
      revert htrace
      cases copyIndices image image.indices _ with
      | done c' =>
        simp only
        rintro ⟨h1, more, h2⟩
        obtain ⟨extra, h3, h4⟩ := CopyImage_finish_trace ext
          { self with
            m_memory_sectors := countMemorySectors image.indices
            m_memory := some c'.memory } image c'.trace
        rw [h3]
        refine ⟨Or.inl ((ReadsOk_append image _ _).mpr ⟨h1, h4 image⟩), fun _ => ?_⟩
        rw [h2]
        exact ⟨_, by simp only [List.append_assoc, List.cons_append, List.nil_append]; rfl⟩
      | outOfBounds c' =>
        simp only
        rintro ⟨h1, more, h2⟩
        refine ⟨Or.inl h1, fun _ => ?_⟩
        rw [h2]
        exact ⟨_, by simp only [List.append_assoc, List.cons_append, List.nil_append]; rfl⟩
      | readFailed c' =>
        simp only
        rintro ⟨more, index, lba, h1, h2, h3⟩
        refine ⟨Or.inr ⟨_, index, lba, h1, h2, h3, trivial, trivial⟩, fun _ => ?_⟩
        rw [h1]
        exact ⟨_, by simp only [List.append_assoc, List.cons_append, List.nil_append]; rfl⟩

/-- When the very first source read fails, the run is the allocation, the progress
set-up, that read and the error report. -/
theorem CopyImage_first_read_fails {Q : Type} (ext : Externals Q) (self : CDImageMemory Q)
    (image : SourceImage) (index : Index) (rest : List Index)
    (hidx : image.indices = index :: rest) (hreal : index.file_sector_size ≠ 0)
    (hlen : 0 < index.length)
    (hg : RAW_SECTOR_SIZE * countMemorySectors image.indices
      < ext.SIZE_MAX % 18446744073709551616)
    (halloc : ext.malloc_succeeds (RAW_SECTOR_SIZE * countMemorySectors image.indices) = true)
    (hfail : image.ReadSectorFromIndex index 0 = none) :
    (CopyImage ext self image).trace =
      [Event.SetFormattedStatusText "Allocating memory for %u sectors..."
          [countMemorySectors image.indices],
       Event.malloc (RAW_SECTOR_SIZE * countMemorySectors image.indices),
       Event.SetStatusText "Preloading CD image to RAM...",
       Event.SetProgressRange (countMemorySectors image.indices),
       Event.SetProgressValue 0,
       Event.ReadSectorFromIndex index 0,
       Event.Log_ErrorPrintf "Failed to read LBA %u in index %u" 0 index] := by
  have hguard := guard_not_taken (countMemorySectors_lt image.indices) hg
  obtain ⟨-, hbytes⟩ := guard_passed (countMemorySectors_lt image.indices) hguard
  obtain ⟨n, hn⟩ : ∃ n, index.length = n + 1 := ⟨index.length - 1, by omega⟩
  unfold CopyImage CopyImage_preload
  simp only
  rw [if_neg hguard, hbytes, halloc]
  simp only [Bool.not_true, Bool.false_eq_true, if_false]
  rw [hidx]
  unfold copyIndices
  rw [if_neg hreal, hn]
  unfold copyIndexSectors
  rw [hfail]
  rfl

/-- C6. The build is all-or-nothing with respect to sector reads: if a call of the
source's `ReadSectorFromIndex` made by the copy loop fails, then `CopyImage` returns
`false`; that call is the last read of the run (only the error report follows it) and
every read before it succeeded, so it is the first failure; the track and index lists
of the fresh object are still empty; and `CDImage::CreateMemoryImage` returns no
image. -/
theorem C6_read_failure_aborts {Q : Type} (ext : Externals Q) (image : SourceImage)
    (index : Index) (lba : Nat)
    (hcall : Event.ReadSectorFromIndex index lba
      ∈ (CopyImage ext (CDImageMemory.new Q) image).trace)
    (hfail : image.ReadSectorFromIndex index lba = none) :
    (CopyImage ext (CDImageMemory.new Q) image).result = .returned false ∧
    (∃ before,
      (CopyImage ext (CDImageMemory.new Q) image).trace = before ++
        [Event.ReadSectorFromIndex index lba,
         Event.Log_ErrorPrintf "Failed to read LBA %u in index %u" lba index] ∧
      ReadsOk image before) ∧
    (CopyImage ext (CDImageMemory.new Q) image).self.m_tracks = [] ∧
    (CopyImage ext (CDImageMemory.new Q) image).self.m_indices = [] ∧
    CreateMemoryImage ext image = .returned none := by
  rcases (CopyImage_reads ext (CDImageMemory.new Q) image).1 with hall | hfailed
  · exact absurd hfail (hall index lba hcall)
  · obtain ⟨pre, index', lba', htrace, hpre, -, hresult, hbase⟩ := hfailed
    have hsame : index = index' ∧ lba = lba' := by
      rw [htrace] at hcall
      rcases List.mem_append.mp hcall with h | h
      · exact absurd hfail (hpre index lba h)
      · simpa using h
    obtain ⟨rfl, rfl⟩ := hsame
    refine ⟨hresult, ⟨pre, htrace, hpre⟩, congrArg CDImage.m_tracks hbase,
      congrArg CDImage.m_indices hbase, ?_⟩
    unfold CreateMemoryImage
    simp only [hresult]

/-- On the unreadable example image the first read of the copy loop fails: C6 applies
to it. -/
theorem C6_read_failure_aborts_witness :
    Event.ReadSectorFromIndex
        { file_index := 3, file_offset := 16, file_sector_size := 2352, length := 2 } 0
      ∈ (CopyImage exampleExternals (CDImageMemory.new Nat) failingImage).trace ∧
    failingImage.ReadSectorFromIndex
        { file_index := 3, file_offset := 16, file_sector_size := 2352, length := 2 } 0 = none ∧
    (CopyImage exampleExternals (CDImageMemory.new Nat) failingImage).result
      = .returned false ∧
    (CopyImage exampleExternals (CDImageMemory.new Nat) failingImage).self.m_indices = [] ∧
    CreateMemoryImage exampleExternals failingImage = .returned none := by
  have hcall : Event.ReadSectorFromIndex
        { file_index := 3, file_offset := 16, file_sector_size := 2352, length := 2 } 0
      ∈ (CopyImage exampleExternals (CDImageMemory.new Nat) failingImage).trace := by
    rw [CopyImage_first_read_fails exampleExternals (CDImageMemory.new Nat) failingImage
      { file_index := 3, file_offset := 16, file_sector_size := 2352, length := 2 } _ rfl
      (by decide) (by decide) (by decide) rfl rfl]
    simp
  have h := C6_read_failure_aborts exampleExternals failingImage _ 0 hcall rfl
  exact ⟨hcall, rfl, h.1, h.2.2.2.1, h.2.2.2.2⟩

/-- When the real sectors number `2^32` or more, the `u32` count wraps; if the wrapped
count passes the guard and the allocation and every read succeed, the copy loop runs
past the end of the buffer. -/
theorem CopyImage_overflow {Q : Type} (ext : Externals Q) (self : CDImageMemory Q)
    (image : SourceImage)
    (hg : RAW_SECTOR_SIZE * countMemorySectors image.indices
      < ext.SIZE_MAX % 18446744073709551616)
    (halloc : ext.malloc_succeeds (RAW_SECTOR_SIZE * countMemorySectors image.indices) = true)
    (hreads : ∀ index, index ∈ image.indices → index.file_sector_size ≠ 0 →
      ∀ lba, lba < index.length → image.ReadSectorFromIndex index lba ≠ none)
    (hbig : 4294967296 ≤ realSectorTotal image.indices) :
    (CopyImage ext self image).result = .undefinedBehaviour := by
  have hguard := guard_not_taken (countMemorySectors_lt image.indices) hg
  obtain ⟨-, hbytes⟩ := guard_passed (countMemorySectors_lt image.indices) hguard
  have hlt := countMemorySectors_lt image.indices
  unfold CopyImage CopyImage_preload
  simp only
  rw [if_neg hguard, hbytes, halloc]
  simp only [Bool.not_true, Bool.false_eq_true, if_false]
  have hspec := copyIndices_spec image image.indices
    { memory := List.replicate (RAW_SECTOR_SIZE * countMemorySectors image.indices) 0,
      memory_ptr := 0, sectors_read := 0,
      trace := [Event.SetFormattedStatusText "Allocating memory for %u sectors..."
                  [countMemorySectors image.indices]]
        ++ [Event.malloc (RAW_SECTOR_SIZE * countMemorySectors image.indices)]
        ++ [Event.SetStatusText "Preloading CD image to RAM...",
            Event.SetProgressRange (countMemorySectors image.indices),
            Event.SetProgressValue 0] }
  revert hspec
  cases copyIndices image image.indices _ with
  | done c' =>
    simp only [Copied, List.length_replicate, Nat.zero_add]
    rintro ⟨⟨-, h2, h3, -, -⟩, -⟩
    have := h3 (by omega)
    rw [h2] at this
    have := Nat.le_of_mul_le_mul_left this (by simp [RAW_SECTOR_SIZE])
    omega
  | readFailed c' =>
    simp only
    rintro ⟨index, hmem, hreal, lba, hlba, hnone⟩
    exact absurd hnone (hreads index hmem hreal lba hlba)
  | outOfBounds c' =>
    intro _
    rfl

/-- C7, the code at a failing input. On a 32-bit platform the image with real indices
of `2^32 - 1` and `2` sectors has a total byte size far above `SIZE_MAX`, but the `u32`
sum of lines 42-48 wraps to 1: the guard of lines 50-55 sees 2352 bytes and lets it
through, `malloc(2352)` is called rather than the resource-exhaustion error raised, and
the copy loop then writes past the one-sector buffer. -/
theorem C7_wrapped_count_passes_guard :
    platform32.SIZE_MAX < RAW_SECTOR_SIZE * realSectorTotal wrappingImage.indices ∧
    countMemorySectors wrappingImage.indices = 1 ∧
    (∃ more, (CopyImage platform32 (CDImageMemory.new Nat) wrappingImage).trace =
      [Event.SetFormattedStatusText "Allocating memory for %u sectors..." [1],
       Event.malloc 2352] ++ more) ∧
    (CopyImage platform32 (CDImageMemory.new Nat) wrappingImage).result
      = .undefinedBehaviour := by
  have htotal : realSectorTotal wrappingImage.indices = 4294967297 := by decide
  have hcount : countMemorySectors wrappingImage.indices = 1 := by
    rw [countMemorySectors_eq, htotal]
  have hg : RAW_SECTOR_SIZE * countMemorySectors wrappingImage.indices
      < platform32.SIZE_MAX % 18446744073709551616 := by
    rw [hcount]; decide
  refine ⟨by rw [htotal]; decide, hcount, ?_, ?_⟩
  · have h := (CopyImage_reads platform32 (CDImageMemory.new Nat) wrappingImage).2 hg
    rw [hcount] at h
    exact h
  · apply CopyImage_overflow _ _ _ hg
    · rfl
    · intro index _ _ lba _
      simp [wrappingImage]
    · rw [htotal]; norm_num

/-- The index rebuild of lines 96-107 on the scenario's indices. -/
theorem scenario_rebuilt :
    rebuildIndices scenarioIndices 0 =
      ([{ file_index := 0, file_offset := 0, file_sector_size := 2048, length := 100 },
        { file_index := 0, file_offset := 0, file_sector_size := 0, length := 150 },
        { file_index := 0, file_offset := 100, file_sector_size := 2352, length := 200 }],
       300) := by
  decide

/-- C8. For a source image whose indices are, in order, data (length 100, sector size
2048), pregap (length 150, sector size 0) and audio (length 200, sector size 2352):
`CopyImage` sets `m_memory_sectors` to exactly 300 and, once past the guard, asks
`malloc` for 300 raw sectors; the count is the same without the pregap, which
contributes 0; the rebuilt data index has `file_offset` 0 and the rebuilt audio index
`file_offset` 100 (the pregap in between keeps sector size 0), and these are the
indices of the object whenever the copy loop completes; the buffer then holds exactly
300 raw sectors. -/
theorem C8_scenario {Q : Type} (ext : Externals Q) (image : SourceImage)
    (himage : image.indices = scenarioIndices) :
    (CopyImage ext (CDImageMemory.new Q) image).self.m_memory_sectors = 300 ∧
    (RAW_SECTOR_SIZE * 300 < ext.SIZE_MAX % 18446744073709551616 →
      ∃ more, (CopyImage ext (CDImageMemory.new Q) image).trace =
        [Event.SetFormattedStatusText "Allocating memory for %u sectors..." [300],
         Event.malloc (RAW_SECTOR_SIZE * 300)] ++ more) ∧
    countMemorySectors
        [{ file_index := 1, file_offset := 0, file_sector_size := 2048, length := 100 },
         { file_index := 2, file_offset := 0, file_sector_size := 2352, length := 200 }]
      = 300 ∧
    countMemorySectors
        [{ file_index := 1, file_offset := 0, file_sector_size := 0, length := 150 }] = 0 ∧
    (rebuildIndices image.indices 0).1 =
      [{ file_index := 0, file_offset := 0, file_sector_size := 2048, length := 100 },
       { file_index := 0, file_offset := 0, file_sector_size := 0, length := 150 },
       { file_index := 0, file_offset := 100, file_sector_size := 2352, length := 200 }] ∧
    (∀ self' c, CopyImage_preload ext (CDImageMemory.new Q) image = .copied self' c →
      c.memory.length = RAW_SECTOR_SIZE * 300 ∧
      (CopyImage ext (CDImageMemory.new Q) image).self.m_indices =
        [{ file_index := 0, file_offset := 0, file_sector_size := 2048, length := 100 },
         { file_index := 0, file_offset := 0, file_sector_size := 0, length := 150 },
         { file_index := 0, file_offset := 100, file_sector_size := 2352, length := 200 }]) := by
  have hcount : countMemorySectors image.indices = 300 := by rw [himage]; decide
  have htotal : realSectorTotal image.indices = 300 := by rw [himage]; decide
  refine ⟨by rw [CopyImage_m_memory_sectors, hcount], ?_, by decide, by decide,
    by rw [himage, scenario_rebuilt], ?_⟩
  · intro hg
    have h := (CopyImage_reads ext (CDImageMemory.new Q) image).2 (by rw [hcount]; exact hg)
    rw [hcount] at h
    exact h
  · intro self' c hp
    have h := CopyImage_copied_count ext (CDImageMemory.new Q) self' image c hp
    rw [htotal] at h
    refine ⟨h.2.2.1, ?_⟩
    rw [h.2.2.2.2.2.2.1, himage, scenario_rebuilt]
    rfl

theorem scenarioImage_copies :
    (CopyImage exampleExternals (CDImageMemory.new Nat) scenarioImage).result
      = .returned true := by
  have htotal : realSectorTotal scenarioImage.indices = 300 := by decide
  apply CopyImage_succeeds
  · rw [htotal]; norm_num
  · rw [htotal]; decide
  · rfl
  · intro index _ _ lba _
    simp [scenarioImage]
  · rfl
  · intro base
    simp [exampleExternals]

/-- The scenario image on the example platform: the build succeeds with 300 sectors and
the rebuilt offsets 0 and 100. -/
theorem C8_scenario_witness :
    scenarioImage.indices = scenarioIndices ∧
    (CopyImage exampleExternals (CDImageMemory.new Nat) scenarioImage).result
      = .returned true ∧
    (CopyImage exampleExternals (CDImageMemory.new Nat) scenarioImage).self.m_memory_sectors
      = 300 ∧
    (CopyImage exampleExternals (CDImageMemory.new Nat) scenarioImage).self.m_indices =
      [{ file_index := 0, file_offset := 0, file_sector_size := 2048, length := 100 },
       { file_index := 0, file_offset := 0, file_sector_size := 0, length := 150 },
       { file_index := 0, file_offset := 100, file_sector_size := 2352, length := 200 }] := by
  have h := C8_scenario exampleExternals scenarioImage rfl
  obtain ⟨self', c, hp, -⟩ := CopyImage_returned_true scenarioImage_copies
  exact ⟨rfl, scenarioImage_copies, h.1, (h.2.2.2.2.2 self' c hp).2⟩

/-! ## Claims about `System::Synchronize` -/

/-- The calls of a pass with nonzero pending ticks, in program order. -/
theorem Synchronize_trace {σ : Type} (ext : SystemExternals σ) (self : System σ)
    (h : self.m_cpu.m_pending_ticks ≠ 0) :
    (Synchronize ext self).2 =
      [SyncEvent.ResetPendingTicks, SyncEvent.ResetDowncount,
       SyncEvent.Execute .GPU self.m_cpu.m_pending_ticks,
       SyncEvent.Execute .Timers self.m_cpu.m_pending_ticks,
       SyncEvent.Execute .CDROM self.m_cpu.m_pending_ticks,
       SyncEvent.Execute .Pad self.m_cpu.m_pending_ticks,
       SyncEvent.Execute .SPU self.m_cpu.m_pending_ticks,
       SyncEvent.Execute .MDEC self.m_cpu.m_pending_ticks,
       SyncEvent.Execute .DMA self.m_cpu.m_pending_ticks] := by
  unfold Synchronize
  simp only [CPUCore.GetPendingTicks, h, if_false, executeComponent, List.cons_append,
    List.nil_append]

/-- C9. In every `Synchronize` pass with nonzero pending ticks `p`, the `Execute` calls
are exactly seven: `Execute(p)` on the GPU, the timers, the CD-ROM, the pad, the SPU,
the MDEC and the DMA controller, in that order, each once and each with the same
`p`; no other component is executed. -/
theorem C9_execute_order {σ : Type} (ext : SystemExternals σ) (self : System σ)
    (h : self.m_cpu.m_pending_ticks ≠ 0) :
    executions (Synchronize ext self).2 =
      [(Component.GPU, self.m_cpu.m_pending_ticks),
       (Component.Timers, self.m_cpu.m_pending_ticks),
       (Component.CDROM, self.m_cpu.m_pending_ticks),
       (Component.Pad, self.m_cpu.m_pending_ticks),
       (Component.SPU, self.m_cpu.m_pending_ticks),
       (Component.MDEC, self.m_cpu.m_pending_ticks),
       (Component.DMA, self.m_cpu.m_pending_ticks)] := by
  rw [Synchronize_trace ext self h]
  rfl

/-- The example system has 5 pending ticks: its pass executes the seven components with
5 ticks each. -/
theorem C9_execute_order_witness :
    exampleSystem.m_cpu.m_pending_ticks ≠ 0 ∧
    executions (Synchronize exampleComponents exampleSystem).2 =
      [(Component.GPU, 5), (Component.Timers, 5), (Component.CDROM, 5), (Component.Pad, 5),
       (Component.SPU, 5), (Component.MDEC, 5), (Component.DMA, 5)] :=
  ⟨by decide, C9_execute_order exampleComponents exampleSystem (by decide)⟩

/-- C10 as stated fails on the example system. The two clears are the first two calls of
the pass and the last call is `Execute` on the DMA controller, so the trace does not end
with the clears after seven `Execute` calls; and the 3 ticks the GPU stalled the CPU by
during the pass are still pending when the pass returns, which a final clear would have
wiped. -/
theorem C10_clear_is_not_last :
    (Synchronize exampleComponents exampleSystem).2 =
      [SyncEvent.ResetPendingTicks, SyncEvent.ResetDowncount,
       SyncEvent.Execute .GPU 5, SyncEvent.Execute .Timers 5, SyncEvent.Execute .CDROM 5,
       SyncEvent.Execute .Pad 5, SyncEvent.Execute .SPU 5, SyncEvent.Execute .MDEC 5,
       SyncEvent.Execute .DMA 5] ∧
    ¬ (∃ before, (Synchronize exampleComponents exampleSystem).2
        = before ++ [SyncEvent.ResetPendingTicks, SyncEvent.ResetDowncount] ∧
        (executions before).length = 7) ∧
    (Synchronize exampleComponents exampleSystem).1.m_cpu.m_pending_ticks = 3 ∧
    (Synchronize exampleComponents exampleSystem).1.m_cpu.m_downcount = 7 := by
  have htrace := Synchronize_trace exampleComponents exampleSystem (by decide)
  refine ⟨htrace, ?_, by decide, by decide⟩
  rintro ⟨before, hbefore, -⟩
  rw [htrace] at hbefore
  have hlast := congrArg List.getLast? hbefore
  simp at hlast

/-- C10, amended. In every `Synchronize` pass with nonzero pending ticks `p`, the CPU's
pending-tick counter and downcount are cleared first, before the global tick counter
is advanced and before any of the seven components executes: the two clears are the
first two calls of the pass, the seven `Execute(p)` calls follow them, and the GPU, the
first component to execute, already sees a pending-tick counter of 0 and the downcount
at its reset value. -/
theorem C10_clear_precedes_execute {σ : Type} (ext : SystemExternals σ) (self : System σ)
    (h : self.m_cpu.m_pending_ticks ≠ 0) :
    (∃ executes,
      (Synchronize ext self).2
        = [SyncEvent.ResetPendingTicks, SyncEvent.ResetDowncount] ++ executes ∧
      executes.length = 7 ∧
      ∀ event, event ∈ executes → ∃ component, event
        = SyncEvent.Execute component self.m_cpu.m_pending_ticks) ∧
    Synchronize ext self =
      executeComponent ext .DMA self.m_cpu.m_pending_ticks
        (executeComponent ext .MDEC self.m_cpu.m_pending_ticks
          (executeComponent ext .SPU self.m_cpu.m_pending_ticks
            (executeComponent ext .Pad self.m_cpu.m_pending_ticks
              (executeComponent ext .CDROM self.m_cpu.m_pending_ticks
                (executeComponent ext .Timers self.m_cpu.m_pending_ticks
                  (executeComponent ext .GPU self.m_cpu.m_pending_ticks
                    ({ self with
                        m_cpu := { m_pending_ticks := 0, m_downcount := ext.MAX_SLICE_SIZE }
                        m_global_tick_counter :=
                          (self.m_global_tick_counter
                            + (self.m_cpu.m_pending_ticks % 4294967296).toNat) % 4294967296 },
                     [SyncEvent.ResetPendingTicks, SyncEvent.ResetDowncount]))))))) := by
  refine ⟨⟨_, Synchronize_trace ext self h, rfl, ?_⟩, ?_⟩
  · intro event hmem
    simp only [List.mem_cons, List.mem_singleton, List.not_mem_nil, or_false] at hmem
    rcases hmem with rfl | rfl | rfl | rfl | rfl | rfl | rfl <;> exact ⟨_, rfl⟩
  · unfold Synchronize
    simp only [CPUCore.GetPendingTicks, h, if_false, CPUCore.ResetPendingTicks,
      CPUCore.ResetDowncount]

/-- The example system has 5 pending ticks: the clears come first, then the seven
`Execute(5)` calls. -/
theorem C10_clear_precedes_execute_witness :
    exampleSystem.m_cpu.m_pending_ticks ≠ 0 ∧
    ∃ executes,
      (Synchronize exampleComponents exampleSystem).2
        = [SyncEvent.ResetPendingTicks, SyncEvent.ResetDowncount] ++ executes ∧
      executes.length = 7 ∧
      ∀ event, event ∈ executes → ∃ component, event
        = SyncEvent.Execute component exampleSystem.m_cpu.m_pending_ticks :=
  ⟨by decide, (C10_clear_precedes_execute exampleComponents exampleSystem (by decide)).1⟩

/-! ## `Synchronize`: what a pass leaves alone -/

theorem System_call_frame {σ : Type} (ext : SystemExternals σ) (calls : List SystemCall) :
    ∀ (self : System σ),
      (calls.foldl (System.call ext) self).components = self.components ∧
      (calls.foldl (System.call ext) self).m_region = self.m_region ∧
      (calls.foldl (System.call ext) self).m_global_tick_counter
        = self.m_global_tick_counter := by
  induction calls with
  | nil => intro self; exact ⟨rfl, rfl, rfl⟩
  | cons call rest ih =>
    intro self
    rw [List.foldl_cons]
    obtain ⟨h1, h2, h3⟩ := ih (System.call ext self call)
    rw [h1, h2, h3]
    cases call <;> exact ⟨rfl, rfl, rfl⟩

theorem executeComponent_frame {σ : Type} (ext : SystemExternals σ) (component : Component)
    (ticks : Int) (run : System σ × List SyncEvent) :
    (executeComponent ext component ticks run).1.m_region = run.1.m_region ∧
    (executeComponent ext component ticks run).1.m_global_tick_counter
      = run.1.m_global_tick_counter := by
  unfold executeComponent
  obtain ⟨-, h2, h3⟩ := System_call_frame ext (ext.Execute component ticks run.1).2
    { run.1 with components := (ext.Execute component ticks run.1).1 }
  exact ⟨h2, h3⟩

/-- A pass leaves the region alone and adds the pending ticks, as a `u32`, to the global
tick counter, which no component can change. -/
theorem Synchronize_counters {σ : Type} (ext : SystemExternals σ) (self : System σ) :
    (Synchronize ext self).1.m_region = self.m_region ∧
    (Synchronize ext self).1.m_global_tick_counter =
      if self.m_cpu.m_pending_ticks = 0 then self.m_global_tick_counter
      else (self.m_global_tick_counter
        + (self.m_cpu.m_pending_ticks % 4294967296).toNat) % 4294967296 := by
  unfold Synchronize
  simp only [CPUCore.GetPendingTicks]
  by_cases h : self.m_cpu.m_pending_ticks = 0
  · simp only [h, if_true]
    exact ⟨trivial, trivial⟩
  · simp only [h, if_false]
    simp only [executeComponent_frame]
    exact ⟨trivial, trivial⟩

/-- C11. For every system state in which the CPU's pending-tick counter is zero,
`Synchronize` makes no call at all, so it executes no component, and it returns the
system as it was: the global tick counter, the frame counters and the CPU's
pending-tick and downcount state are unchanged. -/
theorem C11_zero_pending {σ : Type} (ext : SystemExternals σ) (self : System σ)
    (h : self.m_cpu.m_pending_ticks = 0) :
    Synchronize ext self = (self, []) := by
  unfold Synchronize
  simp only [CPUCore.GetPendingTicks, h, if_true]

/-- The idle example system has no pending ticks; its pass does nothing. -/
theorem C11_zero_pending_witness :
    idleSystem.m_cpu.m_pending_ticks = 0 ∧
    Synchronize exampleComponents idleSystem = (idleSystem, []) :=
  ⟨rfl, C11_zero_pending exampleComponents idleSystem rfl⟩

/-! ## `Reset` -/

/-- C16. `Reset` is idempotent on the counters: after one `Reset` the frame number is
1, the internal frame number 0 and the global tick counter 0, and a second `Reset`
leaves them so. `Reset` does not change the region, and it replaces no component: the
hardware afterwards is the hardware before with the ten components' own `Reset`
applied, in the order of lines 270-279. -/
theorem C16_reset_idempotent {σ : Type} (ext : StateExternals σ) (self : System σ) :
    (Reset ext self).counters = (1, 0, 0) ∧
    (Reset ext (Reset ext self)).counters = (Reset ext self).counters ∧
    (Reset ext self).m_region = self.m_region ∧
    (Reset ext self).hardware =
      ext.Reset .MDEC (ext.Reset .SPU (ext.Reset .Timers (ext.Reset .Pad
        (ext.Reset .CDROM (ext.Reset .GPU (ext.Reset .InterruptController
          (ext.Reset .DMA (ext.Reset .Bus (ext.Reset .CPU self.hardware))))))))) :=
  ⟨rfl, rfl, rfl, rfl⟩

/-! ## `DoState`: the section sequence -/

theorem DoState_sections_frame {σ : Type} (ext : StateExternals σ) :
    ∀ (sections : List (String × Component)) (sw : StateWrapper) (self : System σ)
      (trace : List StateEvent),
      (DoState_sections ext sections sw self trace).self.m_region = self.m_region ∧
      (DoState_sections ext sections sw self trace).self.counters = self.counters := by
  intro sections
  induction sections with
  | nil => intro sw self trace; exact ⟨rfl, rfl⟩
  | cons head rest ih =>
    intro sw self trace
    obtain ⟨marker, component⟩ := head
    unfold DoState_sections
    simp only
    by_cases hm : (sw.DoMarker marker).1 = true
    · simp only [hm, Bool.not_true, Bool.false_eq_true, if_false]
      by_cases hd : (ext.DoState component (sw.DoMarker marker).2 self.hardware).1.1 = true
      · simp only [hd, Bool.not_true, Bool.false_eq_true, if_false]
        obtain ⟨h1, h2⟩ := ih (ext.DoState component (sw.DoMarker marker).2 self.hardware).1.2
          (self.withHardware (ext.DoState component (sw.DoMarker marker).2 self.hardware).2)
          (trace ++ [StateEvent.DoMarker marker true] ++ [StateEvent.DoState component true])
        exact ⟨h1, h2⟩
      · simp only [hd, Bool.not_false, if_true]
        exact ⟨rfl, rfl⟩
    · simp only [hm, Bool.not_false, if_true]
      exact ⟨trivial, trivial⟩

/-- The calls of the component sections: all of them when every one succeeds (the
result is then `!sw.HasError()`), otherwise the calls up to and including the first
that fails. -/
theorem DoState_sections_trace {σ : Type} (ext : StateExternals σ) :
    ∀ (sections : List (String × Component)) (sw : StateWrapper) (self : System σ)
      (trace : List StateEvent),
      ∃ events, (DoState_sections ext sections sw self trace).trace = trace ++ events ∧
        (((DoState_sections ext sections sw self trace).result
              = !(DoState_sections ext sections sw self trace).sw.HasError ∧
            events = sectionEvents sections) ∨
          ((DoState_sections ext sections sw self trace).result = false ∧
            ∃ before event later, events = before ++ [event] ∧ event.failed = true ∧
              (∀ x, x ∈ before → x.failed = false) ∧
              (before ++ [event]).map StateEvent.call ++ later = sectionEvents sections)) := by
  intro sections
  induction sections with
  | nil =>
    intro sw self trace
    exact ⟨[], by simp [DoState_sections], Or.inl ⟨rfl, rfl⟩⟩
  | cons head rest ih =>
    intro sw self trace
    obtain ⟨marker, component⟩ := head
    unfold DoState_sections
    simp only
    by_cases hm : (sw.DoMarker marker).1 = true
    · simp only [hm, Bool.not_true, Bool.false_eq_true, if_false]
      by_cases hd : (ext.DoState component (sw.DoMarker marker).2 self.hardware).1.1 = true
      · simp only [hd, Bool.not_true, Bool.false_eq_true, if_false]
        obtain ⟨events, h1, h2⟩ := ih
          (ext.DoState component (sw.DoMarker marker).2 self.hardware).1.2
          (self.withHardware (ext.DoState component (sw.DoMarker marker).2 self.hardware).2)
          (trace ++ [StateEvent.DoMarker marker true] ++ [StateEvent.DoState component true])
        refine ⟨StateEvent.DoMarker marker true :: StateEvent.DoState component true :: events,
          by rw [h1]; simp, ?_⟩
        rcases h2 with ⟨h3, h4⟩ | ⟨h3, before, event, later, h4, h5, h6, h7⟩
        · exact Or.inl ⟨h3, by rw [h4]; rfl⟩
        · refine Or.inr ⟨h3,
            StateEvent.DoMarker marker true :: StateEvent.DoState component true :: before,
            event, later, by rw [h4]; rfl, h5, ?_, ?_⟩
          · intro x hx
            simp only [List.mem_cons] at hx
            rcases hx with rfl | rfl | hx
            · rfl
            · rfl
            · exact h6 x hx
          · simp only [List.cons_append, List.map_cons, StateEvent.call, sectionEvents]
            rw [h7]
      · have hd' : (ext.DoState component (sw.DoMarker marker).2 self.hardware).1.1 = false := by
          simpa using hd
        simp only [hd', Bool.not_false, if_true]
        refine ⟨[StateEvent.DoMarker marker true, StateEvent.DoState component false],
          by simp, Or.inr ⟨trivial, [StateEvent.DoMarker marker true],
            StateEvent.DoState component false, sectionEvents rest, rfl, rfl, ?_, rfl⟩⟩
        intro x hx
        simp only [List.mem_singleton] at hx
        subst hx
        rfl
    · have hm' : (sw.DoMarker marker).1 = false := by simpa using hm
      simp only [hm', Bool.not_false, if_true]
      exact ⟨[StateEvent.DoMarker marker false], rfl,
        Or.inr ⟨trivial, [], StateEvent.DoMarker marker false,
          StateEvent.DoState component true :: sectionEvents rest, rfl, rfl,
          fun x hx => absurd hx (List.not_mem_nil x), rfl⟩⟩

/-- The calls of a run of `DoState`, in either mode. -/
theorem DoState_trace {σ : Type} (ext : StateExternals σ) (sw : StateWrapper)
    (self : System σ) :
    ((DoState ext sw self).result = !(DoState ext sw self).sw.HasError ∧
      (DoState ext sw self).trace = sectionSequence) ∨
    ((DoState ext sw self).result = false ∧
      ∃ before event later, (DoState ext sw self).trace = before ++ [event] ∧
        event.failed = true ∧ (∀ x, x ∈ before → x.failed = false) ∧
        (before ++ [event]).map StateEvent.call ++ later = sectionSequence) := by
  unfold DoState
  simp only
  by_cases hm : (sw.DoMarker "System").1 = true
  · simp only [hm, Bool.not_true, Bool.false_eq_true, if_false]
    obtain ⟨events, h1, h2⟩ := DoState_sections_trace ext componentSections
      (((((sw.DoMarker "System").2.Do ext.failed_read_value self.m_frame_number).1.Do
          ext.failed_read_value self.m_internal_frame_number).1.Do
          ext.failed_read_value self.m_global_tick_counter).1)
      { self with
        m_frame_number :=
          ((sw.DoMarker "System").2.Do ext.failed_read_value self.m_frame_number).2
        m_internal_frame_number :=
          (((sw.DoMarker "System").2.Do ext.failed_read_value self.m_frame_number).1.Do
            ext.failed_read_value self.m_internal_frame_number).2
        m_global_tick_counter :=
          ((((sw.DoMarker "System").2.Do ext.failed_read_value self.m_frame_number).1.Do
            ext.failed_read_value self.m_internal_frame_number).1.Do
            ext.failed_read_value self.m_global_tick_counter).2 }
      [StateEvent.DoMarker "System" true, StateEvent.Do "m_frame_number",
       StateEvent.Do "m_internal_frame_number", StateEvent.Do "m_global_tick_counter"]
    rw [h1]
    rcases h2 with ⟨h3, h4⟩ | ⟨h3, before, event, later, h4, h5, h6, h7⟩
    · exact Or.inl ⟨h3, by rw [h4]; rfl⟩
    · refine Or.inr ⟨h3,
        [StateEvent.DoMarker "System" true, StateEvent.Do "m_frame_number",
         StateEvent.Do "m_internal_frame_number", StateEvent.Do "m_global_tick_counter"]
          ++ before, event, later, by rw [h4]; simp, h5, ?_, ?_⟩
      · intro x hx
        simp only [List.cons_append, List.nil_append, List.mem_cons] at hx
        rcases hx with rfl | rfl | rfl | rfl | hx
        · rfl
        · rfl
        · rfl
        · rfl
        · exact h6 x hx
      · simp only [List.cons_append, List.nil_append, List.map_cons, StateEvent.call,
          sectionSequence]
        rw [← h7]
  · have hm' : (sw.DoMarker "System").1 = false := by simpa using hm
    simp only [hm', Bool.not_false, if_true]
    exact Or.inr ⟨trivial, [], StateEvent.DoMarker "System" false,
      List.tail sectionSequence, rfl, rfl, fun x hx => absurd hx (List.not_mem_nil x), rfl⟩

theorem sectionSequence_eq :
    sectionSequence =
      [StateEvent.DoMarker "System" true, StateEvent.Do "m_frame_number",
       StateEvent.Do "m_internal_frame_number", StateEvent.Do "m_global_tick_counter",
       StateEvent.DoMarker "CPU" true, StateEvent.DoState .CPU true,
       StateEvent.DoMarker "Bus" true, StateEvent.DoState .Bus true,
       StateEvent.DoMarker "DMA" true, StateEvent.DoState .DMA true,
       StateEvent.DoMarker "InterruptController" true,
       StateEvent.DoState .InterruptController true,
       StateEvent.DoMarker "GPU" true, StateEvent.DoState .GPU true,
       StateEvent.DoMarker "CDROM" true, StateEvent.DoState .CDROM true,
       StateEvent.DoMarker "Pad" true, StateEvent.DoState .Pad true,
       StateEvent.DoMarker "Timers" true, StateEvent.DoState .Timers true,
       StateEvent.DoMarker "SPU" true, StateEvent.DoState .SPU true,
       StateEvent.DoMarker "MDEC" true, StateEvent.DoState .MDEC true] := rfl

theorem sectionSequence_ok : ∀ x, x ∈ sectionSequence → x.failed = false := by
  rw [sectionSequence_eq]
  intro x hx
  simp only [List.mem_cons, List.mem_singleton, List.not_mem_nil, or_false] at hx
  rcases hx with h | h | h | h | h | h | h | h | h | h | h | h | h | h | h | h | h | h | h | h
    | h | h | h | h <;> subst h <;> rfl

theorem sectionSequence_call : sectionSequence.map StateEvent.call = sectionSequence := by
  rw [sectionSequence_eq]
  rfl

/-- The calls of every run of `DoState` are an initial part of the section sequence,
and all of it when the run returns `true`. -/
theorem DoState_sequence {σ : Type} (ext : StateExternals σ) (sw : StateWrapper)
    (self : System σ) :
    ((DoState ext sw self).result = true → (DoState ext sw self).trace = sectionSequence) ∧
    ∃ later, (DoState ext sw self).trace.map StateEvent.call ++ later = sectionSequence := by
  rcases DoState_trace ext sw self with ⟨-, h2⟩ | ⟨h1, before, event, later, h2, -, -, h5⟩
  · exact ⟨fun _ => h2, [], by rw [h2, sectionSequence_call, List.append_nil]⟩
  · refine ⟨fun h => ?_, later, by rw [h2]; exact h5⟩
    rw [h1] at h
    cases h

/-- The outcome of a run of `DoState` against its calls. -/
theorem DoState_outcome {σ : Type} (ext : StateExternals σ) (sw : StateWrapper)
    (self : System σ) :
    (∀ event, event ∈ (DoState ext sw self).trace → event.failed = true →
      (DoState ext sw self).result = false ∧
      ∃ before, (DoState ext sw self).trace = before ++ [event] ∧
        ∀ x, x ∈ before → x.failed = false) ∧
    ((DoState ext sw self).result = true →
      (∀ event, event ∈ (DoState ext sw self).trace → event.failed = false) ∧
      (DoState ext sw self).trace = sectionSequence ∧
      (DoState ext sw self).sw.HasError = false) ∧
    ((∀ event, event ∈ (DoState ext sw self).trace → event.failed = false) →
      (DoState ext sw self).sw.HasError = false → (DoState ext sw self).result = true) := by
  rcases DoState_trace ext sw self with ⟨h1, h2⟩ | ⟨h1, before, event, later, h2, h3, h4, -⟩
  · refine ⟨?_, ?_, ?_⟩
    · intro e he hfailed
      rw [h2] at he
      rw [sectionSequence_ok e he] at hfailed
      cases hfailed
    · intro hres
      refine ⟨fun e he => sectionSequence_ok e (h2 ▸ he), h2, ?_⟩
      rw [hres] at h1
      simpa using h1.symm
    · intro _ herr
      rw [h1, herr]
      rfl
  · refine ⟨?_, ?_, ?_⟩
    · intro e he hfailed
      refine ⟨h1, before, ?_, h4⟩
      rw [h2] at he ⊢
      rcases List.mem_append.mp he with hb | hl
      · rw [h4 e hb] at hfailed
        cases hfailed
      · rw [List.mem_singleton.mp hl]
    · intro hres
      rw [h1] at hres
      cases hres
    · intro hall _
      have := hall event (by rw [h2]; simp)
      rw [h3] at this
      cases this

/-! ## `SaveState` then `LoadState` -/

theorem exampleSystem_saves : (SaveState exampleState [] exampleSystem).result = true := by
  decide

/-- C13. `SaveState` and `LoadState` traverse the identical section sequence: the
marker `System`, then the frame number, the internal frame number and the global tick
counter in that order, then for each of CPU, Bus, DMA, InterruptController, GPU, CDROM,
Pad, Timers, SPU and MDEC, in that order, its named marker followed by that
component's own `DoState`. A run that returns `true` makes exactly these calls, and
every run, in either mode, makes an initial part of them; the three counters come
before any component section. -/
theorem C13_section_sequence {σ : Type} (ext : StateExternals σ) (state : List StreamItem)
    (self : System σ) :
    sectionSequence =
      [StateEvent.DoMarker "System" true, StateEvent.Do "m_frame_number",
       StateEvent.Do "m_internal_frame_number", StateEvent.Do "m_global_tick_counter",
       StateEvent.DoMarker "CPU" true, StateEvent.DoState .CPU true,
       StateEvent.DoMarker "Bus" true, StateEvent.DoState .Bus true,
       StateEvent.DoMarker "DMA" true, StateEvent.DoState .DMA true,
       StateEvent.DoMarker "InterruptController" true,
       StateEvent.DoState .InterruptController true,
       StateEvent.DoMarker "GPU" true, StateEvent.DoState .GPU true,
       StateEvent.DoMarker "CDROM" true, StateEvent.DoState .CDROM true,
       StateEvent.DoMarker "Pad" true, StateEvent.DoState .Pad true,
       StateEvent.DoMarker "Timers" true, StateEvent.DoState .Timers true,
       StateEvent.DoMarker "SPU" true, StateEvent.DoState .SPU true,
       StateEvent.DoMarker "MDEC" true, StateEvent.DoState .MDEC true] ∧
    ((SaveState ext state self).result = true →
      (SaveState ext state self).trace = sectionSequence) ∧
    ((LoadState ext state self).result = true →
      (LoadState ext state self).trace = sectionSequence) ∧
    (∃ later,
      (SaveState ext state self).trace.map StateEvent.call ++ later = sectionSequence) ∧
    (∃ later,
      (LoadState ext state self).trace.map StateEvent.call ++ later = sectionSequence) :=
  ⟨sectionSequence_eq,
    (DoState_sequence ext { m_mode := .Write, m_stream := state, m_error := false } self).1,
    (DoState_sequence ext { m_mode := .Read, m_stream := state, m_error := false } self).1,
    (DoState_sequence ext { m_mode := .Write, m_stream := state, m_error := false } self).2,
    (DoState_sequence ext { m_mode := .Read, m_stream := state, m_error := false } self).2⟩

/-- An instance of C13: the example system saves, and loading what it saved succeeds;
both runs make the whole section sequence. -/
theorem C13_section_sequence_witness :
    (SaveState exampleState [] exampleSystem).result = true ∧
    (SaveState exampleState [] exampleSystem).trace = sectionSequence ∧
    (LoadState exampleState (SaveState exampleState [] exampleSystem).sw.m_stream
        idleSystem).result = true ∧
    (LoadState exampleState (SaveState exampleState [] exampleSystem).sw.m_stream
        idleSystem).trace = sectionSequence := by
  have hload : (LoadState exampleState (SaveState exampleState [] exampleSystem).sw.m_stream
      idleSystem).result = true := by decide
  exact ⟨exampleSystem_saves,
    (C13_section_sequence exampleState [] exampleSystem).2.1 exampleSystem_saves, hload,
    (C13_section_sequence exampleState _ idleSystem).2.2.1 hload⟩

/-- C14. For every run of `DoState`, hence of `SaveState` and `LoadState`: a marker
check or a component's `DoState` that fails makes the run return `false` and is the
last call of the run, every call before it having succeeded, so no later marker or
component is processed; the run returns `true` only if every marker and every
component succeeded, the whole section sequence was processed and the state wrapper
reports no error; and it does return `true` in that case. -/
theorem C14_failure_aborts {σ : Type} (ext : StateExternals σ) (sw : StateWrapper)
    (self : System σ) :
    (∀ event, event ∈ (DoState ext sw self).trace → event.failed = true →
      (DoState ext sw self).result = false ∧
      ∃ before, (DoState ext sw self).trace = before ++ [event] ∧
        ∀ x, x ∈ before → x.failed = false) ∧
    ((DoState ext sw self).result = true →
      (∀ event, event ∈ (DoState ext sw self).trace → event.failed = false) ∧
      (DoState ext sw self).trace = sectionSequence ∧
      (DoState ext sw self).sw.HasError = false) ∧
    ((∀ event, event ∈ (DoState ext sw self).trace → event.failed = false) →
      (DoState ext sw self).sw.HasError = false → (DoState ext sw self).result = true) :=
  DoState_outcome ext sw self

/-- An instance of C14: loading the broken stream fails at the `CPU` marker, which is
the last call of the run. -/
theorem C14_failure_aborts_witness :
    StateEvent.DoMarker "CPU" false
      ∈ (LoadState exampleState brokenStream exampleSystem).trace ∧
    (LoadState exampleState brokenStream exampleSystem).result = false ∧
    ∃ before, (LoadState exampleState brokenStream exampleSystem).trace
        = before ++ [StateEvent.DoMarker "CPU" false] ∧
      ∀ x, x ∈ before → x.failed = false := by
  have hmem : StateEvent.DoMarker "CPU" false
      ∈ (LoadState exampleState brokenStream exampleSystem).trace := by decide
  exact ⟨hmem,
    (C14_failure_aborts exampleState
      { m_mode := .Read, m_stream := brokenStream, m_error := false } exampleSystem).1
      _ hmem rfl⟩

/-- C15 as stated fails on the example system. Loading the broken stream returns
`false`, at the `CPU` marker, yet the frame number, internal frame number and global
tick counter, which were 1, 0 and 1000 before the call, are 5, 6 and 7 after it. -/
theorem C15_failed_load_changes_counters :
    (LoadState exampleState brokenStream exampleSystem).result = false ∧
    exampleSystem.counters = (1, 0, 1000) ∧
    (LoadState exampleState brokenStream exampleSystem).self.counters = (5, 6, 7) := by
  decide

/-- What a run of `LoadState` does to the system: the region is never touched; when the
stream does not start with the `System` marker the run fails and nothing has changed;
when it starts with that marker and three values, those values are in the counters
afterwards, whatever the run returns. -/
theorem LoadState_effect {σ : Type} (ext : StateExternals σ) (state : List StreamItem)
    (self : System σ) :
    (LoadState ext state self).self.m_region = self.m_region ∧
    ((∀ rest, state ≠ StreamItem.marker "System" :: rest) →
      (LoadState ext state self).result = false ∧ (LoadState ext state self).self = self) ∧
    (∀ a b c rest,
      state = StreamItem.marker "System" :: StreamItem.value a :: StreamItem.value b ::
        StreamItem.value c :: rest →
      (LoadState ext state self).self.counters = (a, b, c)) := by
  refine ⟨?_, ?_, ?_⟩
  · unfold LoadState DoState
    simp only
    split
    · rfl
    · rw [(DoState_sections_frame ext componentSections _ _ _).1]
  · intro hstate
    unfold LoadState DoState
    have hm : (StateWrapper.DoMarker
        { m_mode := .Read, m_stream := state, m_error := false } "System").1 = false := by
      unfold StateWrapper.DoMarker
      simp only [Bool.false_eq_true, if_false]
      cases state with
      | nil => rfl
      | cons item rest =>
        cases item with
        | value v => rfl
        | marker name =>
          simp only
          by_cases hname : name = "System"
          · exact absurd (by rw [hname]) (hstate rest)
          · rw [if_neg hname]
    simp only [hm, Bool.not_false, if_true, and_self]
  · intro a b c rest hstate
    subst hstate
    unfold LoadState DoState
    simp only [StateWrapper.DoMarker, StateWrapper.Do, Bool.false_eq_true, if_false, if_true,
      Bool.not_true]
    rw [(DoState_sections_frame ext componentSections _ _ _).2]
    rfl

theorem calledComponents_append (a b : List StateEvent) :
    calledComponents (a ++ b) = calledComponents a ++ calledComponents b := by
  induction a with
  | nil => rfl
  | cons event rest ih =>
    cases event with
    | DoMarker marker ok =>
      rw [List.cons_append]
      exact ih
    | Do member =>
      rw [List.cons_append]
      exact ih
    | DoState component ok =>
      rw [List.cons_append]
      exact congrArg (List.cons component) ih

/-- What a run of lines 235-265 does to the hardware: each component `DoState` it calls
is applied, in order, and stays applied whatever the run returns. -/
theorem DoState_sections_hardware {σ : Type} (ext : StateExternals σ) :
    ∀ (sections : List (String × Component)) (sw : StateWrapper) (self : System σ)
      (trace : List StateEvent),
      (DoState_sections ext sections sw self trace).self.hardware
        = (componentCalls ext sections sw self.hardware).foldl
            (fun hardware call => (ext.DoState call.1 call.2 hardware).2) self.hardware ∧
      calledComponents (DoState_sections ext sections sw self trace).trace
        = calledComponents trace
          ++ (componentCalls ext sections sw self.hardware).map Prod.fst := by
  intro sections
  induction sections with
  | nil =>
    intro sw self trace
    simp [DoState_sections, componentCalls]
  | cons head rest ih =>
    intro sw self trace
    obtain ⟨marker, component⟩ := head
    unfold DoState_sections componentCalls
    simp only
    by_cases hm : (sw.DoMarker marker).1 = true
    · simp only [hm, Bool.not_true, Bool.false_eq_true, if_false]
      by_cases hd : (ext.DoState component (sw.DoMarker marker).2 self.hardware).1.1 = true
      · simp only [hd, Bool.not_true, Bool.false_eq_true, if_false]
        obtain ⟨h1, h2⟩ := ih (ext.DoState component (sw.DoMarker marker).2 self.hardware).1.2
          (self.withHardware (ext.DoState component (sw.DoMarker marker).2 self.hardware).2)
          (trace ++ [StateEvent.DoMarker marker true] ++ [StateEvent.DoState component true])
        rw [h1, h2]
        simp only [calledComponents_append, calledComponents, List.foldl_cons, List.map_cons,
          List.append_assoc, List.nil_append, List.append_nil, List.singleton_append]
        exact ⟨rfl, rfl⟩
      · have hd' : (ext.DoState component (sw.DoMarker marker).2 self.hardware).1.1 = false := by
          cases h : (ext.DoState component (sw.DoMarker marker).2 self.hardware).1.1 with
          | true => exact absurd h hd
          | false => rfl
        simp only [hd', Bool.not_false, if_true, calledComponents_append, calledComponents,
          List.foldl_cons, List.foldl_nil, List.map_cons, List.map_nil, List.append_assoc,
          List.nil_append, List.append_nil]
        exact ⟨rfl, trivial⟩
    · have hm' : (sw.DoMarker marker).1 = false := by
        cases h : (sw.DoMarker marker).1 with
        | true => exact absurd h hm
        | false => rfl
      simp only [hm', Bool.not_false, if_true, calledComponents_append, calledComponents,
        List.foldl_nil, List.map_nil, List.append_nil]
      exact ⟨trivial, trivial⟩

/-- C15, amended. `LoadState` restores in place and has no rollback. A run that fails at
the `System` marker (the stream does not start with it) leaves the system unchanged.
Once that marker and the three values after it have been read, whatever the run then
returns: the frame number, internal frame number and global tick counter hold the
values read from the stream; and the hardware is the hardware before the call with the
`DoState` of each component the run called applied to it in order, these being the
components whose sections precede the failure and the failing component itself. A
failing marker or component is the last call of the run, so nothing after it is
loaded; and the region is never changed. -/
theorem C15_failed_load_in_place {σ : Type} (ext : StateExternals σ)
    (state : List StreamItem) (self : System σ) :
    (LoadState ext state self).self.m_region = self.m_region ∧
    ((∀ rest, state ≠ StreamItem.marker "System" :: rest) →
      (LoadState ext state self).result = false ∧ (LoadState ext state self).self = self) ∧
    (∀ a b c rest,
      state = StreamItem.marker "System" :: StreamItem.value a :: StreamItem.value b ::
        StreamItem.value c :: rest →
      (LoadState ext state self).self.counters = (a, b, c) ∧
      (LoadState ext state self).self.hardware
        = (componentCalls ext componentSections
              { m_mode := .Read, m_stream := rest, m_error := false } self.hardware).foldl
            (fun hardware call => (ext.DoState call.1 call.2 hardware).2) self.hardware ∧
      calledComponents (LoadState ext state self).trace
        = (componentCalls ext componentSections
            { m_mode := .Read, m_stream := rest, m_error := false } self.hardware).map
          Prod.fst) ∧
    (∀ event, event ∈ (LoadState ext state self).trace → event.failed = true →
      (LoadState ext state self).result = false ∧
      ∃ before, (LoadState ext state self).trace = before ++ [event] ∧
        ∀ x, x ∈ before → x.failed = false) := by
  refine ⟨(LoadState_effect ext state self).1, (LoadState_effect ext state self).2.1, ?_,
    (DoState_outcome ext { m_mode := .Read, m_stream := state, m_error := false } self).1⟩
  intro a b c rest hstate
  refine ⟨(LoadState_effect ext state self).2.2 a b c rest hstate, ?_⟩
  subst hstate
  unfold LoadState DoState
  simp only [StateWrapper.DoMarker, StateWrapper.Do, Bool.false_eq_true, if_false, if_true,
    Bool.not_true]
  obtain ⟨h1, h2⟩ := DoState_sections_hardware ext componentSections
    { m_mode := .Read, m_stream := rest, m_error := false }
    { self with m_frame_number := a, m_internal_frame_number := b, m_global_tick_counter := c }
    [StateEvent.DoMarker "System" true, StateEvent.Do "m_frame_number",
     StateEvent.Do "m_internal_frame_number", StateEvent.Do "m_global_tick_counter"]
  exact ⟨h1, h2⟩

/-- Three instances of C15 as amended. An empty stream fails and leaves the example
system as it was. The broken stream leaves 5, 6 and 7 in its counters. The stream with
a `CPU` section and then a wrong marker fails after the CPU has been loaded: the shared
number, 0 before the call, is the 9 the CPU read, and the CPU is the one component
called. -/
theorem C15_failed_load_in_place_witness :
    (LoadState exampleState [] exampleSystem).result = false ∧
    (LoadState exampleState [] exampleSystem).self = exampleSystem ∧
    (LoadState exampleState brokenStream exampleSystem).self.counters = (5, 6, 7) ∧
    (LoadState exampleState halfStream exampleSystem).result = false ∧
    exampleSystem.hardware = ({ m_pending_ticks := 5, m_downcount := 20 }, 0) ∧
    (LoadState exampleState halfStream exampleSystem).self.hardware
      = ({ m_pending_ticks := 5, m_downcount := 20 }, 9) ∧
    calledComponents (LoadState exampleState halfStream exampleSystem).trace
      = [Component.CPU] := by
  have h := (C15_failed_load_in_place exampleState halfStream exampleSystem).2.2.1 5 6 7 _ rfl
  refine ⟨((C15_failed_load_in_place exampleState [] exampleSystem).2.1
      (fun rest h => by cases h)).1,
    ((C15_failed_load_in_place exampleState [] exampleSystem).2.1
      (fun rest h => by cases h)).2,
    ((C15_failed_load_in_place exampleState brokenStream exampleSystem).2.2.1 5 6 7 _ rfl).1,
    by decide, rfl, ?_, ?_⟩
  · rw [h.2.1]
    decide
  · rw [h.2.2]
    decide

/-! ## `Boot` -/

theorem writeMemoryWords_trace {σ : Type} (ext : BootExternals σ) :
    ∀ (words : List Nat) (address : Nat) (run : σ × List BootEvent),
      (∀ e, e ∈ run.2 → e.beforeInsertion = true) →
      ∀ e, e ∈ (writeMemoryWords ext words address run).2 → e.beforeInsertion = true := by
  intro words
  induction words with
  | nil => intro address run h; exact h
  | cons word rest ih =>
    intro address run h
    unfold writeMemoryWords
    apply ih
    intro e he
    rcases List.mem_append.mp he with h1 | h1
    · exact h e h1
    · rw [List.mem_singleton.mp h1]; rfl

theorem LoadEXE_trace {σ : Type} (ext : BootExternals σ) (filename : String)
    (bios_image : List Nat) (components : σ) :
    ∀ e, e ∈ (LoadEXE ext filename bios_image components).trace → e.beforeInsertion = true := by
  have h0 : ∀ e, e ∈ [BootEvent.fopen filename] → e.beforeInsertion = true := by
    intro e he
    rw [List.mem_singleton.mp he]; rfl
  unfold LoadEXE
  cases ext.file filename with
  | none => exact h0
  | some bytes =>
    simp only
    by_cases hlen : bytes.length < 0x800
    · rw [if_pos hlen]; exact h0
    · rw [if_neg hlen]
      have h1 : ∀ e, e ∈ (if (EXEHeader.read bytes).memfill_size > 0 then
            writeMemoryWords ext (List.replicate ((EXEHeader.read bytes).memfill_size / 4) 0)
              ((EXEHeader.read bytes).memfill_start - (EXEHeader.read bytes).memfill_start % 4)
              (components, [BootEvent.fopen filename])
          else (components, [BootEvent.fopen filename])).2 → e.beforeInsertion = true := by
        split
        · exact writeMemoryWords_trace ext _ _ _ h0
        · exact h0
      by_cases hub : (EXEHeader.read bytes).file_size ≥ 4 ∧
          4 * ((EXEHeader.read bytes).file_size / 4)
            < min (bytes.drop 0x800).length (EXEHeader.read bytes).file_size
      · rw [if_pos hub]; exact h1
      · rw [if_neg hub]
        by_cases hshort : (EXEHeader.read bytes).file_size ≥ 4 ∧
            (bytes.drop 0x800).length < (EXEHeader.read bytes).file_size
        · rw [if_pos hshort]; exact h1
        · rw [if_neg hshort]
          intro e he
          rcases List.mem_append.mp he with h2 | h2
          · revert h2
            by_cases hsize : (EXEHeader.read bytes).file_size ≥ 4
            · rw [if_pos hsize]
              exact writeMemoryWords_trace ext _ _ _ h1 e
            · rw [if_neg hsize]
              exact h1 e
          · rw [List.mem_singleton.mp h2]; rfl

theorem attachMemoryCard_trace {σ : Type} (ext : BootExternals σ) (slot : Nat) (path : String)
    (run : σ × List BootEvent) (h : ∀ e, e ∈ run.2 → e.beforeInsertion = true) :
    ∀ e, e ∈ (attachMemoryCard ext slot path run).2 → e.beforeInsertion = true := by
  unfold attachMemoryCard
  split
  · split
    · intro e he
      rcases List.mem_append.mp he with h1 | h1
      · exact h e h1
      · simp only [List.mem_cons, List.mem_singleton, List.not_mem_nil, or_false] at h1
        rcases h1 with rfl | rfl <;> rfl
    · intro e he
      rcases List.mem_append.mp he with h1 | h1
      · exact h e h1
      · rw [List.mem_singleton.mp h1]; rfl
  · exact h

theorem UpdateMemoryCards_trace {σ : Type} (ext : BootExternals σ) (run : σ × List BootEvent)
    (h : ∀ e, e ∈ run.2 → e.beforeInsertion = true) :
    ∀ e, e ∈ (UpdateMemoryCards ext run).2 → e.beforeInsertion = true := by
  unfold UpdateMemoryCards
  apply attachMemoryCard_trace
  apply attachMemoryCard_trace
  intro e he
  rcases List.mem_append.mp he with h1 | h1
  · exact h e h1
  · simp only [List.mem_cons, List.mem_singleton, List.not_mem_nil, or_false] at h1
    rcases h1 with rfl | rfl <;> rfl

theorem initializeOrder_trace :
    ∀ e, e ∈ initializeOrder.map BootEvent.Initialize → e.beforeInsertion = true := by
  intro e he
  obtain ⟨c, -, rfl⟩ := List.mem_map.mp he
  rfl

/-- A run of lines 131-167 either reaches line 156, with the region it started with and
only calls that come before the insertion made so far, or it ends without returning
`true`, never having inserted the medium, with the region it started with. -/
theorem Boot_load_cases {σ : Type} (st : StateExternals σ) (ext : BootExternals σ)
    (self : System σ) (media : Option CDImage) (exe : Option String) (trace : List BootEvent)
    (htrace : ∀ e, e ∈ trace → e.beforeInsertion = true) :
    (∃ reached bios_image bios_hash before,
      Boot_load st ext self media exe trace
        = Boot_finish st ext reached media bios_image bios_hash before ∧
      (∀ e, e ∈ before → e.beforeInsertion = true) ∧ reached.m_region = self.m_region) ∨
    ((Boot_load st ext self media exe trace).result ≠ .returned true ∧
      (∀ e, e ∈ (Boot_load st ext self media exe trace).trace → e.beforeInsertion = true) ∧
      (Boot_load st ext self media exe trace).self.m_region = self.m_region) := by
  have hbios : ∀ e, e ∈ trace ++ [BootEvent.GetBIOSImage self.m_region] →
      e.beforeInsertion = true := by
    intro e he
    rcases List.mem_append.mp he with h1 | h1
    · exact htrace e h1
    · rw [List.mem_singleton.mp h1]; rfl
  unfold Boot_load
  simp only
  cases hb : ext.GetBIOSImage self.m_region with
  | none =>
    simp only
    refine Or.inr ⟨by simp, ?_, by trivial⟩
    intro e he
    rcases List.mem_append.mp he with h1 | h1
    · exact hbios e h1
    · rw [List.mem_singleton.mp h1]; rfl
  | some bios_image =>
    simp only
    have hcards : ∀ e, e ∈ (UpdateMemoryCards ext ((InitializeComponents ext self).components,
        trace ++ [BootEvent.GetBIOSImage self.m_region]
          ++ initializeOrder.map BootEvent.Initialize)).2 → e.beforeInsertion = true := by
      apply UpdateMemoryCards_trace
      intro e he
      rcases List.mem_append.mp he with h1 | h1
      · exact hbios e h1
      · exact initializeOrder_trace e h1
    have htty : ∀ e, e ∈ (if ext.settings.bios_patch_tty_enable = true then
          (UpdateMemoryCards ext ((InitializeComponents ext self).components,
            trace ++ [BootEvent.GetBIOSImage self.m_region]
              ++ initializeOrder.map BootEvent.Initialize)).2 ++ [BootEvent.PatchBIOSEnableTTY]
        else (UpdateMemoryCards ext ((InitializeComponents ext self).components,
            trace ++ [BootEvent.GetBIOSImage self.m_region]
              ++ initializeOrder.map BootEvent.Initialize)).2) → e.beforeInsertion = true := by
      split
      · intro e he
        rcases List.mem_append.mp he with h1 | h1
        · exact hcards e h1
        · rw [List.mem_singleton.mp h1]; rfl
      · exact hcards
    cases exe with
    | none =>
      simp only
      exact Or.inl ⟨_, _, _, _, rfl, htty, rfl⟩
    | some filename =>
      simp only
      have hexe := LoadEXE_trace ext filename
        (if ext.settings.bios_patch_tty_enable = true then
          ext.PatchBIOSEnableTTY bios_image (ext.GetHash bios_image) else bios_image)
        (UpdateMemoryCards ext ((InitializeComponents ext self).components,
          trace ++ [BootEvent.GetBIOSImage self.m_region]
            ++ initializeOrder.map BootEvent.Initialize)).1
      have hall : ∀ e, e ∈ (if ext.settings.bios_patch_tty_enable = true then
            (UpdateMemoryCards ext ((InitializeComponents ext self).components,
              trace ++ [BootEvent.GetBIOSImage self.m_region]
                ++ initializeOrder.map BootEvent.Initialize)).2 ++ [BootEvent.PatchBIOSEnableTTY]
          else (UpdateMemoryCards ext ((InitializeComponents ext self).components,
              trace ++ [BootEvent.GetBIOSImage self.m_region]
                ++ initializeOrder.map BootEvent.Initialize)).2)
          ++ (LoadEXE ext filename
            (if ext.settings.bios_patch_tty_enable = true then
              ext.PatchBIOSEnableTTY bios_image (ext.GetHash bios_image) else bios_image)
            (UpdateMemoryCards ext ((InitializeComponents ext self).components,
              trace ++ [BootEvent.GetBIOSImage self.m_region]
                ++ initializeOrder.map BootEvent.Initialize)).1).trace →
          e.beforeInsertion = true := by
        intro e he
        rcases List.mem_append.mp he with h1 | h1
        · exact htty e h1
        · exact hexe e h1
      split
      · exact Or.inl ⟨_, _, _, _, rfl, hall, rfl⟩
      · refine Or.inr ⟨by simp, ?_, by trivial⟩
        intro e he
        rcases List.mem_append.mp he with h1 | h1
        · exact hall e h1
        · rw [List.mem_singleton.mp h1]; rfl
      · exact Or.inr ⟨by simp, hall, by trivial⟩
      · exact Or.inr ⟨by simp, hall, by trivial⟩

theorem Boot_finish_trace {σ : Type} (st : StateExternals σ) (ext : BootExternals σ)
    (reached : System σ) (media : Option CDImage) (bios_image : List Nat) (bios_hash : Nat)
    (before : List BootEvent) :
    (Boot_finish st ext reached media bios_image bios_hash before).trace
      = before ++ [BootEvent.InsertMedia media.isSome]
        ++ (if (ext.HasMedia (ext.InsertMedia media reached.components)
              && ext.settings.bios_patch_fast_boot) = true
            then [BootEvent.PatchBIOSFastBoot] else [])
        ++ [BootEvent.SetBIOS] ++ resetOrder.map BootEvent.Reset := by
  unfold Boot_finish
  simp only
  split <;> simp

/-- A run of `Boot` either reaches line 156, with the resolved region and only calls that
come before the insertion made so far, or it ends without returning `true`, never having
inserted the medium. -/
theorem Boot_cases {σ : Type} (st : StateExternals σ) (ext : BootExternals σ)
    (self : System σ) (filename : Option String) :
    (∃ reached media bios_image bios_hash before,
      Boot st ext self filename
        = Boot_finish st ext reached media bios_image bios_hash before ∧
      (∀ e, e ∈ before → e.beforeInsertion = true) ∧
      reached.m_region = resolvedRegion self.m_region) ∨
    ((Boot st ext self filename).result ≠ .returned true ∧
      (∀ e, e ∈ (Boot st ext self filename).trace → e.beforeInsertion = true)) := by
  have hres : (if self.m_region = ConsoleRegion.Auto then
      { self with m_region := ConsoleRegion.NTSC_U } else self).m_region
        = resolvedRegion self.m_region := by
    unfold resolvedRegion
    by_cases h : self.m_region = ConsoleRegion.Auto
    · rw [if_pos h, if_pos h]
    · rw [if_neg h, if_neg h]
  have hnil : ∀ e, e ∈ ([] : List BootEvent) → e.beforeInsertion = true := by
    intro e he
    cases he
  cases filename with
  | none =>
    unfold Boot
    simp only
    rcases Boot_load_cases st ext _ none none [] hnil with
      ⟨reached, bios_image, bios_hash, before, h1, h2, h3⟩ | ⟨h1, h2, -⟩
    · exact Or.inl ⟨reached, none, bios_image, bios_hash, before, h1, h2, h3.trans hres⟩
    · exact Or.inr ⟨h1, h2⟩
  | some filename =>
    unfold Boot
    simp only
    by_cases hexe : IsPSExe ext filename = true
    · rw [if_pos hexe]
      rcases Boot_load_cases st ext _ none (some filename) [] hnil with
        ⟨reached, bios_image, bios_hash, before, h1, h2, h3⟩ | ⟨h1, h2, -⟩
      · exact Or.inl ⟨reached, none, bios_image, bios_hash, before, h1, h2, h3.trans hres⟩
      · exact Or.inr ⟨h1, h2⟩
    · rw [if_neg hexe]
      cases hopen : ext.CDImage_Open filename with
      | none =>
        refine Or.inr ⟨by simp, ?_⟩
        intro e he
        simp only [List.mem_cons, List.mem_singleton, List.not_mem_nil, or_false] at he
        rcases he with rfl | rfl <;> rfl
      | some media =>
        simp only
        have hopened : ∀ e, e ∈ [BootEvent.CDImage_Open filename] →
            e.beforeInsertion = true := by
          intro e he
          rw [List.mem_singleton.mp he]; rfl
        rcases Boot_load_cases st ext _ (some media) none _ hopened with
          ⟨reached, bios_image, bios_hash, before, h1, h2, h3⟩ | ⟨h1, h2, -⟩
        · exact Or.inl ⟨reached, some media, bios_image, bios_hash, before, h1, h2,
            h3.trans hres⟩
        · exact Or.inr ⟨h1, h2⟩

/-- When `Boot` returns `true` the region is the resolved one, and the system is the
result of `Reset`. -/
theorem Boot_success {σ : Type} (st : StateExternals σ) (ext : BootExternals σ)
    (self : System σ) (filename : Option String)
    (hok : (Boot st ext self filename).result = .returned true) :
    ∃ reached media bios_image bios_hash before,
      Boot st ext self filename
        = Boot_finish st ext reached media bios_image bios_hash before ∧
      (∀ e, e ∈ before → e.beforeInsertion = true) ∧
      reached.m_region = resolvedRegion self.m_region := by
  rcases Boot_cases st ext self filename with h | ⟨h, -⟩
  · exact h
  · exact absurd hok h

/-- C17. Region resolution at boot. The system's region being the configured one, as the
constructor leaves it, for every boot target (a file name, executable or disc image, or
none): when `Boot` returns `true` the region is not `Auto`; it is the configured region
when that is not `Auto`, and NTSC-U when the configured region is `Auto`. -/
theorem C17_region_resolution {σ : Type} (st : StateExternals σ) (ext : BootExternals σ)
    (self : System σ) (filename : Option String)
    (hconf : self.m_region = ext.settings.region)
    (hok : (Boot st ext self filename).result = .returned true) :
    (Boot st ext self filename).self.m_region ≠ ConsoleRegion.Auto ∧
    (ext.settings.region ≠ ConsoleRegion.Auto →
      (Boot st ext self filename).self.m_region = ext.settings.region) ∧
    (ext.settings.region = ConsoleRegion.Auto →
      (Boot st ext self filename).self.m_region = ConsoleRegion.NTSC_U) := by
  obtain ⟨reached, media, bios_image, bios_hash, before, h1, -, h3⟩ :=
    Boot_success st ext self filename hok
  have hregion : (Boot st ext self filename).self.m_region = resolvedRegion self.m_region := by
    rw [h1, ← h3]
    rfl
  rw [hregion, hconf]
  unfold resolvedRegion
  by_cases h : ext.settings.region = ConsoleRegion.Auto
  · rw [if_pos h]
    exact ⟨by decide, fun hne => absurd h hne, fun _ => rfl⟩
  · rw [if_neg h]
    exact ⟨h, fun _ => rfl, fun heq => absurd heq h⟩

/-- An instance of C17: the example host leaves the region on `Auto`; booting the disc
image `game.cue` succeeds and the region is NTSC-U afterwards. -/
theorem C17_region_resolution_witness :
    unbootedSystem.m_region = exampleHost.settings.region ∧
    (Boot exampleState exampleHost unbootedSystem (some "game.cue")).result
      = .returned true ∧
    (Boot exampleState exampleHost unbootedSystem (some "game.cue")).self.m_region
      = ConsoleRegion.NTSC_U := by
  have hok : (Boot exampleState exampleHost unbootedSystem (some "game.cue")).result
      = .returned true := by decide
  exact ⟨rfl, hok,
    (C17_region_resolution exampleState exampleHost unbootedSystem (some "game.cue")
      rfl hok).2.2 rfl⟩

/-- C18. For every file name that `IsPSExe` does not recognise and that `CDImage::Open`
fails to open, `Boot` returns `false`; it makes exactly two calls, `CDImage::Open` and
one `ReportError`, so no BIOS image is requested, no component initialized, no medium
inserted and no `Reset` performed; and the system, with its region, counters and
components, is as it was. -/
theorem C18_open_failure {σ : Type} (st : StateExternals σ) (ext : BootExternals σ)
    (self : System σ) (filename : String)
    (hexe : IsPSExe ext filename = false) (hopen : ext.CDImage_Open filename = none) :
    (Boot st ext self (some filename)).result = .returned false ∧
    (Boot st ext self (some filename)).trace
      = [BootEvent.CDImage_Open filename,
         BootEvent.ReportError "Failed to load CD image '%s'" filename] ∧
    (Boot st ext self (some filename)).self = self := by
  unfold Boot
  simp only [hexe, hopen, Bool.false_eq_true, if_false]
  trivial

/-- An instance of C18: `missing.cue` is no executable name and does not open. -/
theorem C18_open_failure_witness :
    IsPSExe exampleHost "missing.cue" = false ∧
    exampleHost.CDImage_Open "missing.cue" = none ∧
    (Boot exampleState exampleHost unbootedSystem (some "missing.cue")).result
      = .returned false ∧
    (Boot exampleState exampleHost unbootedSystem (some "missing.cue")).trace
      = [BootEvent.CDImage_Open "missing.cue",
         BootEvent.ReportError "Failed to load CD image '%s'" "missing.cue"] ∧
    (Boot exampleState exampleHost unbootedSystem (some "missing.cue")).self
      = unbootedSystem :=
  ⟨by decide, rfl,
    C18_open_failure exampleState exampleHost unbootedSystem "missing.cue"
      (by decide) rfl⟩

theorem beforeInsertion_not_later (before : List BootEvent)
    (h : ∀ e, e ∈ before → e.beforeInsertion = true) :
    BootEvent.PatchBIOSFastBoot ∉ before ∧ (∀ present, BootEvent.InsertMedia present ∉ before) ∧
    BootEvent.SetBIOS ∉ before ∧ ∀ component, BootEvent.Reset component ∉ before := by
  refine ⟨?_, ?_, ?_, ?_⟩
  · intro hmem
    exact absurd (h _ hmem) (by decide)
  · intro present hmem
    exact absurd (h _ hmem) (by simp [BootEvent.beforeInsertion])
  · intro hmem
    exact absurd (h _ hmem) (by decide)
  · intro component hmem
    exact absurd (h _ hmem) (by simp [BootEvent.beforeInsertion])

/-- C19. The fast-boot patch in `Boot`. A run that returns `true` makes some calls, none
of them the fast-boot patch or the insertion, then inserts the medium, then applies the
fast-boot patch exactly when the drive, asked after the insertion, reports a medium and
the setting `bios_patch_fast_boot` is on, then installs the BIOS image, patched or not
accordingly, and resets; so the patch is among the calls if and only if that condition
holds. A run that does not return `true` neither inserts the medium nor applies the
patch. -/
theorem C19_fast_boot_patch {σ : Type} (st : StateExternals σ) (ext : BootExternals σ)
    (self : System σ) (filename : Option String) :
    ((Boot st ext self filename).result = .returned true →
      ∃ (reached : System σ) (media : Option CDImage) (bios_image : List Nat)
          (bios_hash : Nat) (before : List BootEvent),
        BootEvent.PatchBIOSFastBoot ∉ before ∧
        (∀ present, BootEvent.InsertMedia present ∉ before) ∧
        (Boot st ext self filename).trace
          = before ++ [BootEvent.InsertMedia media.isSome]
            ++ (if (ext.HasMedia (ext.InsertMedia media reached.components)
                  && ext.settings.bios_patch_fast_boot) = true
                then [BootEvent.PatchBIOSFastBoot] else [])
            ++ [BootEvent.SetBIOS] ++ resetOrder.map BootEvent.Reset ∧
        (Boot st ext self filename).self
          = Reset st { reached with
              components := ext.SetBIOS
                (if (ext.HasMedia (ext.InsertMedia media reached.components)
                      && ext.settings.bios_patch_fast_boot) = true
                  then ext.PatchBIOSFastBoot bios_image bios_hash else bios_image)
                (ext.InsertMedia media reached.components) } ∧
        (BootEvent.PatchBIOSFastBoot ∈ (Boot st ext self filename).trace ↔
          ext.HasMedia (ext.InsertMedia media reached.components) = true ∧
            ext.settings.bios_patch_fast_boot = true)) ∧
    ((Boot st ext self filename).result ≠ .returned true →
      BootEvent.PatchBIOSFastBoot ∉ (Boot st ext self filename).trace ∧
      ∀ present, BootEvent.InsertMedia present ∉ (Boot st ext self filename).trace) := by
  constructor
  · intro hok
    obtain ⟨reached, media, bios_image, bios_hash, before, h1, h2, -⟩ :=
      Boot_success st ext self filename hok
    obtain ⟨h3, h4, -, -⟩ := beforeInsertion_not_later before h2
    refine ⟨reached, media, bios_image, bios_hash, before, h3, h4, ?_, ?_, ?_⟩
    · rw [h1]
      exact Boot_finish_trace st ext reached media bios_image bios_hash before
    · rw [h1]
      rfl
    · rw [h1, Boot_finish_trace]
      by_cases hpatch : (ext.HasMedia (ext.InsertMedia media reached.components)
          && ext.settings.bios_patch_fast_boot) = true
      · rw [if_pos hpatch]
        simp only [Bool.and_eq_true] at hpatch
        simp [hpatch]
      · rw [if_neg hpatch]
        simp only [Bool.and_eq_true] at hpatch
        simp [hpatch, h3, resetOrder]
  · intro hfail
    rcases Boot_cases st ext self filename with
      ⟨reached, media, bios_image, bios_hash, before, h1, -, -⟩ | ⟨-, h⟩
    · rw [h1] at hfail
      exact absurd rfl hfail
    · obtain ⟨h3, h4, -, -⟩ := beforeInsertion_not_later _ h
      exact ⟨h3, h4⟩

/-- Two instances of C19 on the example host, whose fast-boot setting is on. Booting the
disc image `game.cue` succeeds and applies the patch, between the insertion and
`SetBIOS`; booting with no file name succeeds too, inserts no medium, and does not apply
the patch. -/
theorem C19_fast_boot_patch_witness :
    (Boot exampleState exampleHost unbootedSystem (some "game.cue")).result
      = .returned true ∧
    (∃ before after,
      (Boot exampleState exampleHost unbootedSystem (some "game.cue")).trace
        = before ++ [BootEvent.InsertMedia true, BootEvent.PatchBIOSFastBoot,
            BootEvent.SetBIOS] ++ after) ∧
    (Boot exampleState exampleHost unbootedSystem none).result = .returned true ∧
    BootEvent.PatchBIOSFastBoot ∉ (Boot exampleState exampleHost unbootedSystem none).trace := by
  have hdisc : (Boot exampleState exampleHost unbootedSystem (some "game.cue")).result
      = .returned true := by decide
  have hnone : (Boot exampleState exampleHost unbootedSystem none).result
      = .returned true := by decide
  obtain ⟨reached, media, bios_image, bios_hash, before, -, -, h3, -, h5⟩ :=
    (C19_fast_boot_patch exampleState exampleHost unbootedSystem (some "game.cue")).1 hdisc
  have hpatched : BootEvent.PatchBIOSFastBoot
      ∈ (Boot exampleState exampleHost unbootedSystem (some "game.cue")).trace := by decide
  have hmedia : media.isSome = true := by
    have h6 := (h5.mp hpatched).1
    cases media with
    | none => exact absurd h6 (by simp [exampleHost])
    | some image => rfl
  refine ⟨hdisc, ⟨before, resetOrder.map BootEvent.Reset, ?_⟩, hnone, by decide⟩
  rw [h3, if_pos (by rw [Bool.and_eq_true]; exact h5.mp hpatched), hmedia]
  simp only [List.append_assoc, List.cons_append, List.nil_append]

/-- C20. Every successful `Boot` ends with a full `Reset`. When `Boot` returns `true` the
frame number is 1, the internal frame number 0 and the global tick counter 0; the system
is the result of `Reset`; and the calls end with `SetBIOS` followed by the `Reset` of
each of the ten components, no `SetBIOS` and no `Reset` having been made before. -/
theorem C20_boot_ends_with_reset {σ : Type} (st : StateExternals σ) (ext : BootExternals σ)
    (self : System σ) (filename : Option String)
    (hok : (Boot st ext self filename).result = .returned true) :
    (Boot st ext self filename).self.m_frame_number = 1 ∧
    (Boot st ext self filename).self.m_internal_frame_number = 0 ∧
    (Boot st ext self filename).self.m_global_tick_counter = 0 ∧
    ∃ installed before,
      (Boot st ext self filename).self = Reset st installed ∧
      (Boot st ext self filename).trace
        = before ++ [BootEvent.SetBIOS, BootEvent.Reset .CPU, BootEvent.Reset .Bus,
            BootEvent.Reset .DMA, BootEvent.Reset .InterruptController, BootEvent.Reset .GPU,
            BootEvent.Reset .CDROM, BootEvent.Reset .Pad, BootEvent.Reset .Timers,
            BootEvent.Reset .SPU, BootEvent.Reset .MDEC] ∧
      BootEvent.SetBIOS ∉ before ∧ ∀ component, BootEvent.Reset component ∉ before := by
  obtain ⟨reached, media, bios_image, bios_hash, before, h1, h2, -⟩ :=
    Boot_success st ext self filename hok
  obtain ⟨-, -, h5, h6⟩ := beforeInsertion_not_later before h2
  refine ⟨by rw [h1]; rfl, by rw [h1]; rfl, by rw [h1]; rfl, _,
    before ++ [BootEvent.InsertMedia media.isSome]
      ++ (if (ext.HasMedia (ext.InsertMedia media reached.components)
            && ext.settings.bios_patch_fast_boot) = true
          then [BootEvent.PatchBIOSFastBoot] else []), by rw [h1]; rfl, ?_, ?_, ?_⟩
  · rw [h1, Boot_finish_trace]
    simp only [resetOrder, List.map, List.append_assoc, List.cons_append, List.nil_append]
  · intro hmem
    rcases List.mem_append.mp hmem with h7 | h7
    · rcases List.mem_append.mp h7 with h8 | h8
      · exact h5 h8
      · simp at h8
    · split at h7 <;> simp at h7
  · intro component hmem
    rcases List.mem_append.mp hmem with h7 | h7
    · rcases List.mem_append.mp h7 with h8 | h8
      · exact h6 component h8
      · simp at h8
    · split at h7 <;> simp at h7

/-- An instance of C20: the unbooted example system has the counters 7, 3 and 1000;
booting the disc image `game.cue` succeeds and leaves them at 1, 0 and 0. -/
theorem C20_boot_ends_with_reset_witness :
    unbootedSystem.counters = (7, 3, 1000) ∧
    (Boot exampleState exampleHost unbootedSystem (some "game.cue")).result
      = .returned true ∧
    (Boot exampleState exampleHost unbootedSystem (some "game.cue")).self.counters
      = (1, 0, 0) := by
  have hok : (Boot exampleState exampleHost unbootedSystem (some "game.cue")).result
      = .returned true := by decide
  have h := C20_boot_ends_with_reset exampleState exampleHost unbootedSystem
    (some "game.cue") hok
  refine ⟨rfl, hok, ?_⟩
  unfold System.counters
  rw [h.1, h.2.1, h.2.2.1]

/-! ## Claims about the memory image: bounds and the rebuilt indices -/

/-- C23. For a memory image built by `CopyImage`, every index and every `lba_in_index`:
`CDImageMemory::ReadSectorFromIndex` never reads outside the buffer. The buffer holds
`m_memory_sectors × RAW_SECTOR_SIZE` bytes; when the read returns `true`, the byte
offset the code computes in `size_t` is `sector_number × RAW_SECTOR_SIZE` without
wrap-around, the range of `RAW_SECTOR_SIZE` bytes from there ends inside the buffer, and
what is copied to the destination is that range. -/
theorem C23_read_in_bounds {Q : Type} (ext : Externals Q) (image : SourceImage)
    (hok : (CopyImage ext (CDImageMemory.new Q) image).result = .returned true)
    (buffer : List Nat) (index : Index) (lba_in_index : Nat) :
    ReadSectorFromIndex ext (CopyImage ext (CDImageMemory.new Q) image).self buffer index
      lba_in_index ≠ .undefinedBehaviour ∧
    ∃ memory,
      (CopyImage ext (CDImageMemory.new Q) image).self.m_memory = some memory ∧
      memory.length
        = (CopyImage ext (CDImageMemory.new Q) image).self.m_memory_sectors * RAW_SECTOR_SIZE ∧
      ∀ buffer',
        ReadSectorFromIndex ext (CopyImage ext (CDImageMemory.new Q) image).self buffer index
          lba_in_index = .returned (true, buffer') →
        ((index.file_offset + lba_in_index) % 18446744073709551616 % (ext.SIZE_MAX + 1))
            * (RAW_SECTOR_SIZE % (ext.SIZE_MAX + 1)) % (ext.SIZE_MAX + 1)
          = (index.file_offset + lba_in_index) % 18446744073709551616 * RAW_SECTOR_SIZE ∧
        (index.file_offset + lba_in_index) % 18446744073709551616 * RAW_SECTOR_SIZE
            + RAW_SECTOR_SIZE
          ≤ (CopyImage ext (CDImageMemory.new Q) image).self.m_memory_sectors
              * RAW_SECTOR_SIZE ∧
        buffer' =
          (memory.drop
              ((index.file_offset + lba_in_index) % 18446744073709551616 * RAW_SECTOR_SIZE)).take
            RAW_SECTOR_SIZE ++ buffer.drop RAW_SECTOR_SIZE := by
  obtain ⟨memory, hmem, hm, -, -, hlen, hsize, -⟩ := CopyImage_built hok
  rw [← hm] at hlen hsize
  generalize (CopyImage ext (CDImageMemory.new Q) image).self = self at hmem hlen hsize ⊢
  by_cases h : (index.file_offset + lba_in_index) % 18446744073709551616 < self.m_memory_sectors
  · obtain ⟨bytes, hread, -, hres⟩ := ReadSectorFromIndex_in_range ext self memory hmem hlen
      hsize buffer index lba_in_index h
    generalize hsn : (index.file_offset + lba_in_index) % 18446744073709551616 = sn
      at h hread hres ⊢
    have hR : 0 < RAW_SECTOR_SIZE := by simp [RAW_SECTOR_SIZE]
    have h1 : RAW_SECTOR_SIZE * (sn + 1) ≤ RAW_SECTOR_SIZE * self.m_memory_sectors :=
      Nat.mul_le_mul_left _ h
    rw [Nat.mul_succ] at h1
    have h2 : sn ≤ RAW_SECTOR_SIZE * sn := Nat.le_mul_of_pos_left _ hR
    have hoff : (sn % (ext.SIZE_MAX + 1)) * (RAW_SECTOR_SIZE % (ext.SIZE_MAX + 1))
        % (ext.SIZE_MAX + 1) = RAW_SECTOR_SIZE * sn := by
      rw [Nat.mod_eq_of_lt (by omega : sn < ext.SIZE_MAX + 1),
        Nat.mod_eq_of_lt (by omega : RAW_SECTOR_SIZE < ext.SIZE_MAX + 1), Nat.mul_comm,
        Nat.mod_eq_of_lt (by omega)]
    refine ⟨by rw [hres]; simp, memory, hmem, by rw [hlen, Nat.mul_comm], ?_⟩
    intro buffer' hb
    rw [hres] at hb
    refine ⟨by rw [hoff, Nat.mul_comm],
      by rw [Nat.mul_comm sn, Nat.mul_comm self.m_memory_sectors]; omega, ?_⟩
    unfold memRead at hread
    rw [if_pos (by omega)] at hread
    simp only [Result.returned.injEq, Prod.mk.injEq, true_and] at hb
    rw [← hb, Nat.mul_comm sn]
    simp only [Option.some.injEq] at hread
    rw [hread]
  · have hres := ReadSectorFromIndex_out_of_range ext self buffer index lba_in_index
      (Nat.le_of_not_lt h)
    refine ⟨by rw [hres]; simp, memory, hmem, by rw [hlen, Nat.mul_comm], ?_⟩
    intro buffer' hb
    rw [hres] at hb
    simp at hb

/-- An instance of C23: on the built example image, whose buffer holds 3 sectors, the
read of sector 2 of an index at offset 0 returns `true` and ends inside the buffer. -/
theorem C23_read_in_bounds_witness :
    (CopyImage exampleExternals (CDImageMemory.new Nat) exampleImage).result
      = .returned true ∧
    ReadSectorFromIndex exampleExternals
        (CopyImage exampleExternals (CDImageMemory.new Nat) exampleImage).self []
        { file_index := 0, file_offset := 0, file_sector_size := 2352, length := 3 } 2
      ≠ .undefinedBehaviour :=
  ⟨exampleImage_copies,
    (C23_read_in_bounds exampleExternals exampleImage exampleImage_copies []
      { file_index := 0, file_offset := 0, file_sector_size := 2352, length := 3 } 2).1⟩

/-- No run of `CopyImage` ends in a failed assertion. -/
theorem CopyImage_never_asserts {Q : Type} (ext : Externals Q) (self : CDImageMemory Q)
    (image : SourceImage) : (CopyImage ext self image).result ≠ .assertionFailed := by
  cases hp : CopyImage_preload ext self image with
  | copied self' c => exact (CopyImage_copied_count ext self self' image c hp).2.2.2.2.2.2.2
  | ended run =>
    have hrun : CopyImage ext self image = run := by
      unfold CopyImage
      rw [hp]
    rw [hrun]
    unfold CopyImage_preload at hp
    simp only at hp
    split at hp
    · cases hp
      simp
    · split at hp
      · cases hp
        simp
      · split at hp
        · cases hp
        · cases hp
          simp
        · cases hp
          simp

/-- C24. The assertion of line 109 never fails. For every list of source indices, also
one whose 32-bit length sum wraps around, the final cumulative offset of the index
rebuild (lines 96-107) equals the sector count of the first pass (lines 42-48), both
being the same sum modulo `2^32`; and no run of `CopyImage`, hence none of
`CDImage::CreateMemoryImage`, ends in a failed assertion. -/
theorem C24_assertion_holds {Q : Type} (ext : Externals Q) (self : CDImageMemory Q)
    (image : SourceImage) :
    (rebuildIndices image.indices 0).2 = countMemorySectors image.indices ∧
    countMemorySectors image.indices = realSectorTotal image.indices % 4294967296 ∧
    (CopyImage ext self image).result ≠ .assertionFailed ∧
    CreateMemoryImage ext image ≠ .assertionFailed := by
  refine ⟨rebuildIndices_final_eq_count image.indices, countMemorySectors_eq image.indices,
    CopyImage_never_asserts ext self image, ?_⟩
  unfold CreateMemoryImage
  simp only
  have h := CopyImage_never_asserts ext (CDImageMemory.new Q) image
  split
  · simp
  · simp
  · simp
  · rename_i heq
    exact absurd heq h

/-- An instance of C24 with a wrapping sum: the two real indices of the wrapping image
have `2^32 + 1` sectors in all; the first pass counts 1 and the rebuild ends at 1. -/
theorem C24_assertion_holds_witness :
    realSectorTotal wrappingImage.indices = 4294967297 ∧
    (rebuildIndices wrappingImage.indices 0).2 = 1 ∧
    countMemorySectors wrappingImage.indices = 1 := by
  have h := C24_assertion_holds platform32 (CDImageMemory.new Nat) wrappingImage
  have hcount : countMemorySectors wrappingImage.indices = 1 := by decide
  exact ⟨by decide, by rw [h.1, hcount], hcount⟩

theorem realSectorTotal_take_le (indices : List Index) :
    ∀ i, realSectorTotal (indices.take i) ≤ realSectorTotal indices := by
  induction indices with
  | nil => intro i; simp
  | cons index rest ih =>
    intro i
    cases i with
    | zero => simp [realSectorTotal_nil]
    | succ i =>
      have := ih i
      rw [List.take_succ_cons, realSectorTotal_cons, realSectorTotal_cons]
      split <;> omega

theorem realSectorTotal_take_mono (indices : List Index) (i j : Nat) (hij : i < j)
    (hj : j ≤ indices.length) (hi : i < indices.length)
    (hreal : indices[i].file_sector_size ≠ 0) :
    realSectorTotal (indices.take i) + indices[i].length ≤ realSectorTotal (indices.take j) := by
  have hlen : i < (indices.take j).length := by
    rw [List.length_take]
    omega
  have hget : (indices.take j)[i] = indices[i] := by
    rw [List.getElem_take]
  have h := realSectorTotal_take_add_le (indices.take j) i hlen (by rw [hget]; exact hreal)
  rw [hget, List.take_take, Nat.min_eq_left (Nat.le_of_lt hij)] at h
  exact h

/-- The index list of a built memory image, entry by entry. -/
theorem CopyImage_rebuilt_index {Q : Type} {ext : Externals Q} {image : SourceImage}
    (hok : (CopyImage ext (CDImageMemory.new Q) image).result = .returned true)
    (i : Nat) (hi : i < image.indices.length) :
    (CopyImage ext (CDImageMemory.new Q) image).self.m_indices[i]? =
      some (if image.indices[i].file_sector_size > 0 then
          { image.indices[i] with
            file_index := 0
            file_offset := realSectorTotal (image.indices.take i) }
        else { image.indices[i] with file_index := 0 }) := by
  obtain ⟨memory, -, -, hidx, h32, -, -, -⟩ := CopyImage_built hok
  rw [hidx, rebuildIndices_getElem image.indices 0 (by norm_num) i hi, Nat.zero_add,
    Nat.mod_eq_of_lt (Nat.lt_of_le_of_lt (realSectorTotal_take_le image.indices i) h32)]

/-- C25. After a successful `CopyImage` on a fresh object the real sectors of the source
number fewer than `2^32`, and the rebuilt index list has the length and the order of
the source's: entry `i` has `file_index` 0 and the `file_sector_size` and `length` of
source index `i`; for a blank source index (`file_sector_size` 0) it is the source index
with `file_index` 0 and nothing else changed; for a real one its `file_offset` is the
sum of the lengths of the real source indices before it. So for two real entries, the
earlier one's `file_offset` plus its `length` is at most the later one's `file_offset`:
the offsets increase in index order. -/
theorem C25_rebuilt_indices {Q : Type} (ext : Externals Q) (image : SourceImage)
    (hok : (CopyImage ext (CDImageMemory.new Q) image).result = .returned true) :
    realSectorTotal image.indices < 4294967296 ∧
    (CopyImage ext (CDImageMemory.new Q) image).self.m_indices.length
      = image.indices.length ∧
    (∀ (i : Nat) (hi : i < image.indices.length),
      ∃ rebuilt,
        (CopyImage ext (CDImageMemory.new Q) image).self.m_indices[i]? = some rebuilt ∧
        rebuilt.file_index = 0 ∧
        rebuilt.file_sector_size = image.indices[i].file_sector_size ∧
        rebuilt.length = image.indices[i].length ∧
        (image.indices[i].file_sector_size = 0 →
          rebuilt = { image.indices[i] with file_index := 0 }) ∧
        (image.indices[i].file_sector_size ≠ 0 →
          rebuilt.file_offset = realSectorTotal (image.indices.take i))) ∧
    (∀ (i j : Nat) (first second : Index), i < j →
      (CopyImage ext (CDImageMemory.new Q) image).self.m_indices[i]? = some first →
      (CopyImage ext (CDImageMemory.new Q) image).self.m_indices[j]? = some second →
      first.file_sector_size ≠ 0 → second.file_sector_size ≠ 0 →
      first.file_offset + first.length ≤ second.file_offset ∧
      first.file_offset ≤ second.file_offset) := by
  obtain ⟨memory, -, -, hidx, h32, -, -, -⟩ := CopyImage_built hok
  have hlen : (CopyImage ext (CDImageMemory.new Q) image).self.m_indices.length
      = image.indices.length := by
    rw [hidx, rebuildIndices_length]
  refine ⟨h32, hlen, ?_, ?_⟩
  · intro i hi
    refine ⟨_, CopyImage_rebuilt_index hok i hi, ?_⟩
    by_cases hz : image.indices[i].file_sector_size = 0
    · have hn : ¬ image.indices[i].file_sector_size > 0 := by omega
      rw [if_neg hn]
      exact ⟨rfl, rfl, rfl, fun _ => rfl, fun h => absurd hz h⟩
    · have hp : image.indices[i].file_sector_size > 0 := by omega
      rw [if_pos hp]
      exact ⟨rfl, rfl, rfl, fun h => absurd h hz, fun _ => rfl⟩
  · intro i j first second hij hfirst hsecond hreal1 hreal2
    have hj : j < image.indices.length := by
      rw [← hlen]
      by_contra hge
      rw [List.getElem?_eq_none (Nat.le_of_not_lt hge)] at hsecond
      cases hsecond
    have hi : i < image.indices.length := Nat.lt_trans hij hj
    rw [CopyImage_rebuilt_index hok i hi] at hfirst
    rw [CopyImage_rebuilt_index hok j hj] at hsecond
    simp only [Option.some.injEq] at hfirst hsecond
    have hr1 : image.indices[i].file_sector_size ≠ 0 := by
      intro hz
      have hn : ¬ image.indices[i].file_sector_size > 0 := by omega
      rw [if_neg hn] at hfirst
      rw [← hfirst] at hreal1
      exact hreal1 hz
    have hr2 : image.indices[j].file_sector_size ≠ 0 := by
      intro hz
      have hn : ¬ image.indices[j].file_sector_size > 0 := by omega
      rw [if_neg hn] at hsecond
      rw [← hsecond] at hreal2
      exact hreal2 hz
    rw [if_pos (by omega)] at hfirst hsecond
    have hmono := realSectorTotal_take_mono image.indices i j hij (Nat.le_of_lt hj) hi hr1
    rw [← hfirst, ← hsecond]
    simp only
    omega

/-- An instance of C25: the example image builds; its rebuilt indices are the data index
at offset 0, the blank pregap unchanged but for `file_index`, and the audio index at
offset 2. -/
theorem C25_rebuilt_indices_witness :
    (CopyImage exampleExternals (CDImageMemory.new Nat) exampleImage).result
      = .returned true ∧
    (∃ rebuilt,
      (CopyImage exampleExternals (CDImageMemory.new Nat) exampleImage).self.m_indices[2]?
        = some rebuilt ∧
      rebuilt.file_index = 0 ∧ rebuilt.file_offset = 2) := by
  obtain ⟨rebuilt, h1, h2, -, -, -, h6⟩ :=
    (C25_rebuilt_indices exampleExternals exampleImage exampleImage_copies).2.2.1 2
      (by decide)
  exact ⟨exampleImage_copies, rebuilt, h1, h2, by rw [h6 (by decide)]; decide⟩

/-! ## The copy loop stays inside the buffer -/

/-- When the real sectors number fewer than `2^32`, no run of `CopyImage` writes outside
the buffer. -/
theorem CopyImage_no_overflow {Q : Type} (ext : Externals Q) (self : CDImageMemory Q)
    (image : SourceImage) (h32 : realSectorTotal image.indices < 4294967296) :
    (CopyImage ext self image).result ≠ .undefinedBehaviour := by
  have heq : countMemorySectors image.indices = realSectorTotal image.indices := by
    rw [countMemorySectors_eq]; exact Nat.mod_eq_of_lt h32
  cases hp : CopyImage_preload ext self image with
  | copied self' c =>
    have hrun : CopyImage ext self image = CopyImage_finish ext self' image c.trace := by
      unfold CopyImage
      rw [hp]
    rw [hrun]
    unfold CopyImage_finish
    simp only
    split
    · simp
    · split
      · simp
      · split <;> simp
  | ended run =>
    have hrun : CopyImage ext self image = run := by
      unfold CopyImage
      rw [hp]
    rw [hrun]
    unfold CopyImage_preload at hp
    simp only at hp
    split at hp
    · cases hp
      simp
    · rename_i hg
      obtain ⟨-, hbytes⟩ := guard_passed (countMemorySectors_lt image.indices) hg
      rw [hbytes] at hp
      split at hp
      · cases hp
        simp
      · have hspec := copyIndices_spec image image.indices
          { memory := List.replicate (RAW_SECTOR_SIZE * countMemorySectors image.indices) 0,
            memory_ptr := 0, sectors_read := 0,
            trace := [Event.SetFormattedStatusText "Allocating memory for %u sectors..."
                        [countMemorySectors image.indices]]
              ++ [Event.malloc (RAW_SECTOR_SIZE * countMemorySectors image.indices)]
              ++ [Event.SetStatusText "Preloading CD image to RAM...",
                  Event.SetProgressRange (countMemorySectors image.indices),
                  Event.SetProgressValue 0] }
        revert hp hspec
        cases copyIndices image image.indices _ with
        | done c' => intro hp; cases hp
        | readFailed c' =>
          intro hp _
          cases hp
          simp
        | outOfBounds c' =>
          simp only [List.length_replicate, Nat.zero_add, heq]
          intro _ h
          exact absurd h (Nat.lt_irrefl _)

/-- The state of the copy loop when it is about to copy sector `lba` of the real index
`i`, having started with the pointer at the start of a buffer of as many raw sectors as
the source has real ones: the sectors copied so far number `k`, the real sectors of the
indices before `i` plus `lba`, and the pointer is `k` sectors into the buffer, a whole
sector before its end. -/
theorem copy_loop_cursor (image : SourceImage) (start before cursor : CopyCursor)
    (h32 : realSectorTotal image.indices < 4294967296)
    (hptr : start.memory_ptr = 0) (hread : start.sectors_read = 0)
    (hlen : start.memory.length = RAW_SECTOR_SIZE * realSectorTotal image.indices)
    (i : Nat) (hi : i < image.indices.length) (lba : Nat)
    (hreal : image.indices[i].file_sector_size ≠ 0) (hlba : lba < image.indices[i].length)
    (hbefore : copyIndices image (image.indices.take i) start = .done before)
    (hcursor : copyIndexSectors image image.indices[i] lba 0 before = .done cursor) :
    cursor.sectors_read = realSectorTotal (image.indices.take i) + lba ∧
    cursor.memory_ptr = (realSectorTotal (image.indices.take i) + lba) * RAW_SECTOR_SIZE ∧
    realSectorTotal (image.indices.take i) + lba < realSectorTotal image.indices ∧
    cursor.memory_ptr + RAW_SECTOR_SIZE ≤ cursor.memory.length := by
  have h1 := copyIndices_spec image (image.indices.take i) start
  rw [hbefore] at h1
  obtain ⟨⟨a1, a2, -, a4, -⟩, -⟩ := h1
  have h2 := copyIndexSectors_spec image image.indices[i] lba 0 before
  rw [hcursor] at h2
  obtain ⟨⟨b1, b2, -, b4, -⟩, -⟩ := h2
  have hle := realSectorTotal_take_add_le image.indices i hi hreal
  have hs1 : before.sectors_read = realSectorTotal (image.indices.take i) := by
    rw [a4 (by omega), hread, Nat.zero_add]
    exact Nat.mod_eq_of_lt (by omega)
  have hs2 : cursor.sectors_read = realSectorTotal (image.indices.take i) + lba := by
    rw [b4 (by omega), hs1]
    exact Nat.mod_eq_of_lt (by omega)
  have hk : realSectorTotal (image.indices.take i) + lba < realSectorTotal image.indices := by
    omega
  have hp : cursor.memory_ptr
      = (realSectorTotal (image.indices.take i) + lba) * RAW_SECTOR_SIZE := by
    rw [b2, a2, hptr, Nat.zero_add, Nat.add_mul, Nat.mul_comm RAW_SECTOR_SIZE,
      Nat.mul_comm RAW_SECTOR_SIZE]
  refine ⟨hs2, hp, hk, ?_⟩
  rw [b1, a1, hlen, hp]
  have h3 : (realSectorTotal (image.indices.take i) + lba + 1) * RAW_SECTOR_SIZE
      ≤ realSectorTotal image.indices * RAW_SECTOR_SIZE := Nat.mul_le_mul_right _ hk
  rw [Nat.add_mul, Nat.one_mul] at h3
  rw [Nat.mul_comm RAW_SECTOR_SIZE]
  exact h3

/-- C28. For every source image whose real sectors number fewer than `2^32`: no run of
`CopyImage` writes outside the buffer; `m_memory_sectors` is the number of real sectors,
and the buffer allocated is that many raw sectors. Count the real sectors from 0 across
the real indices in index order, so that sector `lba` of the real index `i` is number
`k`, the real sectors of the indices before `i` plus `lba`. When the copy loop, started
with the pointer at the start of the buffer, is about to copy that sector, it has copied
`k` sectors, `k < m_memory_sectors`, and the pointer it hands to the source is at byte
`k × RAW_SECTOR_SIZE`, a whole sector before the end of the buffer. Sectors with
different numbers are written to ranges that do not overlap. -/
theorem C28_copy_writes_in_bounds {Q : Type} (ext : Externals Q) (self : CDImageMemory Q)
    (image : SourceImage) (h32 : realSectorTotal image.indices < 4294967296) :
    (CopyImage ext self image).result ≠ .undefinedBehaviour ∧
    (CopyImage ext self image).self.m_memory_sectors = realSectorTotal image.indices ∧
    (RAW_SECTOR_SIZE * realSectorTotal image.indices < ext.SIZE_MAX % 18446744073709551616 →
      ∃ more, (CopyImage ext self image).trace =
        [Event.SetFormattedStatusText "Allocating memory for %u sectors..."
            [realSectorTotal image.indices],
         Event.malloc (RAW_SECTOR_SIZE * realSectorTotal image.indices)] ++ more) ∧
    (∀ (start before cursor : CopyCursor) (i : Nat) (hi : i < image.indices.length)
        (lba : Nat),
      start.memory_ptr = 0 → start.sectors_read = 0 →
      start.memory.length = RAW_SECTOR_SIZE * realSectorTotal image.indices →
      image.indices[i].file_sector_size ≠ 0 → lba < image.indices[i].length →
      copyIndices image (image.indices.take i) start = .done before →
      copyIndexSectors image image.indices[i] lba 0 before = .done cursor →
      cursor.sectors_read = realSectorTotal (image.indices.take i) + lba ∧
      cursor.memory_ptr = (realSectorTotal (image.indices.take i) + lba) * RAW_SECTOR_SIZE ∧
      realSectorTotal (image.indices.take i) + lba
        < (CopyImage ext self image).self.m_memory_sectors ∧
      cursor.memory_ptr + RAW_SECTOR_SIZE ≤ cursor.memory.length) ∧
    (∀ (i j : Nat) (hi : i < image.indices.length) (hj : j < image.indices.length)
        (lba lba' : Nat),
      image.indices[i].file_sector_size ≠ 0 → lba < image.indices[i].length →
      image.indices[j].file_sector_size ≠ 0 → lba' < image.indices[j].length →
      (i < j ∨ (i = j ∧ lba < lba')) →
      (realSectorTotal (image.indices.take i) + lba) * RAW_SECTOR_SIZE + RAW_SECTOR_SIZE
        ≤ (realSectorTotal (image.indices.take j) + lba') * RAW_SECTOR_SIZE) := by
  have heq : countMemorySectors image.indices = realSectorTotal image.indices := by
    rw [countMemorySectors_eq]; exact Nat.mod_eq_of_lt h32
  have hm : (CopyImage ext self image).self.m_memory_sectors
      = realSectorTotal image.indices := by
    rw [CopyImage_m_memory_sectors, heq]
  refine ⟨CopyImage_no_overflow ext self image h32, hm, ?_, ?_, ?_⟩
  · intro hg
    have h := (CopyImage_reads ext self image).2
    rw [heq] at h
    exact h hg
  · intro start before cursor i hi lba hptr hread hlen hreal hlba hbefore hcursor
    rw [hm]
    exact copy_loop_cursor image start before cursor h32 hptr hread hlen i hi lba hreal hlba
      hbefore hcursor
  · intro i j hi hj lba lba' hreal hlba _ _ horder
    have hk : realSectorTotal (image.indices.take i) + lba + 1
        ≤ realSectorTotal (image.indices.take j) + lba' := by
      rcases horder with hij | ⟨hij, hlt⟩
      · have := realSectorTotal_take_mono image.indices i j hij (Nat.le_of_lt hj) hi hreal
        omega
      · subst hij
        omega
    have h := Nat.mul_le_mul_right RAW_SECTOR_SIZE hk
    rw [Nat.add_mul _ 1, Nat.one_mul] at h
    exact h

/-- An instance of C28 on the example image, which has 3 real sectors: the build ends
without a write outside the buffer, and when the copy loop starts on a buffer of 3
sectors the first sector goes to byte 0 of it. -/
theorem C28_copy_writes_in_bounds_witness :
    realSectorTotal exampleImage.indices < 4294967296 ∧
    (CopyImage exampleExternals (CDImageMemory.new Nat) exampleImage).result
      ≠ .undefinedBehaviour ∧
    (CopyImage exampleExternals (CDImageMemory.new Nat) exampleImage).self.m_memory_sectors
      = 3 ∧
    (0 : Nat) + RAW_SECTOR_SIZE ≤ (List.replicate (RAW_SECTOR_SIZE * 3) 0).length := by
  have h32 : realSectorTotal exampleImage.indices < 4294967296 := by decide
  have h := C28_copy_writes_in_bounds exampleExternals (CDImageMemory.new Nat) exampleImage h32
  have hcursor := h.2.2.2.1
    { memory := List.replicate (RAW_SECTOR_SIZE * 3) 0, memory_ptr := 0, sectors_read := 0,
      trace := [] }
    { memory := List.replicate (RAW_SECTOR_SIZE * 3) 0, memory_ptr := 0, sectors_read := 0,
      trace := [] }
    { memory := List.replicate (RAW_SECTOR_SIZE * 3) 0, memory_ptr := 0, sectors_read := 0,
      trace := [] }
    0 (by decide) 0 rfl rfl (by rw [exampleImage_total, List.length_replicate])
    (by decide) (by decide) rfl rfl
  exact ⟨h32, h.1, by rw [h.2.1, exampleImage_total], hcursor.2.2.2⟩

/-! ## The replacement table -/

/-- What the scan of lines 122-126 does to the table: it puts new entries in front of
the old ones and changes nothing else. Each new entry is keyed by an address the scan
counted through; its value fails the CRC check and is what `ReadSubChannelQ` returned
on the object when its table held exactly the entries older than this one. -/
theorem scanSubChannel_entries {Q : Type} (ext : Externals Q) :
    ∀ (n lba : Nat) (self : CDImageMemory Q),
      ∃ added,
        scanSubChannel ext n lba self
          = { self with
              m_sbi := { m_replacement_subq := added ++ self.m_sbi.m_replacement_subq } } ∧
        ∀ later entry older, added = later ++ entry :: older →
          ext.IsCRCValid entry.2 = false ∧ lba ≤ entry.1 ∧ entry.1 < lba + n ∧
          ReadSubChannelQ ext
              { self with
                m_sbi := { m_replacement_subq := older ++ self.m_sbi.m_replacement_subq } }
            = some entry.2 := by
  intro n
  induction n with
  | zero =>
    intro lba self
    refine ⟨[], rfl, ?_⟩
    intro later entry older h
    simp at h
  | succ n ih =>
    intro lba self
    have hskip : scanSubChannel ext n (lba + 1) self = scanSubChannel ext (n + 1) lba self →
        ∃ added,
          scanSubChannel ext (n + 1) lba self
            = { self with
                m_sbi := { m_replacement_subq := added ++ self.m_sbi.m_replacement_subq } } ∧
          ∀ later entry older, added = later ++ entry :: older →
            ext.IsCRCValid entry.2 = false ∧ lba ≤ entry.1 ∧ entry.1 < lba + (n + 1) ∧
            ReadSubChannelQ ext
                { self with
                  m_sbi := { m_replacement_subq := older ++ self.m_sbi.m_replacement_subq } }
              = some entry.2 := by
      intro heq
      obtain ⟨added, h1, h2⟩ := ih (lba + 1) self
      refine ⟨added, by rw [← heq, h1], ?_⟩
      intro later entry older hdec
      obtain ⟨a, b, c, d⟩ := h2 later entry older hdec
      exact ⟨a, by omega, by omega, d⟩
    cases hr : ReadSubChannelQ ext self with
    | none =>
      apply hskip
      conv => rhs; unfold scanSubChannel
      rw [hr]
    | some subq =>
      by_cases hvalid : ext.IsCRCValid subq = true
      · apply hskip
        conv => rhs; unfold scanSubChannel
        rw [hr]
        simp only [hvalid, Bool.not_true, Bool.false_eq_true, if_false]
      · have hbad : ext.IsCRCValid subq = false := by
          cases h : ext.IsCRCValid subq with
          | true => exact absurd h hvalid
          | false => rfl
        obtain ⟨added, h1, h2⟩ := ih (lba + 1)
          { self with m_sbi := self.m_sbi.AddReplacementSubChannelQ lba subq }
        refine ⟨added ++ [(lba, subq)], ?_, ?_⟩
        · unfold scanSubChannel
          rw [hr]
          simp only [hbad, Bool.not_false, if_true]
          rw [h1]
          simp only [CDSubChannelReplacement.AddReplacementSubChannelQ, List.append_assoc,
            List.singleton_append]
        · intro later entry older hdec
          rcases List.eq_nil_or_concat older with hnil | ⟨older', x, hconcat⟩
          · subst hnil
            have hsplit := List.append_inj' hdec rfl
            have hentry : entry = (lba, subq) := by
              have := hsplit.2
              simp only [List.cons.injEq, and_true] at this
              exact this.symm
            rw [hentry]
            exact ⟨hbad, Nat.le_refl _, by omega, hr⟩
          · rw [List.concat_eq_append] at hconcat
            subst hconcat
            have hdec' : added ++ [(lba, subq)] = (later ++ entry :: older') ++ [x] := by
              rw [hdec]
              simp only [List.append_assoc, List.cons_append]
            have hsplit := List.append_inj' hdec' rfl
            have hx : x = (lba, subq) := by
              have := hsplit.2
              simp only [List.cons.injEq, and_true] at this
              exact this.symm
            obtain ⟨a, b, c, d⟩ := h2 later entry older' hsplit.1
            refine ⟨a, by omega, by omega, ?_⟩
            rw [hx]
            simpa only [CDSubChannelReplacement.AddReplacementSubChannelQ, List.append_assoc,
              List.singleton_append] using d

/-- The table after any run of `CopyImage`: new entries in front of the old ones, each
new one keyed by an address below the source's `lba_count`, with a value that fails the
CRC check and that `ReadSubChannelQ` returned on the object as the scan had it, at the
position it was built on and with exactly the older entries in its table. -/
theorem CopyImage_entries {Q : Type} (ext : Externals Q) (self : CDImageMemory Q)
    (image : SourceImage) :
    ∃ added,
      (CopyImage ext self image).self.m_sbi.m_replacement_subq
        = added ++ self.m_sbi.m_replacement_subq ∧
      ∀ later entry older, added = later ++ entry :: older →
        ext.IsCRCValid entry.2 = false ∧ entry.1 < image.lba_count ∧
        ReadSubChannelQ ext
            { (CopyImage ext self image).self with
              m_sbi := { m_replacement_subq := older ++ self.m_sbi.m_replacement_subq }
              m_position_on_disc := self.m_position_on_disc }
          = some entry.2 := by
  have hnone : ∀ run : CopyImageRun Q, run.self.m_sbi = self.m_sbi →
      ∃ added,
        run.self.m_sbi.m_replacement_subq = added ++ self.m_sbi.m_replacement_subq ∧
        ∀ later entry older, added = later ++ entry :: older →
          ext.IsCRCValid entry.2 = false ∧ entry.1 < image.lba_count ∧
          ReadSubChannelQ ext
              { run.self with
                m_sbi := { m_replacement_subq := older ++ self.m_sbi.m_replacement_subq }
                m_position_on_disc := self.m_position_on_disc }
            = some entry.2 := by
    intro run hsbi
    refine ⟨[], by rw [hsbi, List.nil_append], ?_⟩
    intro later entry older h
    simp at h
  cases hp : CopyImage_preload ext self image with
  | ended run =>
    have hrun : CopyImage ext self image = run := by
      unfold CopyImage
      rw [hp]
    rw [hrun]
    apply hnone run
    unfold CopyImage_preload at hp
    simp only at hp
    split at hp
    · cases hp
      rfl
    · split at hp
      · cases hp
        rfl
      · split at hp
        · cases hp
        · cases hp
          rfl
        · cases hp
          rfl
  | copied self' c =>
    have hrun : CopyImage ext self image = CopyImage_finish ext self' image c.trace := by
      unfold CopyImage
      rw [hp]
    rw [hrun]
    obtain ⟨⟨hbase, hsbi, -, -⟩, -⟩ := CopyImage_preload_copied hp
    have hpos : self'.m_position_on_disc = self.m_position_on_disc :=
      congrArg CDImage.m_position_on_disc hbase
    obtain ⟨added, h1, h2⟩ := scanSubChannel_entries ext image.lba_count 0
      { self' with
        m_tracks := self'.m_tracks ++ image.tracks
        m_indices := self'.m_indices ++ (rebuildIndices image.indices 0).1
        m_filename := image.filename
        m_lba_count := image.lba_count }
    have hscan : ∀ (run : CopyImageRun Q) (position : Nat),
        run.self =
          { self' with
            m_tracks := self'.m_tracks ++ image.tracks
            m_indices := self'.m_indices ++ (rebuildIndices image.indices 0).1
            m_filename := image.filename
            m_lba_count := image.lba_count
            m_position_on_disc := position
            m_sbi := { m_replacement_subq := added ++ self'.m_sbi.m_replacement_subq } } →
        ∃ added,
          run.self.m_sbi.m_replacement_subq = added ++ self.m_sbi.m_replacement_subq ∧
          ∀ later entry older, added = later ++ entry :: older →
            ext.IsCRCValid entry.2 = false ∧ entry.1 < image.lba_count ∧
            ReadSubChannelQ ext
                { run.self with
                  m_sbi := { m_replacement_subq := older ++ self.m_sbi.m_replacement_subq }
                  m_position_on_disc := self.m_position_on_disc }
              = some entry.2 := by
      intro run position hself
      refine ⟨added, by rw [hself, ← hsbi], ?_⟩
      intro later entry older hdec
      obtain ⟨a, -, c, d⟩ := h2 later entry older hdec
      refine ⟨a, by omega, ?_⟩
      rw [hself, ← hsbi, ← hpos]
      exact d
    unfold CopyImage_finish
    simp only
    split
    · exact hnone _ hsbi
    · split
      · exact hnone _ hsbi
      · rw [h1]
        split
        · rename_i lba hlba
          exact hscan _ lba rfl
        · exact hscan _ self'.m_position_on_disc rfl

theorem ReadSubChannelQ_member_eq {Q : Type} (ext : Externals Q) (self : CDImageMemory Q) :
    ReadSubChannelQ_member ext self = (ReadSubChannelQ ext self, self) := by
  unfold ReadSubChannelQ_member ReadSubChannelQ
  cases self.m_sbi.GetReplacementSubChannelQ self.m_position_on_disc <;> rfl

theorem ReadSectorFromIndex_member_returned {Q : Type} (ext : Externals Q)
    (self : CDImageMemory Q) (buffer : List Nat) (index : Index) (lba_in_index : Nat)
    (run : (Bool × List Nat) × CDImageMemory Q)
    (h : ReadSectorFromIndex_member ext self buffer index lba_in_index = .returned run) :
    ReadSectorFromIndex ext self buffer index lba_in_index = .returned run.1 ∧ run.2 = self := by
  unfold ReadSectorFromIndex_member at h
  cases hr : ReadSectorFromIndex ext self buffer index lba_in_index with
  | returned value =>
    rw [hr] at h
    simp only [Result.returned.injEq] at h
    rw [← h]
    exact ⟨rfl, rfl⟩
  | undefinedBehaviour =>
    rw [hr] at h
    cases h
  | assertionFailed =>
    rw [hr] at h
    cases h

/-- No read that returns changes the object, so none changes the table. -/
theorem readAll_returned {Q : Type} (ext : Externals Q) (reads : List ImageRead) :
    ∀ (self after : CDImageMemory Q), readAll ext reads self = .returned after →
      after = self := by
  induction reads with
  | nil =>
    intro self after h
    simp only [readAll, Result.returned.injEq] at h
    exact h.symm
  | cons read rest ih =>
    intro self after h
    cases read with
    | ReadSubChannelQ =>
      simp only [readAll, ReadSubChannelQ_member_eq] at h
      exact ih self after h
    | ReadSectorFromIndex buffer index lba_in_index =>
      simp only [readAll] at h
      cases hr : ReadSectorFromIndex_member ext self buffer index lba_in_index with
      | returned run =>
        rw [hr] at h
        simp only at h
        rw [(ReadSectorFromIndex_member_returned ext self buffer index lba_in_index run hr).2]
          at h
        exact ih self after h
      | undefinedBehaviour =>
        rw [hr] at h
        cases h
      | assertionFailed =>
        rw [hr] at h
        cases h

/-- C29. The replacement table after any run of `CopyImage` is the table before with new
entries in front. Every new entry is keyed by an address below the source's `lba_count`
and holds, unmodified, the value that `CDImageMemory::ReadSubChannelQ` returned on the
object as the scan had it, with exactly the entries older than this one in its table;
that value fails the CRC check. So the table of an image built from a fresh object
holds no entry whose check passes, and a read that yields nothing, or a value whose
check passes, adds nothing: the scan leaves such an object as it is. No other operation
changes the table: `ReadSubChannelQ` leaves the object as it is, a call of
`ReadSectorFromIndex` that returns does too, and after any sequence of such reads that
all return the table is the one the object had. -/
theorem C29_table_entries {Q : Type} (ext : Externals Q) (self : CDImageMemory Q)
    (image : SourceImage) :
    (∃ added,
      (CopyImage ext self image).self.m_sbi.m_replacement_subq
        = added ++ self.m_sbi.m_replacement_subq ∧
      ∀ later entry older, added = later ++ entry :: older →
        ext.IsCRCValid entry.2 = false ∧ entry.1 < image.lba_count ∧
        ReadSubChannelQ ext
            { (CopyImage ext self image).self with
              m_sbi := { m_replacement_subq := older ++ self.m_sbi.m_replacement_subq }
              m_position_on_disc := self.m_position_on_disc }
          = some entry.2) ∧
    (∀ entry,
      entry ∈ (CopyImage ext (CDImageMemory.new Q) image).self.m_sbi.m_replacement_subq →
      ext.IsCRCValid entry.2 = false) ∧
    (∀ (object : CDImageMemory Q) (n lba : Nat),
      (∀ subq, ReadSubChannelQ ext object = some subq → ext.IsCRCValid subq = true) →
      scanSubChannel ext n lba object = object) ∧
    (∀ (object : CDImageMemory Q),
      ReadSubChannelQ_member ext object = (ReadSubChannelQ ext object, object) ∧
      (∀ buffer index lba_in_index run,
        ReadSectorFromIndex_member ext object buffer index lba_in_index = .returned run →
        ReadSectorFromIndex ext object buffer index lba_in_index = .returned run.1 ∧
        run.2 = object) ∧
      ∀ (reads : List ImageRead) (after : CDImageMemory Q),
        readAll ext reads object = .returned after → after.m_sbi = object.m_sbi) := by
  refine ⟨CopyImage_entries ext self image, ?_, ?_, ?_⟩
  · intro entry hmem
    obtain ⟨added, h1, h2⟩ := CopyImage_entries ext (CDImageMemory.new Q) image
    rw [h1] at hmem
    simp only [CDImageMemory.new, List.append_nil] at hmem
    obtain ⟨later, older, hdec⟩ := List.append_of_mem hmem
    exact (h2 later entry older hdec).1
  · intro object n lba h
    exact scanSubChannel_valid ext object h n lba
  · intro object
    refine ⟨ReadSubChannelQ_member_eq ext object,
      ReadSectorFromIndex_member_returned ext object, ?_⟩
    intro reads after h
    rw [readAll_returned ext reads object after h]

/-- An instance of C29: on the disc with corrupt subchannel data the build succeeds, the
table then has an entry for address 5, the value 9 that the read returned, and every
entry of the table fails the CRC check. A subchannel read followed by a sector read on
a fresh object both return and leave the object as it was. -/
theorem C29_table_entries_witness :
    readAll corruptSubchannel
        [ImageRead.ReadSubChannelQ,
         ImageRead.ReadSectorFromIndex []
           { file_index := 0, file_offset := 0, file_sector_size := 2352, length := 1 } 0]
        (CDImageMemory.new Nat)
      = .returned (CDImageMemory.new Nat) ∧
    (CopyImage corruptSubchannel (CDImageMemory.new Nat) exampleImage).result
      = .returned true ∧
    CDSubChannelReplacement.GetReplacementSubChannelQ
        (CopyImage corruptSubchannel (CDImageMemory.new Nat) exampleImage).self.m_sbi 5
      = some 9 ∧
    ∀ entry,
      entry ∈ (CopyImage corruptSubchannel (CDImageMemory.new Nat)
        exampleImage).self.m_sbi.m_replacement_subq →
      corruptSubchannel.IsCRCValid entry.2 = false := by
  have hok : (CopyImage corruptSubchannel (CDImageMemory.new Nat) exampleImage).result
      = .returned true := by
    apply CopyImage_succeeds
    · rw [exampleImage_total]; norm_num
    · rw [exampleImage_total]; decide
    · rfl
    · intro index _ _ lba _
      simp [exampleImage]
    · rfl
    · intro base
      simp [corruptSubchannel, exampleExternals]
  refine ⟨rfl, hok, ?_,
    (C29_table_entries corruptSubchannel (CDImageMemory.new Nat) exampleImage).2.1⟩
  obtain ⟨memory, lba, hfinal⟩ := CopyImage_final hok
  rw [hfinal]
  simp only
  rw [scanSubChannel_invalid corruptSubchannel 9 (by decide) exampleImage.lba_count 0
    { m_filename := exampleImage.filename, m_lba_count := exampleImage.lba_count,
      m_tracks := exampleImage.tracks,
      m_indices := (rebuildIndices exampleImage.indices 0).1,
      m_position_on_disc := 0, m_memory := some memory,
      m_memory_sectors := countMemorySectors exampleImage.indices,
      m_sbi := { m_replacement_subq := [] } } rfl 5]
  rw [if_pos (by decide)]

/-! ## `Synchronize`: the tick counter, the stalls and the downcount -/

/-- C27 as stated fails on a system whose global tick counter is `2^32 - 1` and whose
CPU has one pending tick: the `u32` addition of line 417 wraps, so after the pass the
counter is 0, which is neither its value before plus 1 nor at least its value before. -/
theorem C27_tick_counter_wraps :
    wrappingSystem.m_global_tick_counter = 4294967295 ∧
    wrappingSystem.m_cpu.m_pending_ticks = 1 ∧
    (Synchronize exampleComponents wrappingSystem).1.m_global_tick_counter = 0 ∧
    (Synchronize exampleComponents wrappingSystem).1.m_global_tick_counter
      ≠ wrappingSystem.m_global_tick_counter + 1 ∧
    (Synchronize exampleComponents wrappingSystem).1.m_global_tick_counter
      < wrappingSystem.m_global_tick_counter := by
  decide

/-- The global tick counter after a pass. -/
theorem Synchronize_tick_counter {σ : Type} (ext : SystemExternals σ) (self : System σ) :
    (Synchronize ext self).1.m_global_tick_counter =
      if self.m_cpu.m_pending_ticks = 0 then self.m_global_tick_counter
      else (self.m_global_tick_counter
        + (self.m_cpu.m_pending_ticks % 4294967296).toNat) % 4294967296 := by
  exact (Synchronize_counters ext self).2

/-- C27, amended. The global tick counter is a `u32` that advances modulo `2^32`. For
every system state whose counter holds a `u32` value and every `Synchronize` pass
draining pending ticks `p`, the counter after the pass is its value before plus `p`
(taken as a `u32`), modulo `2^32`. When `0 ≤ p` and the sum stays below `2^32` the
counter after the pass is exactly its value before plus `p` and so not smaller; when
`0 ≤ p < 2^32` and the sum reaches `2^32` the counter wraps around and is smaller than
before. -/
theorem C27_tick_counter_modular {σ : Type} (ext : SystemExternals σ) (self : System σ)
    (hu32 : self.m_global_tick_counter < 4294967296) :
    (Synchronize ext self).1.m_global_tick_counter
      = (self.m_global_tick_counter
          + (self.m_cpu.m_pending_ticks % 4294967296).toNat) % 4294967296 ∧
    (0 ≤ self.m_cpu.m_pending_ticks →
      self.m_global_tick_counter + self.m_cpu.m_pending_ticks.toNat < 4294967296 →
      (Synchronize ext self).1.m_global_tick_counter
        = self.m_global_tick_counter + self.m_cpu.m_pending_ticks.toNat ∧
      self.m_global_tick_counter ≤ (Synchronize ext self).1.m_global_tick_counter) ∧
    (0 ≤ self.m_cpu.m_pending_ticks → self.m_cpu.m_pending_ticks < 4294967296 →
      4294967296 ≤ self.m_global_tick_counter + self.m_cpu.m_pending_ticks.toNat →
      (Synchronize ext self).1.m_global_tick_counter + 4294967296
        = self.m_global_tick_counter + self.m_cpu.m_pending_ticks.toNat ∧
      (Synchronize ext self).1.m_global_tick_counter < self.m_global_tick_counter) := by
  rw [Synchronize_tick_counter]
  generalize self.m_cpu.m_pending_ticks = p
  generalize self.m_global_tick_counter = c at hu32 ⊢
  refine ⟨?_, ?_, ?_⟩
  · by_cases h : p = 0
    · rw [if_pos h, h]
      simp only [Int.zero_emod, Int.toNat_zero, Nat.add_zero]
      exact (Nat.mod_eq_of_lt hu32).symm
    · rw [if_neg h]
  · intro h0 hfit
    by_cases h : p = 0
    · rw [if_pos h, h]
      simp
    · rw [if_neg h]
      have hp : (p % 4294967296).toNat = p.toNat := by omega
      rw [hp, Nat.mod_eq_of_lt hfit]
      exact ⟨rfl, Nat.le_add_right _ _⟩
  · intro h0 hlt hwrap
    have h : p ≠ 0 := by
      intro hz
      rw [hz] at hwrap
      simp at hwrap
      omega
    rw [if_neg h]
    have hp : (p % 4294967296).toNat = p.toNat := by omega
    rw [hp]
    omega

/-- An instance of amended C27: the example system's counter is 1000 and its CPU has 5
pending ticks; after the pass the counter is 1005. -/
theorem C27_tick_counter_modular_witness :
    exampleSystem.m_global_tick_counter < 4294967296 ∧
    (Synchronize exampleComponents exampleSystem).1.m_global_tick_counter = 1005 ∧
    exampleSystem.m_global_tick_counter
      ≤ (Synchronize exampleComponents exampleSystem).1.m_global_tick_counter := by
  have h := (C27_tick_counter_modular exampleComponents exampleSystem (by decide)).2.1
    (by decide) (by decide)
  exact ⟨by decide, by rw [h.1]; decide, h.2⟩

theorem stalledTicks_append (a b : List SystemCall) :
    stalledTicks (a ++ b) = stalledTicks a ++ stalledTicks b := by
  induction a with
  | nil => rfl
  | cons call rest ih =>
    cases call with
    | SetDowncount downcount =>
      rw [List.cons_append]
      exact ih
    | StallCPU ticks =>
      rw [List.cons_append]
      exact congrArg (List.cons ticks) ih
    | IncrementFrameNumber =>
      rw [List.cons_append]
      exact ih
    | IncrementInternalFrameNumber =>
      rw [List.cons_append]
      exact ih

theorem requestedDowncounts_append (a b : List SystemCall) :
    requestedDowncounts (a ++ b) = requestedDowncounts a ++ requestedDowncounts b := by
  induction a with
  | nil => rfl
  | cons call rest ih =>
    cases call with
    | SetDowncount downcount =>
      rw [List.cons_append]
      exact congrArg (List.cons downcount) ih
    | StallCPU ticks =>
      rw [List.cons_append]
      exact ih
    | IncrementFrameNumber =>
      rw [List.cons_append]
      exact ih
    | IncrementInternalFrameNumber =>
      rw [List.cons_append]
      exact ih

/-- What a sequence of calls back on `System` does to the CPU: the stalled ticks are
added to the pending-tick counter, the requested downcounts are set one after the
other. -/
theorem System_call_cpu {σ : Type} (ext : SystemExternals σ) (calls : List SystemCall) :
    ∀ (self : System σ),
      (calls.foldl (System.call ext) self).m_cpu.m_pending_ticks
        = self.m_cpu.m_pending_ticks + (stalledTicks calls).sum ∧
      (calls.foldl (System.call ext) self).m_cpu.m_downcount
        = (requestedDowncounts calls).foldl ext.SetDowncount_value self.m_cpu.m_downcount := by
  induction calls with
  | nil =>
    intro self
    simp [stalledTicks, requestedDowncounts]
  | cons call rest ih =>
    intro self
    rw [List.foldl_cons]
    obtain ⟨h1, h2⟩ := ih (System.call ext self call)
    rw [h1, h2]
    cases call with
    | SetDowncount downcount =>
      simp only [System.call, System.SetDowncount, CPUCore.SetDowncount, stalledTicks,
        requestedDowncounts, List.foldl_cons]
      trivial
    | StallCPU ticks =>
      simp only [System.call, System.StallCPU, CPUCore.AddPendingTicks, stalledTicks,
        requestedDowncounts, List.sum_cons]
      exact ⟨by omega, trivial⟩
    | IncrementFrameNumber => exact ⟨rfl, rfl⟩
    | IncrementInternalFrameNumber => exact ⟨rfl, rfl⟩

/-- The CPU after the given components have executed one after the other. -/
theorem callsDuring_cpu {σ : Type} (ext : SystemExternals σ) (ticks : Int)
    (components : List Component) :
    ∀ (run : System σ × List SyncEvent),
      (components.foldl (fun run component => executeComponent ext component ticks run)
          run).1.m_cpu.m_pending_ticks
        = run.1.m_cpu.m_pending_ticks
          + (stalledTicks (callsDuring ext ticks components run.1)).sum ∧
      (components.foldl (fun run component => executeComponent ext component ticks run)
          run).1.m_cpu.m_downcount
        = (requestedDowncounts (callsDuring ext ticks components run.1)).foldl
            ext.SetDowncount_value run.1.m_cpu.m_downcount := by
  induction components with
  | nil =>
    intro run
    simp [callsDuring, stalledTicks, requestedDowncounts]
  | cons component rest ih =>
    intro run
    rw [List.foldl_cons]
    obtain ⟨h1, h2⟩ := ih (executeComponent ext component ticks run)
    have hstate : (executeComponent ext component ticks run).1
        = (executeComponent ext component ticks (run.1, [])).1 := rfl
    obtain ⟨h3, h4⟩ := System_call_cpu ext (ext.Execute component ticks run.1).2
      { run.1 with components := (ext.Execute component ticks run.1).1 }
    have h5 : (executeComponent ext component ticks run).1.m_cpu.m_pending_ticks
        = run.1.m_cpu.m_pending_ticks
          + (stalledTicks (ext.Execute component ticks run.1).2).sum := h3
    have h6 : (executeComponent ext component ticks run).1.m_cpu.m_downcount
        = (requestedDowncounts (ext.Execute component ticks run.1).2).foldl
            ext.SetDowncount_value run.1.m_cpu.m_downcount := h4
    rw [h1, h2, h5, h6]
    simp only [callsDuring, stalledTicks_append, requestedDowncounts_append, List.sum_append,
      List.foldl_append]
    rw [← hstate]
    exact ⟨by omega, rfl⟩

/-- A pass with nonzero pending ticks is lines 414-417 followed by the seven `Execute`
calls. -/
theorem Synchronize_eq_foldl {σ : Type} (ext : SystemExternals σ) (self : System σ)
    (h : self.m_cpu.m_pending_ticks ≠ 0) :
    Synchronize ext self =
      [Component.GPU, .Timers, .CDROM, .Pad, .SPU, .MDEC, .DMA].foldl
        (fun run component => executeComponent ext component self.m_cpu.m_pending_ticks run)
        ({ self with
            m_cpu := { m_pending_ticks := 0, m_downcount := ext.MAX_SLICE_SIZE }
            m_global_tick_counter :=
              (self.m_global_tick_counter
                + (self.m_cpu.m_pending_ticks % 4294967296).toNat) % 4294967296 },
         [SyncEvent.ResetPendingTicks, SyncEvent.ResetDowncount]) := by
  unfold Synchronize
  simp only [CPUCore.GetPendingTicks, h, if_false, CPUCore.ResetPendingTicks,
    CPUCore.ResetDowncount, List.foldl_cons, List.foldl_nil]

theorem sum_pos_of_pos (ticks : List Int) (hpos : ∀ t, t ∈ ticks → 0 < t) :
    ticks = [] ∨ 0 < ticks.sum := by
  induction ticks with
  | nil => exact Or.inl rfl
  | cons t rest ih =>
    right
    rw [List.sum_cons]
    have h1 := hpos t (List.mem_cons_self t rest)
    rcases ih (fun x hx => hpos x (List.mem_cons_of_mem t hx)) with h2 | h2
    · rw [h2]
      simpa using h1
    · omega

/-- C30 as stated fails where it says the counter is zero only if no component stalled
the CPU: on the example system, whose CPU has 5 pending ticks, the GPU of these
components calls `System::StallCPU` with zero ticks during the pass. The component
stalled the CPU, and when the pass returns the pending-tick counter is zero. -/
theorem C30_zero_stall :
    exampleSystem.m_cpu.m_pending_ticks ≠ 0 ∧
    passCalls zeroStallComponents exampleSystem = [SystemCall.StallCPU 0] ∧
    stalledTicks (passCalls zeroStallComponents exampleSystem) ≠ [] ∧
    (Synchronize zeroStallComponents exampleSystem).1.m_cpu.m_pending_ticks = 0 := by
  decide

/-- C30, amended. Ticks stalled during a pass are not lost. When a `Synchronize` pass
with nonzero pending ticks returns, the CPU's pending-tick counter is exactly the sum of
the ticks the components passed to `System::StallCPU` while they executed in that pass.
It is zero when no component stalled the CPU; when every stall of the pass is by a
positive number of ticks, it is zero only then. The downcount is the one the
`System::SetDowncount` calls of the pass have set, one after the other, starting from
the reset value: nothing clears it after them. -/
theorem C30_stalls_survive {σ : Type} (ext : SystemExternals σ) (self : System σ)
    (h : self.m_cpu.m_pending_ticks ≠ 0) :
    (Synchronize ext self).1.m_cpu.m_pending_ticks = (stalledTicks (passCalls ext self)).sum ∧
    (Synchronize ext self).1.m_cpu.m_downcount
      = (requestedDowncounts (passCalls ext self)).foldl ext.SetDowncount_value
          ext.MAX_SLICE_SIZE ∧
    (stalledTicks (passCalls ext self) = [] →
      (Synchronize ext self).1.m_cpu.m_pending_ticks = 0) ∧
    ((∀ ticks, ticks ∈ stalledTicks (passCalls ext self) → 0 < ticks) →
      (Synchronize ext self).1.m_cpu.m_pending_ticks = 0 →
      stalledTicks (passCalls ext self) = []) := by
  obtain ⟨h1, h2⟩ := callsDuring_cpu ext self.m_cpu.m_pending_ticks
    [Component.GPU, .Timers, .CDROM, .Pad, .SPU, .MDEC, .DMA]
    ({ self with
        m_cpu := { m_pending_ticks := 0, m_downcount := ext.MAX_SLICE_SIZE }
        m_global_tick_counter :=
          (self.m_global_tick_counter
            + (self.m_cpu.m_pending_ticks % 4294967296).toNat) % 4294967296 },
     [SyncEvent.ResetPendingTicks, SyncEvent.ResetDowncount])
  rw [← Synchronize_eq_foldl ext self h] at h1 h2
  have hp : (Synchronize ext self).1.m_cpu.m_pending_ticks
      = (stalledTicks (passCalls ext self)).sum := by
    rw [h1]
    simp only [passCalls, Int.zero_add]
  refine ⟨hp, h2, ?_, ?_⟩
  · intro hnone
    rw [hp, hnone]
    rfl
  · intro hpos hzero
    rcases sum_pos_of_pos _ hpos with h3 | h3
    · exact h3
    · rw [hp] at hzero
      omega

/-- An instance of C30 on the example components, whose GPU stalls the CPU by 3 ticks
and whose DMA controller asks for a downcount of 7: after the pass of the example
system 3 ticks are pending and the downcount is 7. -/
theorem C30_stalls_survive_witness :
    exampleSystem.m_cpu.m_pending_ticks ≠ 0 ∧
    passCalls exampleComponents exampleSystem
      = [SystemCall.StallCPU 3, SystemCall.SetDowncount 7] ∧
    (Synchronize exampleComponents exampleSystem).1.m_cpu.m_pending_ticks = 3 ∧
    (Synchronize exampleComponents exampleSystem).1.m_cpu.m_downcount = 7 := by
  have h := C30_stalls_survive exampleComponents exampleSystem (by decide)
  have hcalls : passCalls exampleComponents exampleSystem
      = [SystemCall.StallCPU 3, SystemCall.SetDowncount 7] := by decide
  refine ⟨by decide, hcalls, ?_, ?_⟩
  · rw [h.1, hcalls]
    decide
  · rw [h.2.1, hcalls]
    decide

/-! ## `LoadEXE` -/

theorem readU32_lt (bytes : List Nat) (offset : Nat) : readU32 bytes offset < 4294967296 := by
  unfold readU32
  omega

theorem entryExe_header :
    EXEHeader.read entryExe =
      { initial_pc := 2147549192, initial_gp := 0, load_address := 2147549184, file_size := 0,
        memfill_start := 0, memfill_size := 0, initial_sp_base := 2149580784,
        initial_sp_offset := 0 } := by
  rfl

theorem oddExe_header :
    EXEHeader.read oddExe =
      { initial_pc := 2147549184, initial_gp := 0, load_address := 2147549184, file_size := 6,
        memfill_start := 0, memfill_size := 0, initial_sp_base := 2149580784,
        initial_sp_offset := 0 } := by
  rfl

theorem tinyExe_header :
    EXEHeader.read tinyExe =
      { initial_pc := 2147549184, initial_gp := 0, load_address := 2147549184, file_size := 2,
        memfill_start := 0, memfill_size := 0, initial_sp_base := 2149580784,
        initial_sp_offset := 0 } := by
  rfl

theorem fillExe_header :
    EXEHeader.read fillExe =
      { initial_pc := 2147549188, initial_gp := 0, load_address := 2147549188, file_size := 8,
        memfill_start := 2147549186, memfill_size := 16, initial_sp_base := 2149580784,
        initial_sp_offset := 0 } := by
  rfl

theorem exampleHeaderBytes_length (a b c d e f g h : List Nat) (ha : a.length = 4)
    (hb : b.length = 4) (hc : c.length = 4) (hd : d.length = 4) (he : e.length = 4)
    (hf : f.length = 4) (hg : g.length = 4) (hh : h.length = 4) :
    (exampleHeaderBytes a b c d e f g h).length = 0x800 := by
  simp only [exampleHeaderBytes, List.length_append, List.length_replicate, List.length_cons,
    List.length_nil, ha, hb, hc, hd, he, hf, hg, hh]

theorem entryExe_length : entryExe.length = 0x800 :=
  exampleHeaderBytes_length _ _ _ _ _ _ _ _ rfl rfl rfl rfl rfl rfl rfl rfl

theorem entryExe_body : entryExe.drop 0x800 = [] :=
  List.drop_of_length_le (Nat.le_of_eq entryExe_length)

theorem oddExe_body : oddExe.drop 0x800 = [1, 2, 3, 4, 5, 6] :=
  List.drop_left' (exampleHeaderBytes_length _ _ _ _ _ _ _ _ rfl rfl rfl rfl rfl rfl rfl rfl)

theorem tinyExe_body : tinyExe.drop 0x800 = [1, 2] :=
  List.drop_left' (exampleHeaderBytes_length _ _ _ _ _ _ _ _ rfl rfl rfl rfl rfl rfl rfl rfl)

theorem fillExe_body : fillExe.drop 0x800 = [1, 2, 3, 4, 5, 6, 7, 8] :=
  List.drop_left' (exampleHeaderBytes_length _ _ _ _ _ _ _ _ rfl rfl rfl rfl rfl rfl rfl rfl)

/-- The calls of the word loops of lines 345-349 and 363-367: word `i` goes to the start
address plus `4 * i`, modulo `2^32`. -/
theorem writeMemoryWords_events {σ : Type} (ext : BootExternals σ) :
    ∀ (words : List Nat) (address : Nat) (run : σ × List BootEvent),
      address < 4294967296 →
      (writeMemoryWords ext words address run).2 =
        run.2 ++ (List.range words.length).map fun i =>
          BootEvent.SafeWriteMemoryWord ((address + 4 * i) % 4294967296) (words.getD i 0) := by
  intro words
  induction words with
  | nil =>
    intro address run _
    simp [writeMemoryWords]
  | cons word rest ih =>
    intro address run haddr
    unfold writeMemoryWords
    rw [ih _ _ (Nat.mod_lt _ (by norm_num))]
    simp only [List.length_cons, List.range_succ_eq_map, List.map_cons, List.map_map,
      List.append_assoc, List.singleton_append, Nat.mul_zero, Nat.add_zero,
      List.getD_cons_zero, Nat.mod_eq_of_lt haddr]
    congr 2
    apply List.map_congr_left
    intro i _
    simp only [Function.comp, List.getD_cons_succ]
    congr 1
    omega

/-- A word loop leaves alone every address it does not write to. -/
theorem writeMemoryWords_other {σ : Type} (ext : BootExternals σ) (read : Nat → σ → Nat)
    (hother : ∀ a b v s, a ≠ b → read b (ext.SafeWriteMemoryWord a v s) = read b s) :
    ∀ (words : List Nat) (address : Nat) (run : σ × List BootEvent) (b : Nat),
      address < 4294967296 →
      (∀ i, i < words.length → (address + 4 * i) % 4294967296 ≠ b) →
      read b (writeMemoryWords ext words address run).1 = read b run.1 := by
  intro words
  induction words with
  | nil =>
    intro address run b _ _
    rfl
  | cons word rest ih =>
    intro address run b haddr hne
    unfold writeMemoryWords
    rw [ih _ _ b (Nat.mod_lt _ (by norm_num))]
    · apply hother
      have := hne 0 (by simp)
      rw [Nat.mul_zero, Nat.add_zero, Nat.mod_eq_of_lt haddr] at this
      exact this
    · intro i hi
      have := hne (i + 1) (by simpa using hi)
      intro heq
      apply this
      rw [← heq]
      omega

/-- After a word loop of at most `2^30` words, each address it wrote to holds its
word. -/
theorem writeMemoryWords_read {σ : Type} (ext : BootExternals σ) (read : Nat → σ → Nat)
    (hsame : ∀ a v s, read a (ext.SafeWriteMemoryWord a v s) = v)
    (hother : ∀ a b v s, a ≠ b → read b (ext.SafeWriteMemoryWord a v s) = read b s) :
    ∀ (words : List Nat) (address : Nat) (run : σ × List BootEvent),
      address < 4294967296 → words.length ≤ 1073741824 →
      ∀ i, i < words.length →
        read ((address + 4 * i) % 4294967296) (writeMemoryWords ext words address run).1
          = words.getD i 0 := by
  intro words
  induction words with
  | nil =>
    intro address run _ _ i hi
    exact absurd hi (Nat.not_lt_zero i)
  | cons word rest ih =>
    intro address run haddr hlen i hi
    simp only [List.length_cons] at hlen hi
    unfold writeMemoryWords
    cases i with
    | zero =>
      rw [Nat.mul_zero, Nat.add_zero, Nat.mod_eq_of_lt haddr,
        writeMemoryWords_other ext read hother rest _ _ address (Nat.mod_lt _ (by norm_num))]
      · simp only [List.getD_cons_zero]
        exact hsame _ _ _
      · intro j hj
        omega
    | succ i =>
      have h := ih ((address + 4) % 4294967296)
        (ext.SafeWriteMemoryWord address word run.1,
          run.2 ++ [BootEvent.SafeWriteMemoryWord address word])
        (Nat.mod_lt _ (by norm_num)) (by omega) i (by omega)
      have e : ((address + 4) % 4294967296 + 4 * i) % 4294967296
          = (address + 4 * (i + 1)) % 4294967296 := by omega
      rw [e] at h
      rw [h, List.getD_cons_succ]

theorem zeroFill_eq {σ : Type} (ext : BootExternals σ) (size address : Nat)
    (run : σ × List BootEvent) :
    (if size > 0 then writeMemoryWords ext (List.replicate (size / 4) 0) address run else run)
      = writeMemoryWords ext (List.replicate (size / 4) 0) address run := by
  by_cases h : size > 0
  · rw [if_pos h]
  · rw [if_neg h]
    have h0 : size / 4 = 0 := by omega
    rw [h0]
    rfl

theorem bodyCopy_eq {σ : Type} (ext : BootExternals σ) (size address : Nat) (body : List Nat)
    (run : σ × List BootEvent) :
    (if size ≥ 4 then
        writeMemoryWords ext ((List.range (size / 4)).map (fun i => readU32 body (4 * i)))
          address run
      else run)
      = writeMemoryWords ext ((List.range (size / 4)).map (fun i => readU32 body (4 * i)))
          address run := by
  by_cases h : size ≥ 4
  · rw [if_pos h]
  · rw [if_neg h]
    have h0 : size / 4 = 0 := by omega
    rw [h0]
    rfl

/-- A run of `LoadEXE` that reads the header and, when the header declares a body of 4
bytes or more, the body: the zero-fill loop, the body loop, then `PatchBIOSForEXE`,
whose result is returned. -/
theorem LoadEXE_patched {σ : Type} (ext : BootExternals σ) (filename : String)
    (bios_image : List Nat) (components : σ) (bytes : List Nat)
    (hfile : ext.file filename = some bytes) (hlen : 0x800 ≤ bytes.length)
    (hfit : ¬ ((EXEHeader.read bytes).file_size ≥ 4 ∧
      4 * ((EXEHeader.read bytes).file_size / 4)
        < min (bytes.drop 0x800).length (EXEHeader.read bytes).file_size))
    (hbody : ¬ ((EXEHeader.read bytes).file_size ≥ 4 ∧
      (bytes.drop 0x800).length < (EXEHeader.read bytes).file_size)) :
    LoadEXE ext filename bios_image components =
      { result := .returned
          (ext.PatchBIOSForEXE bios_image (EXEHeader.read bytes).load_address
            (EXEHeader.read bytes).initial_gp (EXEHeader.read bytes).initial_sp_base
            (((EXEHeader.read bytes).initial_sp_base
              + (EXEHeader.read bytes).initial_sp_offset) % 4294967296)).1
        bios_image :=
          (ext.PatchBIOSForEXE bios_image (EXEHeader.read bytes).load_address
            (EXEHeader.read bytes).initial_gp (EXEHeader.read bytes).initial_sp_base
            (((EXEHeader.read bytes).initial_sp_base
              + (EXEHeader.read bytes).initial_sp_offset) % 4294967296)).2
        components :=
          (writeMemoryWords ext
            ((List.range ((EXEHeader.read bytes).file_size / 4)).map
              (fun i => readU32 (bytes.drop 0x800) (4 * i)))
            (EXEHeader.read bytes).load_address
            (writeMemoryWords ext (List.replicate ((EXEHeader.read bytes).memfill_size / 4) 0)
              ((EXEHeader.read bytes).memfill_start - (EXEHeader.read bytes).memfill_start % 4)
              (components, [BootEvent.fopen filename]))).1
        trace :=
          (writeMemoryWords ext
            ((List.range ((EXEHeader.read bytes).file_size / 4)).map
              (fun i => readU32 (bytes.drop 0x800) (4 * i)))
            (EXEHeader.read bytes).load_address
            (writeMemoryWords ext (List.replicate ((EXEHeader.read bytes).memfill_size / 4) 0)
              ((EXEHeader.read bytes).memfill_start - (EXEHeader.read bytes).memfill_start % 4)
              (components, [BootEvent.fopen filename]))).2
          ++ [BootEvent.PatchBIOSForEXE (EXEHeader.read bytes).load_address
            (EXEHeader.read bytes).initial_gp (EXEHeader.read bytes).initial_sp_base
            (((EXEHeader.read bytes).initial_sp_base
              + (EXEHeader.read bytes).initial_sp_offset) % 4294967296)] } := by
  unfold LoadEXE
  simp only [hfile]
  rw [if_neg (by omega), if_neg hfit, if_neg hbody, zeroFill_eq, bodyCopy_eq]

/-- A run of `LoadEXE` in which `fread` stores more bytes than the vector of line 354
holds. -/
theorem LoadEXE_overrun {σ : Type} (ext : BootExternals σ) (filename : String)
    (bios_image : List Nat) (components : σ) (bytes : List Nat)
    (hfile : ext.file filename = some bytes) (hlen : 0x800 ≤ bytes.length)
    (hover : (EXEHeader.read bytes).file_size ≥ 4 ∧
      4 * ((EXEHeader.read bytes).file_size / 4)
        < min (bytes.drop 0x800).length (EXEHeader.read bytes).file_size) :
    (LoadEXE ext filename bios_image components).result = .undefinedBehaviour := by
  unfold LoadEXE
  simp only [hfile]
  rw [if_neg (by omega), if_pos hover]

/-- A run of `LoadEXE` returns `true` only past the two reads. -/
theorem LoadEXE_returned_true {σ : Type} (ext : BootExternals σ) (filename : String)
    (bios_image : List Nat) (components : σ) (bytes : List Nat)
    (hfile : ext.file filename = some bytes)
    (hok : (LoadEXE ext filename bios_image components).result = .returned true) :
    0x800 ≤ bytes.length ∧
    ¬ ((EXEHeader.read bytes).file_size ≥ 4 ∧
      4 * ((EXEHeader.read bytes).file_size / 4)
        < min (bytes.drop 0x800).length (EXEHeader.read bytes).file_size) ∧
    ¬ ((EXEHeader.read bytes).file_size ≥ 4 ∧
      (bytes.drop 0x800).length < (EXEHeader.read bytes).file_size) := by
  unfold LoadEXE at hok
  simp only [hfile] at hok
  by_cases hlen : bytes.length < 0x800
  · rw [if_pos hlen] at hok
    simp at hok
  · rw [if_neg hlen] at hok
    by_cases hfit : (EXEHeader.read bytes).file_size ≥ 4 ∧
        4 * ((EXEHeader.read bytes).file_size / 4)
          < min (bytes.drop 0x800).length (EXEHeader.read bytes).file_size
    · rw [if_pos hfit] at hok
      simp at hok
    · rw [if_neg hfit] at hok
      by_cases hbody : (EXEHeader.read bytes).file_size ≥ 4 ∧
          (bytes.drop 0x800).length < (EXEHeader.read bytes).file_size
      · rw [if_pos hbody] at hok
        simp at hok
      · exact ⟨by omega, hfit, hbody⟩

theorem getD_replicate_zero (n i : Nat) : (List.replicate n 0).getD i 0 = 0 := by
  rw [List.getD_eq_getElem?_getD, List.getElem?_replicate]
  split <;> rfl

theorem getD_range_map (f : Nat → Nat) (n i : Nat) (hi : i < n) :
    ((List.range n).map f).getD i 0 = f i := by
  rw [List.getD_eq_getElem?_getD, List.getElem?_map, List.getElem?_range hi]
  rfl

theorem zeroFill_trace {σ : Type} (ext : BootExternals σ) (n address : Nat)
    (run : σ × List BootEvent) (haddr : address < 4294967296) :
    (writeMemoryWords ext (List.replicate n 0) address run).2 =
      run.2 ++ (List.range n).map fun i =>
        BootEvent.SafeWriteMemoryWord ((address + 4 * i) % 4294967296) 0 := by
  rw [writeMemoryWords_events ext _ _ _ haddr, List.length_replicate]
  congr 1
  apply List.map_congr_left
  intro i _
  rw [getD_replicate_zero]

theorem bodyCopy_trace {σ : Type} (ext : BootExternals σ) (f : Nat → Nat) (n address : Nat)
    (run : σ × List BootEvent) (haddr : address < 4294967296) :
    (writeMemoryWords ext ((List.range n).map f) address run).2 =
      run.2 ++ (List.range n).map fun i =>
        BootEvent.SafeWriteMemoryWord ((address + 4 * i) % 4294967296) (f i) := by
  rw [writeMemoryWords_events ext _ _ _ haddr, List.length_map, List.length_range]
  congr 1
  apply List.map_congr_left
  intro i hi
  rw [getD_range_map f n i (List.mem_range.mp hi)]

/-- A run of `LoadEXE` that reads the header but not the body: it has made the zero-fill
writes and nothing more, and it does not return `true`. -/
theorem LoadEXE_stopped {σ : Type} (ext : BootExternals σ) (filename : String)
    (bios_image : List Nat) (components : σ) (bytes : List Nat)
    (hfile : ext.file filename = some bytes) (hlen : 0x800 ≤ bytes.length)
    (hstop : ((EXEHeader.read bytes).file_size ≥ 4 ∧
        4 * ((EXEHeader.read bytes).file_size / 4)
          < min (bytes.drop 0x800).length (EXEHeader.read bytes).file_size) ∨
      ((EXEHeader.read bytes).file_size ≥ 4 ∧
        (bytes.drop 0x800).length < (EXEHeader.read bytes).file_size)) :
    (LoadEXE ext filename bios_image components).trace =
      (writeMemoryWords ext (List.replicate ((EXEHeader.read bytes).memfill_size / 4) 0)
        ((EXEHeader.read bytes).memfill_start - (EXEHeader.read bytes).memfill_start % 4)
        (components, [BootEvent.fopen filename])).2 ∧
    (LoadEXE ext filename bios_image components).result ≠ .returned true := by
  unfold LoadEXE
  simp only [hfile]
  rw [if_neg (by omega), zeroFill_eq]
  by_cases hfit : (EXEHeader.read bytes).file_size ≥ 4 ∧
      4 * ((EXEHeader.read bytes).file_size / 4)
        < min (bytes.drop 0x800).length (EXEHeader.read bytes).file_size
  · rw [if_pos hfit]
    exact ⟨rfl, by simp⟩
  · rw [if_neg hfit]
    have hbody := hstop.resolve_left hfit
    rw [if_pos hbody]
    exact ⟨rfl, by simp⟩

/-- C26. For every executable file whose header `LoadEXE` reads: the calls after `fopen`
start with the zero-fill writes, `memfill_size / 4` zero words at consecutive word
addresses (modulo `2^32`) from `memfill_start` rounded down to a multiple of 4; what
follows them is nothing, when the body cannot be read, or the body writes and then
`PatchBIOSForEXE`. So every zero-fill write comes before the first body write, and the
patch after both. When the run returns `true`, then for a memory that holds each word
written to it until the address is written again, every body address holds its body
word afterwards, also where the zero-fill region covers it, and a zero-fill address
that is no body address holds zero. -/
theorem C26_zero_fill_then_body {σ : Type} (ext : BootExternals σ) (filename : String)
    (bios_image : List Nat) (components : σ) (bytes : List Nat)
    (hfile : ext.file filename = some bytes) (hlen : 0x800 ≤ bytes.length) :
    (∃ later,
      (LoadEXE ext filename bios_image components).trace
        = BootEvent.fopen filename :: zeroFillWrites (EXEHeader.read bytes) ++ later ∧
      (later = [] ∨
        later = bodyWrites (EXEHeader.read bytes) (bytes.drop 0x800)
          ++ [BootEvent.PatchBIOSForEXE (EXEHeader.read bytes).load_address
            (EXEHeader.read bytes).initial_gp (EXEHeader.read bytes).initial_sp_base
            (((EXEHeader.read bytes).initial_sp_base
              + (EXEHeader.read bytes).initial_sp_offset) % 4294967296)])) ∧
    ((LoadEXE ext filename bios_image components).result = .returned true →
      (LoadEXE ext filename bios_image components).trace
        = BootEvent.fopen filename :: zeroFillWrites (EXEHeader.read bytes)
          ++ bodyWrites (EXEHeader.read bytes) (bytes.drop 0x800)
          ++ [BootEvent.PatchBIOSForEXE (EXEHeader.read bytes).load_address
            (EXEHeader.read bytes).initial_gp (EXEHeader.read bytes).initial_sp_base
            (((EXEHeader.read bytes).initial_sp_base
              + (EXEHeader.read bytes).initial_sp_offset) % 4294967296)] ∧
      ∀ read : Nat → σ → Nat,
        (∀ a v s, read a (ext.SafeWriteMemoryWord a v s) = v) →
        (∀ a b v s, a ≠ b → read b (ext.SafeWriteMemoryWord a v s) = read b s) →
        (∀ i, i < (EXEHeader.read bytes).file_size / 4 →
          read (((EXEHeader.read bytes).load_address + 4 * i) % 4294967296)
              (LoadEXE ext filename bios_image components).components
            = readU32 (bytes.drop 0x800) (4 * i)) ∧
        (∀ j, j < (EXEHeader.read bytes).memfill_size / 4 →
          (∀ i, i < (EXEHeader.read bytes).file_size / 4 →
            ((EXEHeader.read bytes).load_address + 4 * i) % 4294967296
              ≠ ((EXEHeader.read bytes).memfill_start
                  - (EXEHeader.read bytes).memfill_start % 4 + 4 * j) % 4294967296) →
          read (((EXEHeader.read bytes).memfill_start
                - (EXEHeader.read bytes).memfill_start % 4 + 4 * j) % 4294967296)
              (LoadEXE ext filename bios_image components).components
            = 0)) := by
  have hstart : (EXEHeader.read bytes).memfill_start
      - (EXEHeader.read bytes).memfill_start % 4 < 4294967296 := by
    have : (EXEHeader.read bytes).memfill_start < 4294967296 := readU32_lt _ _
    omega
  have hload : (EXEHeader.read bytes).load_address < 4294967296 := readU32_lt _ _
  have hsize : (EXEHeader.read bytes).file_size < 4294967296 := readU32_lt _ _
  have hfillsize : (EXEHeader.read bytes).memfill_size < 4294967296 := readU32_lt _ _
  have hpatched : ¬ ((EXEHeader.read bytes).file_size ≥ 4 ∧
        4 * ((EXEHeader.read bytes).file_size / 4)
          < min (bytes.drop 0x800).length (EXEHeader.read bytes).file_size) →
      ¬ ((EXEHeader.read bytes).file_size ≥ 4 ∧
        (bytes.drop 0x800).length < (EXEHeader.read bytes).file_size) →
      (LoadEXE ext filename bios_image components).trace
        = BootEvent.fopen filename :: zeroFillWrites (EXEHeader.read bytes)
          ++ bodyWrites (EXEHeader.read bytes) (bytes.drop 0x800)
          ++ [BootEvent.PatchBIOSForEXE (EXEHeader.read bytes).load_address
            (EXEHeader.read bytes).initial_gp (EXEHeader.read bytes).initial_sp_base
            (((EXEHeader.read bytes).initial_sp_base
              + (EXEHeader.read bytes).initial_sp_offset) % 4294967296)] := by
    intro hfit hbody
    rw [LoadEXE_patched ext filename bios_image components bytes hfile hlen hfit hbody]
    simp only
    rw [bodyCopy_trace ext _ _ _ _ hload, zeroFill_trace ext _ _ _ hstart]
    rfl
  constructor
  · by_cases hstop : ((EXEHeader.read bytes).file_size ≥ 4 ∧
        4 * ((EXEHeader.read bytes).file_size / 4)
          < min (bytes.drop 0x800).length (EXEHeader.read bytes).file_size) ∨
      ((EXEHeader.read bytes).file_size ≥ 4 ∧
        (bytes.drop 0x800).length < (EXEHeader.read bytes).file_size)
    · refine ⟨[], ?_, Or.inl rfl⟩
      rw [(LoadEXE_stopped ext filename bios_image components bytes hfile hlen hstop).1,
        zeroFill_trace ext _ _ _ hstart, List.append_nil]
      rfl
    · have hfit := fun h => hstop (Or.inl h)
      have hbody := fun h => hstop (Or.inr h)
      refine ⟨_, ?_, Or.inr rfl⟩
      rw [hpatched hfit hbody]
      simp only [List.cons_append, List.append_assoc]
  · intro hok
    obtain ⟨-, hfit, hbody⟩ :=
      LoadEXE_returned_true ext filename bios_image components bytes hfile hok
    refine ⟨hpatched hfit hbody, ?_⟩
    intro read hsame hother
    rw [LoadEXE_patched ext filename bios_image components bytes hfile hlen hfit hbody]
    simp only
    constructor
    · intro i hi
      rw [writeMemoryWords_read ext read hsame hother _ _ _ hload
        (by rw [List.length_map, List.length_range]; omega) i
        (by rw [List.length_map, List.length_range]; exact hi)]
      exact getD_range_map _ _ i hi
    · intro j hj hne
      rw [writeMemoryWords_other ext read hother _ _ _ _ hload
        (by
          intro i hi
          rw [List.length_map, List.length_range] at hi
          exact hne i hi)]
      rw [writeMemoryWords_read ext read hsame hother _ _ _ hstart
        (by rw [List.length_replicate]; omega) j (by rw [List.length_replicate]; exact hj)]
      exact getD_replicate_zero _ _

theorem fillExe_length : fillExe.length = 0x800 + 8 := by
  simp only [fillExe, exampleHeaderBytes, List.length_append, List.length_replicate,
    List.length_cons, List.length_nil]

theorem fillExe_loads : (LoadEXE exeHost "fill.exe" [0] []).result = .returned true := by
  rw [LoadEXE_patched exeHost "fill.exe" [0] [] fillExe rfl
    (by rw [fillExe_length]; decide)
    (by rw [fillExe_header, fillExe_body]; decide)
    (by rw [fillExe_header, fillExe_body]; decide)]
  rfl

theorem exampleMemoryWord_same (a v : Nat) (s : List (Nat × Nat)) :
    exampleMemoryWord a (exeHost.SafeWriteMemoryWord a v s) = v := by
  simp [exampleMemoryWord, exeHost, List.lookup]

theorem exampleMemoryWord_other (a b v : Nat) (s : List (Nat × Nat)) (h : a ≠ b) :
    exampleMemoryWord b (exeHost.SafeWriteMemoryWord a v s) = exampleMemoryWord b s := by
  have hba : (b == a) = false := by
    simpa using fun heq : b = a => h heq.symm
  simp [exampleMemoryWord, exeHost, List.lookup, hba]

/-- An instance of C26: the executable `fill.exe` has a zero-fill region of four words
from `0x80010000` and a body of two words at `0x80010004`. The run returns `true`;
its calls are `fopen`, the four zero writes, the two body writes and the patch; and the
memory then holds the first body word at `0x80010004`, inside the zero-fill region, and
zero at `0x80010000`. -/
theorem C26_zero_fill_then_body_witness :
    exeHost.file "fill.exe" = some fillExe ∧ 0x800 ≤ fillExe.length ∧
    (LoadEXE exeHost "fill.exe" [0] []).result = .returned true ∧
    (LoadEXE exeHost "fill.exe" [0] []).trace =
      [BootEvent.fopen "fill.exe",
       BootEvent.SafeWriteMemoryWord 2147549184 0, BootEvent.SafeWriteMemoryWord 2147549188 0,
       BootEvent.SafeWriteMemoryWord 2147549192 0, BootEvent.SafeWriteMemoryWord 2147549196 0,
       BootEvent.SafeWriteMemoryWord 2147549188 67305985,
       BootEvent.SafeWriteMemoryWord 2147549192 134678021,
       BootEvent.PatchBIOSForEXE 2147549188 0 2149580784 2149580784] ∧
    exampleMemoryWord 2147549188 (LoadEXE exeHost "fill.exe" [0] []).components = 67305985 ∧
    exampleMemoryWord 2147549184 (LoadEXE exeHost "fill.exe" [0] []).components = 0 := by
  have hlen : 0x800 ≤ fillExe.length := by rw [fillExe_length]; decide
  obtain ⟨htrace, hmem⟩ :=
    (C26_zero_fill_then_body exeHost "fill.exe" [0] [] fillExe rfl hlen).2 fillExe_loads
  obtain ⟨hbody, hzero⟩ := hmem exampleMemoryWord exampleMemoryWord_same
    (fun a b v s h => exampleMemoryWord_other a b v s h)
  rw [fillExe_header, fillExe_body] at htrace hbody
  rw [fillExe_header] at hzero
  refine ⟨rfl, hlen, fillExe_loads, ?_, ?_, ?_⟩
  · rw [htrace]
    rfl
  · exact hbody 0 (by decide)
  · exact hzero 0 (by decide) (by decide)

/-- C21, the code at a failing input. The executable `entry.exe` declares a body of size
0, the initial program counter `0x80010008` and the load address `0x80010000`.
`LoadEXE` returns `true` having written no word to memory, and its one call after
`fopen` is `PatchBIOSForEXE` with the program counter `0x80010000`: line 373 passes the
header's load address, not its initial program counter. The global pointer is the
header's, the stack pointer its stack base, the frame pointer base plus offset. -/
theorem C21_load_address_as_pc :
    exeHost.file "entry.exe" = some entryExe ∧
    (EXEHeader.read entryExe).file_size = 0 ∧
    (EXEHeader.read entryExe).initial_pc = 2147549192 ∧
    (EXEHeader.read entryExe).load_address = 2147549184 ∧
    (LoadEXE exeHost "entry.exe" [0] []).result = .returned true ∧
    (LoadEXE exeHost "entry.exe" [0] []).components = [] ∧
    (LoadEXE exeHost "entry.exe" [0] []).trace =
      [BootEvent.fopen "entry.exe",
       BootEvent.PatchBIOSForEXE 2147549184 0 2149580784 2149580784] := by
  have hrun := LoadEXE_patched exeHost "entry.exe" [0] [] entryExe rfl
    (Nat.le_of_eq entryExe_length.symm)
    (by rw [entryExe_header, entryExe_body]; decide)
    (by rw [entryExe_header, entryExe_body]; decide)
  rw [entryExe_header, entryExe_body] at hrun
  rw [hrun, entryExe_header]
  exact ⟨rfl, rfl, rfl, rfl, rfl, rfl, rfl⟩

theorem oddExe_length : oddExe.length = 0x800 + 6 := by
  simp only [oddExe, exampleHeaderBytes, List.length_append, List.length_replicate,
    List.length_cons, List.length_nil]

theorem tinyExe_length : tinyExe.length = 0x800 + 2 := by
  simp only [tinyExe, exampleHeaderBytes, List.length_append, List.length_replicate,
    List.length_cons, List.length_nil]

/-- C22, the code at two failing inputs. The executable `odd.exe` declares a body of 6
bytes and holds them: line 354 makes a vector of `6 / 4 = 1` word and line 355 reads 6
bytes into it, past its end. The executable `tiny.exe` declares a body of 2 bytes and
holds them: line 352 skips the copy for a size below 4, so `LoadEXE` returns `true`
with no word written to memory; its only call after `fopen` is the patch. -/
theorem C22_body_not_copied :
    (exeHost.file "odd.exe" = some oddExe ∧
      (EXEHeader.read oddExe).file_size = 6 ∧
      oddExe.drop 0x800 = [1, 2, 3, 4, 5, 6] ∧
      (LoadEXE exeHost "odd.exe" [0] []).result = .undefinedBehaviour) ∧
    (exeHost.file "tiny.exe" = some tinyExe ∧
      (EXEHeader.read tinyExe).file_size = 2 ∧
      tinyExe.drop 0x800 = [1, 2] ∧
      (LoadEXE exeHost "tiny.exe" [0] []).result = .returned true ∧
      (LoadEXE exeHost "tiny.exe" [0] []).components = [] ∧
      (LoadEXE exeHost "tiny.exe" [0] []).trace =
        [BootEvent.fopen "tiny.exe",
         BootEvent.PatchBIOSForEXE 2147549184 0 2149580784 2149580784]) := by
  constructor
  · refine ⟨rfl, by rw [oddExe_header], oddExe_body, ?_⟩
    exact LoadEXE_overrun exeHost "odd.exe" [0] [] oddExe rfl
      (by rw [oddExe_length]; decide)
      (by rw [oddExe_header, oddExe_body]; decide)
  · have hrun := LoadEXE_patched exeHost "tiny.exe" [0] [] tinyExe rfl
      (by rw [tinyExe_length]; decide)
      (by rw [tinyExe_header, tinyExe_body]; decide)
      (by rw [tinyExe_header, tinyExe_body]; decide)
    rw [tinyExe_header, tinyExe_body] at hrun
    rw [hrun, tinyExe_header]
    exact ⟨rfl, rfl, tinyExe_body, rfl, rfl, rfl⟩

end DuckStation
